import Mathlib

/-!
# Football competition backend: match lifecycle and result recording

A shallow embedding of the match entity (`internal/domain/entity/match.go`),
the goal entity (`internal/domain/entity/goal.go`), the match use case
(`internal/domain/usecase/match_usecase.go`), the match request bodies
(`internal/delivery/http/dto/match_dto.go`), the create, update and record
result paths of the match handler
(`internal/delivery/http/handler/match_handler.go`), the player use case
(`internal/domain/usecase/player_usecase.go`), the lookup by id of the team
use case (`internal/domain/usecase/team_usecase.go`), the jersey number, top
scorer and listing queries of the player repository
(`internal/infrastructure/database/player_repository_impl.go`), the listing
query of the team repository
(`internal/infrastructure/database/team_repository_impl.go`) and the page and
limit clamping of the list handlers, with theorems about them. The use cases
are embedded over the repository interfaces; the record store behind the
interfaces is a set of tables held as lists.

Conventions of the embedding:

* `uuid.UUID` is a natural number, `uuid.Nil` is `0`.
* Go `int` values are `Int`. Scores, minutes and jersey numbers are only
  compared; the offset of a listing is computed, and is wrapped to 64 bits
  by `wrapInt`.
* A nullable `*int` is an `Option Int`.
* Go string types (`MatchStatus`, `MatchResult`) are `String`.
* Go `error` values are the closed type `Err`: one constructor per package
  level sentinel, one for an error made by `errors.New` at the place where it
  is returned, one for any other failure of the record store.
* A use case method that talks to the record store is a function from the
  store state to a result paired with the store state after the call, so
  that what was written before a failure stays visible.
* A repository method that hands back its result and its error both, as
  `GetTopScorers` does, is a function to a pair of the result and an
  `Option Err`.
-/

namespace Football

/-! ## Entities -/

/-- Go `uuid.UUID`. -/
abbrev UUID := Nat

/-- Go `error` values that occur in the use cases. -/
inductive Err where
  /-- Sentinel `gorm.ErrRecordNotFound`. -/
  | ErrRecordNotFound
  /-- Sentinel `usecase.ErrMatchNotFound`. -/
  | ErrMatchNotFound
  /-- Sentinel `usecase.ErrSameTeamMatch`. -/
  | ErrSameTeamMatch
  /-- Sentinel `usecase.ErrMatchAlreadyPlayed`. -/
  | ErrMatchAlreadyPlayed
  /-- Sentinel `usecase.ErrMatchNotCompleted`. -/
  | ErrMatchNotCompleted
  /-- Sentinel `usecase.ErrInvalidMatchStatus`. -/
  | ErrInvalidMatchStatus
  /-- Sentinel `usecase.ErrTeamNotFound`. -/
  | ErrTeamNotFound
  /-- Sentinel `usecase.ErrPlayerNotFound`. -/
  | ErrPlayerNotFound
  /-- Sentinel `usecase.ErrJerseyNumberTaken`. -/
  | ErrJerseyNumberTaken
  /-- Sentinel `usecase.ErrInvalidPosition`. -/
  | ErrInvalidPosition
  /-- Sentinel `usecase.ErrInvalidJerseyNumber`. -/
  | ErrInvalidJerseyNumber
  /-- An error value made by `errors.New msg` where it is returned: it is
  identical to no sentinel, whatever its message. -/
  | New (msg : String)
  /-- Any other failure reported by the record store. -/
  | StoreFailure (code : Nat)
  deriving DecidableEq, Repr

/-- Go `entity.MatchStatus`, a string type. -/
abbrev MatchStatus := String

/-- Constant `entity.MatchStatusScheduled`. -/
def MatchStatusScheduled : MatchStatus := "scheduled"
/-- Constant `entity.MatchStatusOngoing`. -/
def MatchStatusOngoing : MatchStatus := "ongoing"
/-- Constant `entity.MatchStatusCompleted`. -/
def MatchStatusCompleted : MatchStatus := "completed"
/-- Constant `entity.MatchStatusCancelled`. -/
def MatchStatusCancelled : MatchStatus := "cancelled"

/-- Go `entity.MatchResult`, a string type. -/
abbrev MatchResult := String

/-- Constant `entity.ResultHomeWin`. -/
def ResultHomeWin : MatchResult := "home_win"
/-- Constant `entity.ResultAwayWin`. -/
def ResultAwayWin : MatchResult := "away_win"
/-- Constant `entity.ResultDraw`. -/
def ResultDraw : MatchResult := "draw"

/-- Go `entity.Goal`. The embedded `BaseEntity` is not among the sources; of it
the identity `ID` and the soft-delete mark `Deleted` (a set `deleted_at`) are
kept. The preloaded `Match`, `Player` and `Team` pointers are left out. -/
structure Goal where
  ID : UUID
  Deleted : Bool
  MatchID : UUID
  PlayerID : UUID
  TeamID : UUID
  Minute : Int
  IsOwnGoal : Bool
  deriving DecidableEq, Repr

/-- Go `entity.Match`. The embedded `BaseEntity` is not among the sources; of it
the identity `ID` and the soft-delete mark `Deleted` are kept. `MatchDate` is
a day number. The preloaded `HomeTeam` and `AwayTeam` pointers are left out;
`Goals` is the preloaded association. -/
structure Match where
  ID : UUID
  Deleted : Bool
  MatchDate : Nat
  MatchTime : String
  HomeTeamID : UUID
  AwayTeamID : UUID
  HomeScore : Option Int
  AwayScore : Option Int
  Status : MatchStatus
  Goals : List Goal
  deriving DecidableEq, Repr

/-- Go `(*Match).GetResult`. -/
def Match.GetResult (m : Match) : MatchResult :=
  match m.HomeScore, m.AwayScore with
  | some home, some away =>
    if home > away then ResultHomeWin
    else if away > home then ResultAwayWin
    else ResultDraw
  | _, _ => ""

/-- Go `(*Match).GetResultDisplay`. -/
def Match.GetResultDisplay (m : Match) : String :=
  let result := m.GetResult
  if result = ResultHomeWin then "Home Team Win"
  else if result = ResultAwayWin then "Away Team Win"
  else if result = ResultDraw then "Draw"
  else "Not Played"

/-- Go `entity.Team`, with `ID` and `Deleted` of the embedded `BaseEntity`.
The preloaded `Players` association is left out. -/
structure Team where
  ID : UUID
  Deleted : Bool
  Name : String
  Logo : String
  FoundedYear : Int
  Address : String
  City : String
  deriving DecidableEq, Repr

/-- Go `entity.PlayerPosition`, a string type. -/
abbrev PlayerPosition := String

/-- Go `entity.Player`, with `ID` and `Deleted` of the embedded `BaseEntity`.
The floating point `Height` and `Weight` and the preloaded `Team` pointer are
left out. -/
structure Player where
  ID : UUID
  Deleted : Bool
  TeamID : UUID
  Name : String
  Position : PlayerPosition
  JerseyNumber : Int
  deriving DecidableEq, Repr

/-- Constant `entity.PositionForward`. -/
def PositionForward : PlayerPosition := "forward"
/-- Constant `entity.PositionMidfielder`. -/
def PositionMidfielder : PlayerPosition := "midfielder"
/-- Constant `entity.PositionDefender`. -/
def PositionDefender : PlayerPosition := "defender"
/-- Constant `entity.PositionGoalkeeper`. -/
def PositionGoalkeeper : PlayerPosition := "goalkeeper"

/-- Go `entity.ValidPositions`. -/
def ValidPositions : List PlayerPosition :=
  [PositionForward, PositionMidfielder, PositionDefender, PositionGoalkeeper]

/-- Go `entity.IsValidPosition`: the loop over `ValidPositions()` returns true
at the first position equal to the given one, false after the last. -/
def IsValidPosition (position : PlayerPosition) : Bool :=
  ValidPositions.any (fun p => p == position)

/-! ## Use case inputs -/

/-- Go `usecase.GoalInput`. -/
structure GoalInput where
  PlayerID : UUID
  TeamID : UUID
  Minute : Int
  IsOwnGoal : Bool
  deriving DecidableEq, Repr

/-- Go `usecase.MatchResultInput`. -/
structure MatchResultInput where
  HomeScore : Int
  AwayScore : Int
  Goals : List GoalInput
  deriving DecidableEq, Repr

/-! ## Repository contracts

The use cases are written against the interfaces of
`internal/domain/repository`. `Repositories σ` collects the methods the match
and player use cases call, over a store state `σ`: a query returns its answer or an
error, a write returns the store state after it or an error (a write that
reports an error has written nothing). -/

/-- The methods of `repository.TeamRepository`, `PlayerRepository`,
`MatchRepository` and `GoalRepository` that the match and player use cases
call. -/
structure Repositories (σ : Type) where
  /-- Method `TeamRepository.Exists`. -/
  teamExists : σ → UUID → Except Err Bool
  /-- Method `PlayerRepository.Exists`. -/
  playerExists : σ → UUID → Except Err Bool
  /-- Method `MatchRepository.Create`; the match comes back as the store
  left it behind the caller's pointer (identity assigned). -/
  matchCreate : σ → Match → Except Err (Match × σ)
  /-- Method `MatchRepository.Exists`. -/
  matchExists : σ → UUID → Except Err Bool
  /-- Method `MatchRepository.FindByID`. -/
  matchFindByID : σ → UUID → Except Err Match
  /-- Method `MatchRepository.FindByIDWithDetails`. -/
  matchFindByIDWithDetails : σ → UUID → Except Err Match
  /-- Method `MatchRepository.Update`. -/
  matchUpdate : σ → Match → Except Err σ
  /-- Method `MatchRepository.Delete`. -/
  matchDelete : σ → UUID → Except Err σ
  /-- Method `GoalRepository.DeleteByMatchID`. -/
  goalDeleteByMatchID : σ → UUID → Except Err σ
  /-- Method `GoalRepository.CreateBatch`. -/
  goalCreateBatch : σ → List Goal → Except Err σ
  /-- Method `PlayerRepository.IsJerseyNumberTaken`. -/
  playerIsJerseyNumberTaken : σ → UUID → Int → Option UUID → Except Err Bool
  /-- Method `PlayerRepository.Create`; the player comes back as the store
  left it behind the caller's pointer (identity assigned). -/
  playerCreate : σ → Player → Except Err (Player × σ)
  /-- Method `PlayerRepository.Update`. -/
  playerUpdate : σ → Player → Except Err σ
  /-- Method `TeamRepository.FindByID`. -/
  teamFindByID : σ → UUID → Except Err Team
  /-- Method `PlayerRepository.FindByID`. -/
  playerFindByID : σ → UUID → Except Err Player

/-! ## Request bodies (`match_dto.go`)

`uuid.Parse` and `time.Parse` belong to libraries; they are parameters. -/

/-- Go `dto.CreateMatchRequest`. -/
structure CreateMatchRequest where
  MatchDate : String
  MatchTime : String
  HomeTeamID : String
  AwayTeamID : String
  deriving DecidableEq, Repr

/-- Go `dto.UpdateMatchRequest`. -/
structure UpdateMatchRequest where
  MatchDate : String
  MatchTime : String
  HomeTeamID : String
  AwayTeamID : String
  Status : String
  deriving DecidableEq, Repr

/-- Go `(*CreateMatchRequest).ToMatchEntity`. -/
def CreateMatchRequest.ToMatchEntity (parseUUID : String → Except Err UUID)
    (parseDate : String → Except Err Nat) (r : CreateMatchRequest) : Except Err Match :=
  match parseUUID r.HomeTeamID with
  | .error err => .error err
  | .ok homeTeamID =>
    match parseUUID r.AwayTeamID with
    | .error err => .error err
    | .ok awayTeamID =>
      match parseDate r.MatchDate with
      | .error err => .error err
      | .ok matchDate =>
        .ok { ID := 0, Deleted := false, MatchDate := matchDate, MatchTime := r.MatchTime,
              HomeTeamID := homeTeamID, AwayTeamID := awayTeamID, HomeScore := none,
              AwayScore := none, Status := MatchStatusScheduled, Goals := [] }

/-- Go `(*UpdateMatchRequest).UpdateMatchEntity`: the match after the call, or
the parse error. -/
def UpdateMatchRequest.UpdateMatchEntity (parseUUID : String → Except Err UUID)
    (parseDate : String → Except Err Nat) (r : UpdateMatchRequest) (m : Match) :
    Except Err Match :=
  match (if r.MatchDate ≠ "" then
           match parseDate r.MatchDate with
           | .error err => .error err
           | .ok matchDate => .ok { m with MatchDate := matchDate }
         else .ok m : Except Err Match) with
  | .error err => .error err
  | .ok m1 =>
    let m2 := if r.MatchTime ≠ "" then { m1 with MatchTime := r.MatchTime } else m1
    match (if r.HomeTeamID ≠ "" then
             match parseUUID r.HomeTeamID with
             | .error err => .error err
             | .ok homeTeamID => .ok { m2 with HomeTeamID := homeTeamID }
           else .ok m2 : Except Err Match) with
    | .error err => .error err
    | .ok m3 =>
      match (if r.AwayTeamID ≠ "" then
               match parseUUID r.AwayTeamID with
               | .error err => .error err
               | .ok awayTeamID => .ok { m3 with AwayTeamID := awayTeamID }
             else .ok m3 : Except Err Match) with
      | .error err => .error err
      | .ok m4 =>
        .ok (if r.Status ≠ "" then { m4 with Status := r.Status } else m4)

/-! ## The match use case (`match_usecase.go`) -/

/-- Go `(*matchUseCaseImpl).Create`. The first component is the error, or the
match as the caller sees it after the call. -/
def matchUseCaseImpl.Create {σ : Type} (r : Repositories σ) (s : σ) (m : Match) :
    Except Err Match × σ :=
  -- Validate teams exist
  match r.teamExists s m.HomeTeamID with
  | .error err => (.error err, s)
  | .ok homeExists =>
    if !homeExists then (.error (.New "home team not found"), s)
    else
      match r.teamExists s m.AwayTeamID with
      | .error err => (.error err, s)
      | .ok awayExists =>
        if !awayExists then (.error (.New "away team not found"), s)
        -- Validate teams are different
        else if m.HomeTeamID = m.AwayTeamID then (.error .ErrSameTeamMatch, s)
        else
          -- Set default status
          let m1 := if m.Status = "" then { m with Status := MatchStatusScheduled } else m
          match r.matchCreate s m1 with
          | .error err => (.error err, s)
          | .ok (m2, s1) => (.ok m2, s1)

/-- Go `(*matchUseCaseImpl).GetByID`. -/
def matchUseCaseImpl.GetByID {σ : Type} (r : Repositories σ) (s : σ) (id : UUID) :
    Except Err Match :=
  match r.matchFindByID s id with
  | .error err => if err = .ErrRecordNotFound then .error .ErrMatchNotFound else .error err
  | .ok m => .ok m

/-- Go `(*matchUseCaseImpl).GetByIDWithDetails`. -/
def matchUseCaseImpl.GetByIDWithDetails {σ : Type} (r : Repositories σ) (s : σ) (id : UUID) :
    Except Err Match :=
  match r.matchFindByIDWithDetails s id with
  | .error err => if err = .ErrRecordNotFound then .error .ErrMatchNotFound else .error err
  | .ok m => .ok m

/-- Go `(*teamUseCaseImpl).GetByID`. -/
def teamUseCaseImpl.GetByID {σ : Type} (r : Repositories σ) (s : σ) (id : UUID) :
    Except Err Team :=
  match r.teamFindByID s id with
  | .error err => if err = .ErrRecordNotFound then .error .ErrTeamNotFound else .error err
  | .ok team => .ok team

/-- Go `(*playerUseCaseImpl).GetByID`. -/
def playerUseCaseImpl.GetByID {σ : Type} (r : Repositories σ) (s : σ) (id : UUID) :
    Except Err Player :=
  match r.playerFindByID s id with
  | .error err => if err = .ErrRecordNotFound then .error .ErrPlayerNotFound else .error err
  | .ok player => .ok player

/-- Go `(*matchUseCaseImpl).Update`. -/
def matchUseCaseImpl.Update {σ : Type} (r : Repositories σ) (s : σ) (m : Match) :
    Except Err Unit × σ :=
  -- Check match exists
  match r.matchExists s m.ID with
  | .error err => (.error err, s)
  | .ok found =>
    if !found then (.error .ErrMatchNotFound, s)
    -- Validate teams
    else if m.HomeTeamID = m.AwayTeamID then (.error .ErrSameTeamMatch, s)
    else
      match r.teamExists s m.HomeTeamID with
      | .error err => (.error err, s)
      | .ok homeExists =>
        if !homeExists then (.error (.New "home team not found"), s)
        else
          match r.teamExists s m.AwayTeamID with
          | .error err => (.error err, s)
          | .ok awayExists =>
            if !awayExists then (.error (.New "away team not found"), s)
            else
              match r.matchUpdate s m with
              | .error err => (.error err, s)
              | .ok s1 => (.ok (), s1)

/-- Go `(*matchUseCaseImpl).Delete`. -/
def matchUseCaseImpl.Delete {σ : Type} (r : Repositories σ) (s : σ) (id : UUID) :
    Except Err Unit × σ :=
  match r.matchExists s id with
  | .error err => (.error err, s)
  | .ok found =>
    if !found then (.error .ErrMatchNotFound, s)
    else
      match r.matchDelete s id with
      | .error err => (.error err, s)
      | .ok s1 => (.ok (), s1)

/-- The `entity.Goal` literal built in the loop of
`(*matchUseCaseImpl).RecordResult`: the input's fields under the match id, no
identity yet, not deleted. -/
def GoalInput.toGoal (g : GoalInput) (matchID : UUID) : Goal :=
  { ID := 0, Deleted := false, MatchID := matchID, PlayerID := g.PlayerID,
    TeamID := g.TeamID, Minute := g.Minute, IsOwnGoal := g.IsOwnGoal }

/-- The loop of `(*matchUseCaseImpl).RecordResult` that checks the player of
every goal input, in input order, and builds the goal records. -/
def matchUseCaseImpl.RecordResult.goals {σ : Type} (r : Repositories σ) (s : σ)
    (matchID : UUID) : List GoalInput → Except Err (List Goal)
  | [] => .ok []
  | g :: rest =>
    -- Validate player exists
    match r.playerExists s g.PlayerID with
    | .error err => .error err
    | .ok found =>
      if !found then .error .ErrPlayerNotFound
      else
        match matchUseCaseImpl.RecordResult.goals r s matchID rest with
        | .error err => .error err
        | .ok built =>
          .ok (g.toGoal matchID :: built)

/-- Go `(*matchUseCaseImpl).RecordResult`. -/
def matchUseCaseImpl.RecordResult {σ : Type} (r : Repositories σ) (s : σ)
    (matchID : UUID) (input : MatchResultInput) : Except Err Match × σ :=
  -- Get existing match
  match r.matchFindByIDWithDetails s matchID with
  | .error err =>
    if err = .ErrRecordNotFound then (.error .ErrMatchNotFound, s) else (.error err, s)
  | .ok m =>
    -- Check if match is already completed: delete existing goals
    match (if m.Status = MatchStatusCompleted then r.goalDeleteByMatchID s matchID
           else .ok s) with
    | .error err => (.error err, s)
    | .ok s1 =>
      -- Update match scores
      let m1 := { m with HomeScore := some input.HomeScore,
                         AwayScore := some input.AwayScore,
                         Status := MatchStatusCompleted }
      match r.matchUpdate s1 m1 with
      | .error err => (.error err, s1)
      | .ok s2 =>
        -- Record goals
        match matchUseCaseImpl.RecordResult.goals r s2 matchID input.Goals with
        | .error err => (.error err, s2)
        | .ok goals =>
          match (if goals.length > 0 then r.goalCreateBatch s2 goals else .ok s2) with
          | .error err => (.error err, s2)
          | .ok s3 =>
            -- Fetch updated match with all details
            (r.matchFindByIDWithDetails s3 matchID, s3)

/-! ## The player use case (`player_usecase.go`) -/

/-- Go `(*playerUseCaseImpl).Create`. The first component is the error, or the
player as the caller sees it after the call. -/
def playerUseCaseImpl.Create {σ : Type} (r : Repositories σ) (s : σ) (player : Player) :
    Except Err Player × σ :=
  -- Validate team exists
  match r.teamExists s player.TeamID with
  | .error err => (.error err, s)
  | .ok found =>
    if !found then (.error .ErrTeamNotFound, s)
    -- Validate position
    else if !IsValidPosition player.Position then (.error .ErrInvalidPosition, s)
    -- Validate jersey number
    else if player.JerseyNumber < 1 ∨ player.JerseyNumber > 99 then
      (.error .ErrInvalidJerseyNumber, s)
    else
      -- Check if jersey number is taken
      match r.playerIsJerseyNumberTaken s player.TeamID player.JerseyNumber none with
      | .error err => (.error err, s)
      | .ok taken =>
        if taken then (.error .ErrJerseyNumberTaken, s)
        else
          match r.playerCreate s player with
          | .error err => (.error err, s)
          | .ok (player1, s1) => (.ok player1, s1)

/-- Go `(*playerUseCaseImpl).Update`. -/
def playerUseCaseImpl.Update {σ : Type} (r : Repositories σ) (s : σ) (player : Player) :
    Except Err Unit × σ :=
  -- Check player exists
  match r.playerExists s player.ID with
  | .error err => (.error err, s)
  | .ok found =>
    if !found then (.error .ErrPlayerNotFound, s)
    else
      -- Validate team exists
      match r.teamExists s player.TeamID with
      | .error err => (.error err, s)
      | .ok teamFound =>
        if !teamFound then (.error .ErrTeamNotFound, s)
        -- Validate position
        else if !IsValidPosition player.Position then (.error .ErrInvalidPosition, s)
        -- Validate jersey number
        else if player.JerseyNumber < 1 ∨ player.JerseyNumber > 99 then
          (.error .ErrInvalidJerseyNumber, s)
        else
          -- Check if jersey number is taken (exclude current player)
          match r.playerIsJerseyNumberTaken s player.TeamID player.JerseyNumber
                  (some player.ID) with
          | .error err => (.error err, s)
          | .ok taken =>
            if taken then (.error .ErrJerseyNumberTaken, s)
            else
              match r.playerUpdate s player with
              | .error err => (.error err, s)
              | .ok s1 => (.ok (), s1)

/-- Go `(*MatchHandler).Create` without the HTTP layer: build the match from
the request body, hand it to the use case. -/
def MatchHandler.Create {σ : Type} (parseUUID : String → Except Err UUID)
    (parseDate : String → Except Err Nat) (r : Repositories σ) (s : σ)
    (req : CreateMatchRequest) : Except Err Match × σ :=
  match req.ToMatchEntity parseUUID parseDate with
  | .error err => (.error err, s)
  | .ok m => matchUseCaseImpl.Create r s m

/-- Go `(*MatchHandler).Update` without the HTTP layer: fetch the match by id,
apply the request body to it, hand it to the use case. The first component
is the error, or the updated match that is sent back. -/
def MatchHandler.Update {σ : Type} (parseUUID : String → Except Err UUID)
    (parseDate : String → Except Err Nat) (r : Repositories σ) (s : σ) (id : UUID)
    (req : UpdateMatchRequest) : Except Err Match × σ :=
  match matchUseCaseImpl.GetByID r s id with
  | .error err => (.error err, s)
  | .ok m =>
    match req.UpdateMatchEntity parseUUID parseDate m with
    | .error err => (.error err, s)
    | .ok m1 =>
      match matchUseCaseImpl.Update r s m1 with
      | (.error err, s1) => (.error err, s1)
      | (.ok _, s1) => (.ok m1, s1)

/-! ## The record store

The tables of the record store, as lists of rows in insertion order. A row
with `Deleted = true` is soft-deleted: it stays in its table and is left out
of every query. -/

/-- State of the record store: the `teams`, `players`, `matches` and `goals`
tables. A row of `matches` carries no goals: the `Goals` association is filled
in by `FindByIDWithDetails` from the `goals` table. -/
structure Store where
  teamRows : List Team
  playerRows : List Player
  matchRows : List Match
  goalRows : List Goal
  deriving DecidableEq, Repr

/-- An identity that occurs nowhere in `ids` and is not `uuid.Nil`. -/
def freshID (ids : List UUID) : UUID := ids.foldr max 0 + 1

/-- Go `(*teamRepositoryImpl).Exists`: counts the rows with the given id; the
query leaves soft-deleted rows out. -/
def teamRepositoryImpl.Exists (s : Store) (id : UUID) : Except Err Bool :=
  .ok (decide ((s.teamRows.filter (fun t => t.ID == id && !t.Deleted)).length > 0))

/-- Go `(*playerRepositoryImpl).Exists`: counts the rows with the given id;
the query leaves soft-deleted rows out. -/
def playerRepositoryImpl.Exists (s : Store) (id : UUID) : Except Err Bool :=
  .ok (decide ((s.playerRows.filter (fun p => p.ID == id && !p.Deleted)).length > 0))

/-- Modelled from the spec: the match repository implementation
(`NewMatchRepository`) is not among the sources. `exists(id)` of the Match
contract: some match that is not soft-deleted has this id. -/
def matchRepositoryImpl.Exists (s : Store) (id : UUID) : Except Err Bool :=
  .ok (decide ((s.matchRows.filter (fun m => m.ID == id && !m.Deleted)).length > 0))

/-- Modelled from the spec: the match repository implementation is not among
the sources. `findByID` of the Match contract: the match with this id that is
not soft-deleted, or the record-not-found sentinel. -/
def matchRepositoryImpl.FindByID (s : Store) (id : UUID) : Except Err Match :=
  match s.matchRows.find? (fun m => m.ID == id && !m.Deleted) with
  | some m => .ok m
  | none => .error .ErrRecordNotFound

/-- Modelled from the spec: the goal repository implementation
(`NewGoalRepository`) is not among the sources. `findByMatchID` of the Goal
contract: the goals of this match that are not soft-deleted, in insertion
order. -/
def goalRepositoryImpl.FindByMatchID (s : Store) (matchID : UUID) : List Goal :=
  s.goalRows.filter (fun g => g.MatchID == matchID && !g.Deleted)

/-- Modelled from the spec: the match repository implementation is not among
the sources. `findByIDWithDetails` of the Match contract: the match found by
`findByID` with its goals populated. -/
def matchRepositoryImpl.FindByIDWithDetails (s : Store) (id : UUID) : Except Err Match :=
  match matchRepositoryImpl.FindByID s id with
  | .ok m => .ok { m with Goals := goalRepositoryImpl.FindByMatchID s id }
  | .error err => .error err

/-- Modelled from the spec: the match repository implementation is not among
the sources. `create` of the Match contract: persists a new match row. A match
that carries no identity (`uuid.Nil`) is given a fresh one; an identity that
is already in the table is refused by the store and nothing is written. -/
def matchRepositoryImpl.Create (s : Store) (m : Match) : Except Err (Match × Store) :=
  let id := if m.ID = 0 then freshID (s.matchRows.map (fun x => x.ID)) else m.ID
  if id ∈ s.matchRows.map (fun x => x.ID) then .error (.StoreFailure 0)
  else
    let m1 := { m with ID := id }
    .ok (m1, { s with matchRows := s.matchRows ++ [{ m1 with Goals := [] }] })

/-- Modelled from the spec: the match repository implementation is not among
the sources. `update` of the Match contract: every column of the row with the
match's id is overwritten with the match's fields. -/
def matchRepositoryImpl.Update (s : Store) (m : Match) : Except Err Store :=
  .ok { s with matchRows :=
          s.matchRows.map (fun x => if x.ID = m.ID then { m with Goals := [] } else x) }

/-- Modelled from the spec: the match repository implementation is not among
the sources. `delete` of the Match contract: soft-deletes the row with this
id. -/
def matchRepositoryImpl.Delete (s : Store) (id : UUID) : Except Err Store :=
  .ok { s with matchRows :=
          s.matchRows.map (fun x => if x.ID = id then { x with Deleted := true } else x) }

/-- Modelled from the spec: the goal repository implementation is not among
the sources. `deleteByMatchID(matchID)` of the Goal contract: soft-deletes
every goal of this match. -/
def goalRepositoryImpl.DeleteByMatchID (s : Store) (matchID : UUID) : Except Err Store :=
  .ok { s with goalRows :=
          s.goalRows.map (fun g => if g.MatchID = matchID then { g with Deleted := true } else g) }

/-- Gives the goals of a batch consecutive identities from `next` on. -/
def assignGoalIDs (next : UUID) : List Goal → List Goal
  | [] => []
  | g :: rest => { g with ID := next } :: assignGoalIDs (next + 1) rest

/-- Modelled from the spec: the goal repository implementation is not among
the sources. `createBatch(goals[])` of the Goal contract: a single batch
insert of all the goals, in order, each under a fresh identity. -/
def goalRepositoryImpl.CreateBatch (s : Store) (goals : List Goal) : Except Err Store :=
  .ok { s with goalRows :=
          s.goalRows ++ assignGoalIDs (freshID (s.goalRows.map (fun g => g.ID))) goals }

/-! ## The player repository (`player_repository_impl.go`) -/

/-- Go `(*playerRepositoryImpl).IsJerseyNumberTaken`: counts the players of the
team with the jersey number, leaving out the excluded id when one is given;
the query leaves soft-deleted rows out. -/
def playerRepositoryImpl.IsJerseyNumberTaken (s : Store) (teamID : UUID) (jerseyNumber : Int)
    (excludePlayerID : Option UUID) : Except Err Bool :=
  let query := s.playerRows.filter
    (fun p => !p.Deleted && p.TeamID == teamID && p.JerseyNumber == jerseyNumber)
  let query : List Player := match excludePlayerID with
    | some id => query.filter (fun p => p.ID != id)
    | none => query
  .ok (decide (query.length > 0))

/-- Go `(*playerRepositoryImpl).Create`, `db.Create(player)`: inserts the
player row. As for matches, a player that carries no identity is given a
fresh one, and an identity that is already in the table is refused by the
store (primary key) and nothing is written. -/
def playerRepositoryImpl.Create (s : Store) (pl : Player) : Except Err (Player × Store) :=
  let id := if pl.ID = 0 then freshID (s.playerRows.map (fun x => x.ID)) else pl.ID
  if id ∈ s.playerRows.map (fun x => x.ID) then .error (.StoreFailure 0)
  else
    let pl1 := { pl with ID := id }
    .ok (pl1, { s with playerRows := s.playerRows ++ [pl1] })

/-- Go `(*playerRepositoryImpl).Update`, `db.Save(player)`: every column of the
row with the player's id is overwritten with the player's fields. -/
def playerRepositoryImpl.Update (s : Store) (pl : Player) : Except Err Store :=
  .ok { s with playerRows := s.playerRows.map (fun x => if x.ID = pl.ID then pl else x) }

/-- Go `(*teamRepositoryImpl).FindByID`, `First(&team, "id = ?", id)`: the team
with this id that is not soft-deleted, or the record-not-found sentinel. -/
def teamRepositoryImpl.FindByID (s : Store) (id : UUID) : Except Err Team :=
  match s.teamRows.find? (fun t => t.ID == id && !t.Deleted) with
  | some t => .ok t
  | none => .error .ErrRecordNotFound

/-- Go `(*playerRepositoryImpl).FindByID`, `First(&player, "id = ?", id)`: the
player with this id that is not soft-deleted, or the record-not-found
sentinel. -/
def playerRepositoryImpl.FindByID (s : Store) (id : UUID) : Except Err Player :=
  match s.playerRows.find? (fun p => p.ID == id && !p.Deleted) with
  | some p => .ok p
  | none => .error .ErrRecordNotFound

/-- The repositories wired to the record store, as `main.go` wires them to the
database. -/
def storeRepositories : Repositories Store where
  teamExists := teamRepositoryImpl.Exists
  playerExists := playerRepositoryImpl.Exists
  matchCreate := matchRepositoryImpl.Create
  matchExists := matchRepositoryImpl.Exists
  matchFindByID := matchRepositoryImpl.FindByID
  matchFindByIDWithDetails := matchRepositoryImpl.FindByIDWithDetails
  matchUpdate := matchRepositoryImpl.Update
  matchDelete := matchRepositoryImpl.Delete
  goalDeleteByMatchID := goalRepositoryImpl.DeleteByMatchID
  goalCreateBatch := goalRepositoryImpl.CreateBatch
  playerIsJerseyNumberTaken := playerRepositoryImpl.IsJerseyNumberTaken
  playerCreate := playerRepositoryImpl.Create
  playerUpdate := playerRepositoryImpl.Update
  teamFindByID := teamRepositoryImpl.FindByID
  playerFindByID := playerRepositoryImpl.FindByID

/-- The content of a stored goal, as the input that recorded it. -/
def Goal.toInput (g : Goal) : GoalInput :=
  { PlayerID := g.PlayerID, TeamID := g.TeamID, Minute := g.Minute, IsOwnGoal := g.IsOwnGoal }

/-- Equality of results is decidable. -/
instance instDecidableEqExcept {ε α : Type} [DecidableEq ε] [DecidableEq α] :
    DecidableEq (Except ε α)
  | .ok a, .ok b => if h : a = b then isTrue (by rw [h]) else isFalse (by intro e; cases e; exact h rfl)
  | .error a, .error b =>
    if h : a = b then isTrue (by rw [h]) else isFalse (by intro e; cases e; exact h rfl)
  | .ok _, .error _ => isFalse (by intro e; cases e)
  | .error _, .ok _ => isFalse (by intro e; cases e)

/-! ## Sample data -/

/-- A team row with the given id. -/
def sampleTeam (id : UUID) : Team :=
  { ID := id, Deleted := false, Name := "team", Logo := "", FoundedYear := 2000,
    Address := "", City := "city" }

/-- A player row with the given id, team and jersey number. -/
def samplePlayer (id team : UUID) (jersey : Int) : Player :=
  { ID := id, Deleted := false, TeamID := team, Name := "player",
    Position := "forward", JerseyNumber := jersey }

/-- A match as `CreateMatchRequest.ToMatchEntity` builds it: no identity, no
scores, status scheduled. -/
def sampleMatch (home away : UUID) : Match :=
  { ID := 0, Deleted := false, MatchDate := 0, MatchTime := "15:00", HomeTeamID := home,
    AwayTeamID := away, HomeScore := none, AwayScore := none,
    Status := MatchStatusScheduled, Goals := [] }

/-- A store with teams 1 and 2, player 1 of team 1 with jersey 9, no match and
no goal. -/
def sampleStore : Store :=
  { teamRows := [sampleTeam 1, sampleTeam 2], playerRows := [samplePlayer 1 1 9],
    matchRows := [], goalRows := [] }

/-- The sample store after match 1, team 1 against team 2, was created. -/
def sampleStoreWithMatch : Store :=
  (matchUseCaseImpl.Create storeRepositories sampleStore (sampleMatch 1 2)).2

/-- A first result for match 1: 1-0, one goal by player 1 in minute 10. -/
def sampleInput1 : MatchResultInput :=
  { HomeScore := 1, AwayScore := 0,
    Goals := [{ PlayerID := 1, TeamID := 1, Minute := 10, IsOwnGoal := false }] }

/-- A second result for match 1: 2-1, one goal by player 1 in minute 34. -/
def sampleInput2 : MatchResultInput :=
  { HomeScore := 2, AwayScore := 1,
    Goals := [{ PlayerID := 1, TeamID := 1, Minute := 34, IsOwnGoal := false }] }

/-- A result whose second goal names player 9, who is not in the sample
store; the first goal names player 1, who is. -/
def sampleInputMissing : MatchResultInput :=
  { HomeScore := 3, AwayScore := 3,
    Goals := [{ PlayerID := 1, TeamID := 1, Minute := 5, IsOwnGoal := false },
              { PlayerID := 9, TeamID := 2, Minute := 7, IsOwnGoal := false }] }

/-- An update request that sets the status back to scheduled and supplies
nothing else. -/
def sampleRequestScheduled : UpdateMatchRequest :=
  { MatchDate := "", MatchTime := "", HomeTeamID := "", AwayTeamID := "",
    Status := "scheduled" }

/-- A parser that refuses every string; the sample requests supply no string
to parse. -/
def sampleParse {α : Type} : String → Except Err α := fun _ => .error (.New "invalid")

/-- The sample store after the first result was recorded for match 1. -/
def sampleStoreRecorded : Store :=
  (matchUseCaseImpl.RecordResult storeRepositories sampleStoreWithMatch 1 sampleInput1).2

/-- The sample store after the first result was recorded for match 1 and the
match was then set back to scheduled by an update request. -/
def sampleStoreRescheduled : Store :=
  (MatchHandler.Update sampleParse sampleParse storeRepositories sampleStoreRecorded 1
    sampleRequestScheduled).2

/-! ## Sequences of calls -/

/-- A call of the match use case: `Create`, `Update` or `RecordResult` with its
arguments. -/
inductive MatchCall where
  | Create (m : Match)
  | Update (m : Match)
  | RecordResult (matchID : UUID) (input : MatchResultInput)
  deriving Repr

/-- The store after one call of the match use case, whether the call
succeeded or failed. -/
def MatchCall.run (s : Store) : MatchCall → Store
  | .Create m => (matchUseCaseImpl.Create storeRepositories s m).2
  | .Update m => (matchUseCaseImpl.Update storeRepositories s m).2
  | .RecordResult matchID input =>
    (matchUseCaseImpl.RecordResult storeRepositories s matchID input).2

/-- The store after a sequence of calls of the match use case. -/
def MatchCall.runAll (s : Store) (calls : List MatchCall) : Store :=
  calls.foldl MatchCall.run s

/-- A request to the match endpoints: create from a request body, update by id
from a request body, or record a result. -/
inductive MatchRequest where
  | Create (req : CreateMatchRequest)
  | Update (id : UUID) (req : UpdateMatchRequest)
  | RecordResult (matchID : UUID) (input : MatchResultInput)
  deriving Repr

/-- The store after one request to the match endpoints, whether it succeeded
or failed. -/
def MatchRequest.run (parseUUID : String → Except Err UUID)
    (parseDate : String → Except Err Nat) (s : Store) : MatchRequest → Store
  | .Create req => (MatchHandler.Create parseUUID parseDate storeRepositories s req).2
  | .Update id req => (MatchHandler.Update parseUUID parseDate storeRepositories s id req).2
  | .RecordResult matchID input =>
    (matchUseCaseImpl.RecordResult storeRepositories s matchID input).2

/-- The store after a sequence of requests to the match endpoints. -/
def MatchRequest.runAll (parseUUID : String → Except Err UUID)
    (parseDate : String → Except Err Nat) (s : Store) (reqs : List MatchRequest) : Store :=
  reqs.foldl (MatchRequest.run parseUUID parseDate) s

/-- A sequence of calls on the sample store: two matches are created, a
match of team 1 against itself is refused, a result is recorded for match 1,
match 1 is updated to the teams the other way round, an update of match 2 to
team 2 on both sides is refused, a result is recorded for match 1 again, and
a result with a missing player is recorded for match 2. -/
def sampleCalls : List MatchCall :=
  [.Create (sampleMatch 1 2), .Create (sampleMatch 2 1), .Create (sampleMatch 1 1),
   .RecordResult 1 sampleInput1, .Update { sampleMatch 2 1 with ID := 1 },
   .Update { sampleMatch 2 2 with ID := 2 }, .RecordResult 1 sampleInput2,
   .RecordResult 2 sampleInputMissing]

/-- A parser for the sample requests: the strings "1" to "3" are the
identities 1 to 3, every other string is refused. -/
def sampleParseUUID : String → Except Err UUID := fun str =>
  if str = "1" then .ok 1 else if str = "2" then .ok 2 else if str = "3" then .ok 3
  else .error (.New "invalid UUID")

/-- A parser for the sample requests: every date is day 0. -/
def sampleParseDate : String → Except Err Nat := fun _ => .ok 0

/-- A sequence of requests on the sample store: a match is created, a result
with a missing player is recorded, the match is set back to scheduled and
moved to other teams, and a result is recorded. -/
def sampleRequests : List MatchRequest :=
  [.Create { MatchDate := "2026-01-01", MatchTime := "15:00", HomeTeamID := "1",
             AwayTeamID := "2" },
   .RecordResult 1 sampleInputMissing,
   .Update 1 sampleRequestScheduled,
   .Update 1 { MatchDate := "", MatchTime := "", HomeTeamID := "2", AwayTeamID := "1",
               Status := "" },
   .Create { MatchDate := "2026-01-02", MatchTime := "18:00", HomeTeamID := "2",
             AwayTeamID := "1" },
   .RecordResult 1 sampleInput2]

/-! ## List handlers: page and limit

Each list handler reads `page` and `limit` from the query and clamps them
before it calls the use case. -/

/-- The clamping of `page` and `limit` in `(*MatchHandler).GetAll`: the
effective page and the effective limit. -/
def MatchHandler.GetAll.pageLimit (page limit : Int) : Int × Int :=
  let page := if page < 1 then 1 else page
  let limit := if limit < 1 ∨ limit > 100 then 10 else limit
  (page, limit)

/-- The clamping of `page` and `limit` in `(*PlayerHandler).GetAll`. -/
def PlayerHandler.GetAll.pageLimit (page limit : Int) : Int × Int :=
  let page := if page < 1 then 1 else page
  let limit := if limit < 1 ∨ limit > 100 then 10 else limit
  (page, limit)

/-- The clamping of `page` and `limit` in `(*TeamHandler).GetAll`. -/
def TeamHandler.GetAll.pageLimit (page limit : Int) : Int × Int :=
  let page := if page < 1 then 1 else page
  let limit := if limit < 1 ∨ limit > 100 then 10 else limit
  (page, limit)

/-! ## Jersey numbers -/

/-- No two players of the player table that are not soft-deleted are on the
same team with the same jersey number. -/
def Store.jerseyUnique (s : Store) : Prop :=
  (s.playerRows.filter (fun p => !p.Deleted)).Pairwise
    (fun p q => ¬ (p.TeamID = q.TeamID ∧ p.JerseyNumber = q.JerseyNumber))

/-- The primary key of the player table: no two rows have the same id. -/
def Store.playerKey (s : Store) : Prop :=
  (s.playerRows.map (fun p => p.ID)).Nodup

/-- The sample store with a second player of team 1, jersey 10, and a player
of team 2, jersey 9. -/
def samplePlayerStore : Store :=
  { sampleStore with
    playerRows := [samplePlayer 1 1 9, samplePlayer 2 1 10, samplePlayer 3 2 9] }

/-! ## Top scorers (`player_repository_impl.go`)

`GetTopScorers` is one query, the goals joined with their players, neither
soft-deleted, grouped by player, ordered by the number of goals descending,
cut at `limit`, followed by a scan of the rows into a slice of
`repository.PlayerGoalCount`. -/

/-- Go `repository.PlayerGoalCount`. `GoalCount` holds a count, so it is a
natural number. -/
structure PlayerGoalCount where
  Player : Player
  GoalCount : Nat
  deriving DecidableEq, Repr

/-- The value of `COUNT(goals.id)` for the group of a player: the goals of the
goal table that are not soft-deleted and name the player. -/
def goalCount (s : Store) (playerID : UUID) : Nat :=
  (s.goalRows.filter (fun g => !g.Deleted && g.PlayerID == playerID)).length

/-- The groups of the query, `JOIN players ON players.id = goals.player_id`
with neither side soft-deleted, `GROUP BY players.id`: under the primary key
of the player table there is one group for each player that is not
soft-deleted and is named by at least one goal that is not soft-deleted, with
the columns `players.*` and `goal_count`. -/
def topScorerGroups (s : Store) : List PlayerGoalCount :=
  (s.playerRows.filter (fun p => !p.Deleted)).filterMap
    (fun p => if goalCount s p.ID > 0 then some { Player := p, GoalCount := goalCount s p.ID }
              else none)

/-- The column `goal_count` of the rows the query returns:
`ORDER BY goal_count DESC` puts the counts of the groups in non-increasing
order and `Limit(limit)` keeps the first `limit` of them; a negative limit
adds no `LIMIT` clause. The query names no second sort key, and none is
needed to say which counts come back. -/
def topScorerCounts (s : Store) (limit : Int) : List Nat :=
  let sorted := ((topScorerGroups s).map (fun e => e.GoalCount)).insertionSort
    (fun a b => a ≥ b)
  if limit < 0 then sorted else sorted.take limit.toNat

/-- The zero value `entity.Player{}`. -/
def Player.zero : Player :=
  { ID := 0, Deleted := false, TeamID := 0, Name := "", Position := "", JerseyNumber := 0 }

/-- Repositories whose every method reports the given error and writes
nothing, as a database that cannot be reached does. -/
def failingRepositories (e : Err) : Repositories Store where
  teamExists := fun _ _ => .error e
  playerExists := fun _ _ => .error e
  matchCreate := fun _ _ => .error e
  matchExists := fun _ _ => .error e
  matchFindByID := fun _ _ => .error e
  matchFindByIDWithDetails := fun _ _ => .error e
  matchUpdate := fun _ _ => .error e
  matchDelete := fun _ _ => .error e
  goalDeleteByMatchID := fun _ _ => .error e
  goalCreateBatch := fun _ _ => .error e
  playerIsJerseyNumberTaken := fun _ _ _ _ => .error e
  playerCreate := fun _ _ => .error e
  playerUpdate := fun _ _ => .error e
  teamFindByID := fun _ _ => .error e
  playerFindByID := fun _ _ => .error e

/-! ## A record store that keeps a log of the batch inserts -/

/-- The record store together with the list of the batches that were handed
to the goal repository's batch insert, oldest first. -/
structure LoggedStore where
  store : Store
  batches : List (List Goal)
  deriving DecidableEq, Repr

/-- A write of the record store, carried over to the logged store: the log is
left as it is. -/
def LoggedStore.write (ls : LoggedStore) (res : Except Err Store) : Except Err LoggedStore :=
  match res with
  | .ok s => .ok { ls with store := s }
  | .error err => .error err

/-- The repositories of the record store, with every call of
`GoalRepository.CreateBatch` entered in the log together with its argument. -/
def loggingRepositories : Repositories LoggedStore where
  teamExists := fun ls id => teamRepositoryImpl.Exists ls.store id
  playerExists := fun ls id => playerRepositoryImpl.Exists ls.store id
  matchCreate := fun ls m =>
    match matchRepositoryImpl.Create ls.store m with
    | .ok (m1, s) => .ok (m1, { ls with store := s })
    | .error err => .error err
  matchExists := fun ls id => matchRepositoryImpl.Exists ls.store id
  matchFindByID := fun ls id => matchRepositoryImpl.FindByID ls.store id
  matchFindByIDWithDetails := fun ls id => matchRepositoryImpl.FindByIDWithDetails ls.store id
  matchUpdate := fun ls m => ls.write (matchRepositoryImpl.Update ls.store m)
  matchDelete := fun ls id => ls.write (matchRepositoryImpl.Delete ls.store id)
  goalDeleteByMatchID := fun ls id => ls.write (goalRepositoryImpl.DeleteByMatchID ls.store id)
  goalCreateBatch := fun ls goals =>
    match goalRepositoryImpl.CreateBatch ls.store goals with
    | .ok s => .ok { store := s, batches := ls.batches ++ [goals] }
    | .error err => .error err
  playerIsJerseyNumberTaken := fun ls teamID number excluded =>
    playerRepositoryImpl.IsJerseyNumberTaken ls.store teamID number excluded
  playerCreate := fun ls pl =>
    match playerRepositoryImpl.Create ls.store pl with
    | .ok (pl1, s) => .ok (pl1, { ls with store := s })
    | .error err => .error err
  playerUpdate := fun ls pl => ls.write (playerRepositoryImpl.Update ls.store pl)
  teamFindByID := fun ls id => teamRepositoryImpl.FindByID ls.store id
  playerFindByID := fun ls id => playerRepositoryImpl.FindByID ls.store id

/-- A result for match 1 without goals: 0-0. -/
def sampleInputNoGoals : MatchResultInput := { HomeScore := 0, AwayScore := 0, Goals := [] }

/-- A result for match 1 with two goals by player 1, the second an own goal
credited to team 2, of which player 1 is not a member. -/
def sampleInputOwnGoal : MatchResultInput :=
  { HomeScore := 1, AwayScore := 1,
    Goals := [{ PlayerID := 1, TeamID := 1, Minute := 12, IsOwnGoal := false },
              { PlayerID := 1, TeamID := 2, Minute := 80, IsOwnGoal := true }] }

/-! ## Recording a result over HTTP (`match_dto.go`, `match_handler.go`)

The body of the request is bound to `RecordMatchResultRequest`; the binding
tags of its fields are checked before the handler goes on. The `uuid` tag
belongs to the validation library; it is a parameter. -/

/-- Go `dto.GoalRequest`. -/
structure GoalRequest where
  PlayerID : String
  TeamID : String
  Minute : Int
  IsOwnGoal : Bool
  deriving DecidableEq, Repr

/-- Go `dto.RecordMatchResultRequest`. -/
structure RecordMatchResultRequest where
  HomeScore : Int
  AwayScore : Int
  Goals : List GoalRequest
  deriving DecidableEq, Repr

/-- The binding tags of `dto.GoalRequest`: `required,uuid` on `PlayerID` and
`TeamID`, `required,min=1,max=120` on `Minute`, none on `IsOwnGoal`.
`required` refuses the zero value of the field. -/
def GoalRequest.binding (isUUID : String → Bool) (g : GoalRequest) : Bool :=
  (g.PlayerID != "" && isUUID g.PlayerID) &&
  (g.TeamID != "" && isUUID g.TeamID) &&
  (g.Minute != 0 && decide (1 ≤ g.Minute) && decide (g.Minute ≤ 120))

/-- The binding tags of `dto.RecordMatchResultRequest`: `min=0` on both
scores, `dive` on `Goals`, which checks every goal by its own tags. -/
def RecordMatchResultRequest.binding (isUUID : String → Bool)
    (req : RecordMatchResultRequest) : Bool :=
  decide (0 ≤ req.HomeScore) && decide (0 ≤ req.AwayScore) &&
  req.Goals.all (fun g => g.binding isUUID)

/-- The loop of `(*MatchHandler).RecordResult` that converts the goals of the
request: both ids of each goal are parsed, minute and own-goal flag are
copied. -/
def MatchHandler.RecordResult.goals (parseUUID : String → Except Err UUID) :
    List GoalRequest → Except Err (List GoalInput)
  | [] => .ok []
  | g :: rest =>
    match parseUUID g.PlayerID with
    | .error _ => .error (.New "Invalid player ID in goals")
    | .ok playerID =>
      match parseUUID g.TeamID with
      | .error _ => .error (.New "Invalid team ID in goals")
      | .ok teamID =>
        match MatchHandler.RecordResult.goals parseUUID rest with
        | .error err => .error err
        | .ok goals =>
          .ok ({ PlayerID := playerID, TeamID := teamID, Minute := g.Minute,
                 IsOwnGoal := g.IsOwnGoal } :: goals)

/-- Go `(*MatchHandler).RecordResult` without the HTTP layer, for a match id
that parsed: bind the body, convert its goals, hand the input to the use
case. -/
def MatchHandler.RecordResult {σ : Type} (isUUID : String → Bool)
    (parseUUID : String → Except Err UUID) (r : Repositories σ) (s : σ) (id : UUID)
    (req : RecordMatchResultRequest) : Except Err Match × σ :=
  if req.binding isUUID = false then (.error (.New "Invalid request body"), s)
  else
    match MatchHandler.RecordResult.goals parseUUID req.Goals with
    | .error err => (.error err, s)
    | .ok goals =>
      matchUseCaseImpl.RecordResult r s id
        { HomeScore := req.HomeScore, AwayScore := req.AwayScore, Goals := goals }

/-- The `uuid` tag for the sample requests: the strings "1" to "3" pass. -/
def sampleIsUUID : String → Bool := fun str =>
  str == "1" || str == "2" || str == "3"

/-- A request body for a 1-0 with one goal by player 1 of team 1 in the given
minute. -/
def sampleResultRequest (minute : Int) : RecordMatchResultRequest :=
  { HomeScore := 1, AwayScore := 0,
    Goals := [{ PlayerID := "1", TeamID := "1", Minute := minute, IsOwnGoal := false }] }

/-! ## Listings (`team_repository_impl.go`, `player_repository_impl.go`)

The tables list their rows in insertion order, so `Order("created_at DESC")`
reads them backwards. `page` and `limit` are Go `int`s; the offset is computed
in machine arithmetic. -/

/-- The value of a Go `int` expression on a 64-bit platform: the mathematical
result wrapped into the range from `-2^63` to `2^63 - 1`. -/
def wrapInt (x : Int) : Int := (x + 2 ^ 63) % 2 ^ 64 - 2 ^ 63

/-- Go `(*teamRepositoryImpl).FindAll`: `offset := (page - 1) * limit`, the
count of the rows that are not soft-deleted, then those rows newest first
from the offset on, at most `limit` of them. An offset that is not positive
skips nothing. -/
def teamRepositoryImpl.FindAll (s : Store) (page limit : Int) :
    Except Err (List Team × Int) :=
  let offset := wrapInt (wrapInt (page - 1) * limit)
  let total : Int := (s.teamRows.filter (fun t => !t.Deleted)).length
  let teams :=
    (((s.teamRows.filter (fun t => !t.Deleted)).reverse).drop offset.toNat).take limit.toNat
  .ok (teams, total)

/-- Go `(*playerRepositoryImpl).FindAll`: as for the teams; the preloaded
`Team` of each player is not part of the model. -/
def playerRepositoryImpl.FindAll (s : Store) (page limit : Int) :
    Except Err (List Player × Int) :=
  let offset := wrapInt (wrapInt (page - 1) * limit)
  let total : Int := (s.playerRows.filter (fun p => !p.Deleted)).length
  let players :=
    (((s.playerRows.filter (fun p => !p.Deleted)).reverse).drop offset.toNat).take limit.toNat
  .ok (players, total)

end Football


/-! ## Theorems -/

namespace Football

/-- C1: when both scores are present, `GetResult` is `home_win` if the home
score is larger, `away_win` if the away score is larger and `draw` if they are
equal, and it depends on the two scores only. -/
theorem GetResult_of_scores (m : Match) (home away : Int)
    (hh : m.HomeScore = some home) (ha : m.AwayScore = some away) :
    (home > away → m.GetResult = ResultHomeWin) ∧
    (away > home → m.GetResult = ResultAwayWin) ∧
    (home = away → m.GetResult = ResultDraw) ∧
    (∀ m2 : Match, m2.HomeScore = m.HomeScore → m2.AwayScore = m.AwayScore →
      m2.GetResult = m.GetResult) := by
  refine ⟨?_, ?_, ?_, ?_⟩
  · intro h
    simp [Match.GetResult, hh, ha, h]
  · intro h
    have h2 : ¬ home > away := by omega
    simp [Match.GetResult, hh, ha, h, h2]
  · intro h
    subst h
    simp [Match.GetResult, hh, ha]
  · intro m2 h1 h2
    simp [Match.GetResult, h1, h2]

/-- Witness of C1: scores (3,1) give `home_win`, (1,3) give `away_win` and
(2,2) give `draw`. -/
theorem GetResult_of_scores_witness :
    ({ sampleMatch 1 2 with HomeScore := some 3, AwayScore := some 1 } : Match).GetResult
        = "home_win" ∧
    ({ sampleMatch 1 2 with HomeScore := some 1, AwayScore := some 3 } : Match).GetResult
        = "away_win" ∧
    ({ sampleMatch 1 2 with HomeScore := some 2, AwayScore := some 2 } : Match).GetResult
        = "draw" :=
  ⟨(GetResult_of_scores { sampleMatch 1 2 with HomeScore := some 3, AwayScore := some 1 }
      3 1 rfl rfl).1 (by decide),
   (GetResult_of_scores { sampleMatch 1 2 with HomeScore := some 1, AwayScore := some 3 }
      1 3 rfl rfl).2.1 (by decide),
   (GetResult_of_scores { sampleMatch 1 2 with HomeScore := some 2, AwayScore := some 2 }
      2 2 rfl rfl).2.2.1 rfl⟩

/-- C2: when a score is absent, `GetResult` is the empty result string, which
is none of `home_win`, `away_win`, `draw`, and `GetResultDisplay` is
"Not Played"; one of the three results is returned only when both scores are
present. -/
theorem GetResult_not_played (m : Match) :
    ((m.HomeScore = none ∨ m.AwayScore = none) →
      m.GetResult = "" ∧ m.GetResult ≠ ResultHomeWin ∧ m.GetResult ≠ ResultAwayWin ∧
      m.GetResult ≠ ResultDraw ∧ m.GetResultDisplay = "Not Played") ∧
    ((m.GetResult = ResultHomeWin ∨ m.GetResult = ResultAwayWin ∨ m.GetResult = ResultDraw) →
      ∃ home away, m.HomeScore = some home ∧ m.AwayScore = some away) := by
  have key : (m.HomeScore = none ∨ m.AwayScore = none) → m.GetResult = "" := by
    intro h
    rcases h with h | h
    · simp [Match.GetResult, h]
    · cases hh : m.HomeScore <;> simp [Match.GetResult, h, hh]
  constructor
  · intro h
    have e := key h
    refine ⟨e, ?_, ?_, ?_, ?_⟩
    · rw [e]; decide
    · rw [e]; decide
    · rw [e]; decide
    · simp only [Match.GetResultDisplay, e]; decide
  · intro h
    cases hh : m.HomeScore with
    | none =>
      have e := key (Or.inl hh)
      rw [e] at h
      exact absurd h (by decide)
    | some home =>
      cases ha : m.AwayScore with
      | none =>
        have e := key (Or.inr ha)
        rw [e] at h
        exact absurd h (by decide)
      | some away => exact ⟨home, away, rfl, rfl⟩

/-- Witness of C2: a match without scores has the empty result and is
displayed as "Not Played". -/
theorem GetResult_not_played_witness :
    (sampleMatch 1 2).GetResult = "" ∧ (sampleMatch 1 2).GetResultDisplay = "Not Played" :=
  ⟨((GetResult_not_played (sampleMatch 1 2)).1 (Or.inl rfl)).1,
   ((GetResult_not_played (sampleMatch 1 2)).1 (Or.inl rfl)).2.2.2.2⟩

/-! ### Create and Update -/

/-- C3: `Create` of a match whose home and away team are the same team 7, which
is not in the store, fails with the error made for a missing home team, not
with `ErrSameTeamMatch`; `Update` of the existing match 1 to that same pair
fails with `ErrSameTeamMatch`. Nothing is persisted by either. -/
theorem Create_same_missing_team :
    matchUseCaseImpl.Create storeRepositories sampleStore (sampleMatch 7 7)
      = (.error (.New "home team not found"), sampleStore) ∧
    Err.New "home team not found" ≠ Err.ErrSameTeamMatch ∧
    matchUseCaseImpl.Update storeRepositories sampleStoreWithMatch
        { sampleMatch 7 7 with ID := 1 }
      = (.error .ErrSameTeamMatch, sampleStoreWithMatch) := by
  refine ⟨by decide, by decide, by decide⟩

/-- Every member of a list of identities is at most its maximum. -/
theorem le_foldr_max (ids : List UUID) : ∀ x ∈ ids, x ≤ ids.foldr max 0 := by
  induction ids with
  | nil => intro x hx; cases hx
  | cons a rest ih =>
    intro x hx
    rcases List.mem_cons.mp hx with h | h
    · subst h; exact le_max_left _ _
    · exact le_trans (ih x h) (le_max_right _ _)

/-- A fresh identity is not in the list it was made for. -/
theorem freshID_not_mem (ids : List UUID) : freshID ids ∉ ids := by
  intro h
  have h1 : ids.foldr max 0 + 1 ≤ ids.foldr max 0 := le_foldr_max ids _ h
  exact Nat.not_succ_le_self _ h1

/-- The store's `create` succeeds for a match whose identity is nil or new,
and appends the row. -/
theorem matchRepositoryImpl.Create_ok (s : Store) (m : Match)
    (hc : m.ID = 0 ∨ m.ID ∉ s.matchRows.map (fun x => x.ID)) :
    ∃ id, id ∉ s.matchRows.map (fun x => x.ID) ∧ id ≠ 0 ∧ (m.ID ≠ 0 → id = m.ID) ∧
      matchRepositoryImpl.Create s m =
        .ok ({ m with ID := id },
             { s with matchRows := s.matchRows ++ [{ m with ID := id, Goals := [] }] }) := by
  by_cases h0 : m.ID = 0
  · refine ⟨freshID (s.matchRows.map (fun x => x.ID)), freshID_not_mem _, ?_, ?_, ?_⟩
    · exact Nat.succ_ne_zero _
    · intro h; exact absurd h0 h
    · have hf := freshID_not_mem (s.matchRows.map (fun x => x.ID))
      simp only [matchRepositoryImpl.Create, h0, if_true]
      rw [if_neg hf]
  · have hm : m.ID ∉ s.matchRows.map (fun x => x.ID) := by
      rcases hc with h | h
      · exact absurd h h0
      · exact h
    refine ⟨m.ID, hm, h0, fun _ => rfl, ?_⟩
    simp only [matchRepositoryImpl.Create, h0, if_false]
    rw [if_neg hm]

/-- C4: for distinct home and away teams that both exist, and a match whose
identity the store accepts (nil or not yet in the table, so that the store's
create does not fail), `Create` succeeds and appends exactly one row to the
match table, with those team ids, under an identity that was not in the
table; its status is scheduled when the input status is empty and the
supplied status otherwise. The other tables are unchanged. -/
theorem Create_distinct_existing_teams (s : Store) (m : Match)
    (hne : m.HomeTeamID ≠ m.AwayTeamID)
    (hh : teamRepositoryImpl.Exists s m.HomeTeamID = .ok true)
    (ha : teamRepositoryImpl.Exists s m.AwayTeamID = .ok true)
    (hc : m.ID = 0 ∨ m.ID ∉ s.matchRows.map (fun x => x.ID)) :
    ∃ created : Match,
      matchUseCaseImpl.Create storeRepositories s m =
        (.ok created,
         { s with matchRows := s.matchRows ++ [{ created with Goals := [] }] }) ∧
      created.HomeTeamID = m.HomeTeamID ∧ created.AwayTeamID = m.AwayTeamID ∧
      created.Status = (if m.Status = "" then MatchStatusScheduled else m.Status) ∧
      created.ID ∉ s.matchRows.map (fun x => x.ID) ∧ created.ID ≠ 0 := by
  by_cases hs : m.Status = ""
  · obtain ⟨id, hid, hid0, _, hcr⟩ :=
      matchRepositoryImpl.Create_ok s { m with Status := MatchStatusScheduled } hc
    refine ⟨{ m with Status := MatchStatusScheduled, ID := id }, ?_, rfl, rfl, ?_, hid, hid0⟩
    · simp only [matchUseCaseImpl.Create, storeRepositories, hh, ha, hs, if_true]
      simp [hne, hcr]
    · simp [hs]
  · obtain ⟨id, hid, hid0, _, hcr⟩ := matchRepositoryImpl.Create_ok s m hc
    refine ⟨{ m with ID := id }, ?_, rfl, rfl, ?_, hid, hid0⟩
    · simp only [matchUseCaseImpl.Create, storeRepositories, hh, ha, hs, if_false]
      simp [hne, hcr]
    · simp [hs]

/-- Witness of C4: creating team 1 against team 2 in the sample store. -/
theorem Create_distinct_existing_teams_witness :
    ∃ created : Match,
      matchUseCaseImpl.Create storeRepositories sampleStore (sampleMatch 1 2) =
        (.ok created,
         { sampleStore with
           matchRows := sampleStore.matchRows ++ [{ created with Goals := [] }] }) ∧
      created.HomeTeamID = 1 ∧ created.AwayTeamID = 2 ∧
      created.Status = (if (sampleMatch 1 2).Status = "" then MatchStatusScheduled
                        else (sampleMatch 1 2).Status) ∧
      created.ID ∉ sampleStore.matchRows.map (fun x => x.ID) ∧ created.ID ≠ 0 :=
  Create_distinct_existing_teams sampleStore (sampleMatch 1 2) (by decide) (by decide)
    (by decide) (Or.inl rfl)

/-- C5: with distinct teams of which the away team 3 is not in the store,
`Create` and `Update` (of the existing match 1) fail with an error made on
the spot, which is not the `ErrTeamNotFound` sentinel; the same holds for a
missing home team. Nothing is persisted. -/
theorem Create_Update_missing_team_error :
    matchUseCaseImpl.Create storeRepositories sampleStore (sampleMatch 1 3)
      = (.error (.New "away team not found"), sampleStore) ∧
    matchUseCaseImpl.Create storeRepositories sampleStore (sampleMatch 3 1)
      = (.error (.New "home team not found"), sampleStore) ∧
    matchUseCaseImpl.Update storeRepositories sampleStoreWithMatch
        { sampleMatch 1 3 with ID := 1 }
      = (.error (.New "away team not found"), sampleStoreWithMatch) ∧
    matchUseCaseImpl.Update storeRepositories sampleStoreWithMatch
        { sampleMatch 3 2 with ID := 1 }
      = (.error (.New "home team not found"), sampleStoreWithMatch) ∧
    Err.New "away team not found" ≠ Err.ErrTeamNotFound ∧
    Err.New "home team not found" ≠ Err.ErrTeamNotFound := by
  refine ⟨by decide, by decide, by decide, by decide, by decide, by decide⟩

/-! ### RecordResult -/

/-- No live row with the id: `FindByID` reports the record-not-found
sentinel. -/
theorem matchRepositoryImpl.FindByID_none (s : Store) (id : UUID)
    (h : ∀ m ∈ s.matchRows, m.ID = id → m.Deleted = true) :
    matchRepositoryImpl.FindByID s id = .error .ErrRecordNotFound := by
  have hf : s.matchRows.find? (fun m => m.ID == id && !m.Deleted) = none := by
    rw [List.find?_eq_none]
    intro m hm
    by_cases e : m.ID = id
    · simp [e, h m hm e]
    · simp [e]
  simp [matchRepositoryImpl.FindByID, hf]

/-- C6: when no live match row has the id, `RecordResult` fails with
`ErrMatchNotFound` and the store is unchanged: no goal is deleted or inserted
and no match is updated. -/
theorem RecordResult_unknown_match (s : Store) (matchID : UUID) (input : MatchResultInput)
    (h : ∀ m ∈ s.matchRows, m.ID = matchID → m.Deleted = true) :
    matchUseCaseImpl.RecordResult storeRepositories s matchID input
      = (.error .ErrMatchNotFound, s) := by
  have hf := matchRepositoryImpl.FindByID_none s matchID h
  simp [matchUseCaseImpl.RecordResult, storeRepositories,
    matchRepositoryImpl.FindByIDWithDetails, hf]

/-- Witness of C6: match 5 is not in the sample store with match 1. -/
theorem RecordResult_unknown_match_witness :
    matchUseCaseImpl.RecordResult storeRepositories sampleStoreWithMatch 5
        { HomeScore := 2, AwayScore := 1, Goals := [⟨1, 1, 34, false⟩] }
      = (.error .ErrMatchNotFound, sampleStoreWithMatch) :=
  RecordResult_unknown_match sampleStoreWithMatch 5
    { HomeScore := 2, AwayScore := 1, Goals := [⟨1, 1, 34, false⟩] } (by decide)

/-- What `FindByID` returns is a live row of the match table with the id. -/
theorem matchRepositoryImpl.FindByID_ok {s : Store} {id : UUID} {m : Match}
    (h : matchRepositoryImpl.FindByID s id = .ok m) :
    m ∈ s.matchRows ∧ m.ID = id ∧ m.Deleted = false := by
  unfold matchRepositoryImpl.FindByID at h
  cases hf : s.matchRows.find? (fun m => m.ID == id && !m.Deleted) with
  | none => rw [hf] at h; cases h
  | some x =>
    rw [hf] at h
    have hx : x = m := by injection h
    subst hx
    have hp := List.find?_some hf
    have hmem := List.mem_of_find?_eq_some hf
    simp at hp
    exact ⟨hmem, hp.1, hp.2⟩

/-- After every row with the id was overwritten by a live match with that id,
the lookup of the id finds that match. -/
theorem find?_overwritten (l : List Match) (id : UUID) (m1 : Match) (hid : m1.ID = id)
    (hd : m1.Deleted = false) (hex : ∃ x ∈ l, x.ID = id) :
    (l.map (fun x => if x.ID = id then m1 else x)).find?
      (fun m => m.ID == id && !m.Deleted) = some m1 := by
  induction l with
  | nil => obtain ⟨x, hx, _⟩ := hex; cases hx
  | cons a rest ih =>
    by_cases ha : a.ID = id
    · simp [List.find?, ha, hid, hd]
    · have hex2 : ∃ x ∈ rest, x.ID = id := by
        obtain ⟨x, hx, hxid⟩ := hex
        rcases List.mem_cons.mp hx with e | e
        · subst e; exact absurd hxid ha
        · exact ⟨x, e, hxid⟩
      have hrest := ih hex2
      have hb : (a.ID == id && !a.Deleted) = false := by simp [ha]
      simp only [List.map_cons, if_neg ha]
      rw [List.find?_cons_of_neg _ (by simp [hb])]
      exact hrest

/-- The goal loop of `RecordResult` reads the player table only. -/
theorem RecordResult.goals_congr (s s2 : Store) (h : s2.playerRows = s.playerRows)
    (matchID : UUID) (gs : List GoalInput) :
    matchUseCaseImpl.RecordResult.goals storeRepositories s2 matchID gs
      = matchUseCaseImpl.RecordResult.goals storeRepositories s matchID gs := by
  induction gs with
  | nil => rfl
  | cons g rest ih =>
    simp only [matchUseCaseImpl.RecordResult.goals, storeRepositories,
      playerRepositoryImpl.Exists, h] at ih ⊢
    rw [ih]

/-- When every goal's player exists the goal loop builds one record per
input, in order. -/
theorem RecordResult.goals_ok (s : Store) (matchID : UUID) (gs : List GoalInput)
    (hp : ∀ g ∈ gs, playerRepositoryImpl.Exists s g.PlayerID = .ok true) :
    matchUseCaseImpl.RecordResult.goals storeRepositories s matchID gs
      = .ok (gs.map (fun g => g.toGoal matchID)) := by
  induction gs with
  | nil => rfl
  | cons g rest ih =>
    have h1 := hp g (List.mem_cons_self _ _)
    have h2 := ih (fun x hx => hp x (List.mem_cons_of_mem _ hx))
    simp only [storeRepositories] at h2
    simp only [matchUseCaseImpl.RecordResult.goals, storeRepositories, h1, h2]
    simp

/-- When some goal's player does not exist the goal loop fails with
`ErrPlayerNotFound`. -/
theorem RecordResult.goals_missing (s : Store) (matchID : UUID) (gs : List GoalInput)
    (hp : ∃ g ∈ gs, playerRepositoryImpl.Exists s g.PlayerID = .ok false) :
    matchUseCaseImpl.RecordResult.goals storeRepositories s matchID gs
      = .error .ErrPlayerNotFound := by
  induction gs with
  | nil => obtain ⟨g, hg, _⟩ := hp; cases hg
  | cons g rest ih =>
    cases hb : decide ((s.playerRows.filter (fun p => p.ID == g.PlayerID && !p.Deleted)).length > 0) with
    | false =>
      simp only [matchUseCaseImpl.RecordResult.goals, storeRepositories,
        playerRepositoryImpl.Exists, hb]
      simp
    | true =>
      have hrest : ∃ x ∈ rest, playerRepositoryImpl.Exists s x.PlayerID = .ok false := by
        obtain ⟨x, hx, hxe⟩ := hp
        rcases List.mem_cons.mp hx with e | e
        · subst e
          simp [playerRepositoryImpl.Exists, hb] at hxe
        · exact ⟨x, e, hxe⟩
      have h2 := ih hrest
      simp only [storeRepositories] at h2
      simp only [matchUseCaseImpl.RecordResult.goals, storeRepositories,
        playerRepositoryImpl.Exists, hb, h2]
      simp

/-- After `DeleteByMatchID` no live goal of the match is left. -/
theorem filter_softDeleted (goals : List Goal) (matchID : UUID) :
    (goals.map (fun g => if g.MatchID = matchID then { g with Deleted := true } else g)).filter
      (fun g => g.MatchID == matchID && !g.Deleted) = [] := by
  rw [List.filter_eq_nil_iff]
  intro g hg
  obtain ⟨x, _, hx⟩ := List.mem_map.mp hg
  by_cases e : x.MatchID = matchID
  · rw [if_pos e] at hx; subst hx; simp
  · rw [if_neg e] at hx; subst hx; simp [e]

/-- Giving identities changes no other field: the inserted batch consists of
live goals of the match. -/
theorem filter_assignGoalIDs (gs : List GoalInput) (matchID next : UUID) :
    (assignGoalIDs next (gs.map (fun g => g.toGoal matchID))).filter
      (fun g => g.MatchID == matchID && !g.Deleted)
      = assignGoalIDs next (gs.map (fun g => g.toGoal matchID)) := by
  induction gs generalizing next with
  | nil => rfl
  | cons g rest ih =>
    simp only [List.map_cons, assignGoalIDs]
    rw [List.filter_cons_of_pos (by simp [GoalInput.toGoal]), ih]

/-- The contents of the inserted batch are the inputs, in order. -/
theorem toInput_assignGoalIDs (gs : List GoalInput) (matchID next : UUID) :
    (assignGoalIDs next (gs.map (fun g => g.toGoal matchID))).map Goal.toInput = gs := by
  induction gs generalizing next with
  | nil => rfl
  | cons g rest ih =>
    simp only [List.map_cons, assignGoalIDs, ih]
    rfl

/-- The steps of a `RecordResult` call that gets as far as the batch insert. -/
theorem RecordResult_steps {σ : Type} (r : Repositories σ) (s s1 s2 s3 : σ) (matchID : UUID)
    (input : MatchResultInput) (m : Match) (goals : List Goal)
    (h0 : r.matchFindByIDWithDetails s matchID = .ok m)
    (h1 : (if m.Status = MatchStatusCompleted then r.goalDeleteByMatchID s matchID
           else .ok s) = .ok s1)
    (h2 : r.matchUpdate s1 { m with HomeScore := some input.HomeScore,
                                    AwayScore := some input.AwayScore,
                                    Status := MatchStatusCompleted } = .ok s2)
    (h3 : matchUseCaseImpl.RecordResult.goals r s2 matchID input.Goals = .ok goals)
    (h4 : (if goals.length > 0 then r.goalCreateBatch s2 goals else .ok s2) = .ok s3) :
    matchUseCaseImpl.RecordResult r s matchID input
      = (r.matchFindByIDWithDetails s3 matchID, s3) := by
  simp only [matchUseCaseImpl.RecordResult, h0, h1, h2, h3, h4]

/-- The steps of a `RecordResult` call whose goal loop fails. -/
theorem RecordResult_steps_error {σ : Type} (r : Repositories σ) (s s1 s2 : σ)
    (matchID : UUID) (input : MatchResultInput) (m : Match) (e : Err)
    (h0 : r.matchFindByIDWithDetails s matchID = .ok m)
    (h1 : (if m.Status = MatchStatusCompleted then r.goalDeleteByMatchID s matchID
           else .ok s) = .ok s1)
    (h2 : r.matchUpdate s1 { m with HomeScore := some input.HomeScore,
                                    AwayScore := some input.AwayScore,
                                    Status := MatchStatusCompleted } = .ok s2)
    (h3 : matchUseCaseImpl.RecordResult.goals r s2 matchID input.Goals = .error e) :
    matchUseCaseImpl.RecordResult r s matchID input = (.error e, s2) := by
  simp only [matchUseCaseImpl.RecordResult, h0, h1, h2, h3]

/-- The lookup of a match reads the match table only. -/
theorem matchRepositoryImpl.FindByID_congr (s s2 : Store) (h : s2.matchRows = s.matchRows)
    (id : UUID) : matchRepositoryImpl.FindByID s2 id = matchRepositoryImpl.FindByID s id := by
  simp only [matchRepositoryImpl.FindByID, h]

/-- The goals of a match are read from the goal table only. -/
theorem goalRepositoryImpl.FindByMatchID_congr (s s2 : Store) (h : s2.goalRows = s.goalRows)
    (id : UUID) :
    goalRepositoryImpl.FindByMatchID s2 id = goalRepositoryImpl.FindByMatchID s id := by
  simp only [goalRepositoryImpl.FindByMatchID, h]

/-- The conditional delete step of `RecordResult` in the store: it succeeds,
touches the goal table only, and leaves the match without live goals when
the match was completed. -/
theorem deleteStep_spec (s : Store) (matchID : UUID) (st : MatchStatus) :
    ∃ s1 : Store,
      (if st = MatchStatusCompleted then goalRepositoryImpl.DeleteByMatchID s matchID
       else .ok s) = .ok s1 ∧
      s1.teamRows = s.teamRows ∧ s1.playerRows = s.playerRows ∧ s1.matchRows = s.matchRows ∧
      s1.goalRows = (if st = MatchStatusCompleted then
          s.goalRows.map (fun g => if g.MatchID = matchID then { g with Deleted := true } else g)
        else s.goalRows) ∧
      goalRepositoryImpl.FindByMatchID s1 matchID =
        (if st = MatchStatusCompleted then [] else goalRepositoryImpl.FindByMatchID s matchID) := by
  by_cases hc : st = MatchStatusCompleted
  · refine ⟨{ s with
        goalRows := s.goalRows.map
                      (fun g => if g.MatchID = matchID then { g with Deleted := true } else g) },
      ?_, rfl, rfl, rfl, ?_, ?_⟩
    · simp only [hc, if_true, goalRepositoryImpl.DeleteByMatchID]
    · simp only [hc, if_true]
    · simp only [hc, if_true, goalRepositoryImpl.FindByMatchID, filter_softDeleted]
  · exact ⟨s, by simp only [hc, if_false], rfl, rfl, rfl, by simp only [hc, if_false],
      by simp only [hc, if_false]⟩

/-- The store's `update` of a live match whose id is in the match table: it
succeeds, touches the match table only, and the lookup of the id then finds
the match as written. -/
theorem matchRepositoryImpl.Update_spec (s : Store) (m1 : Match)
    (hex : ∃ x ∈ s.matchRows, x.ID = m1.ID) (hd : m1.Deleted = false) :
    ∃ s2 : Store, matchRepositoryImpl.Update s m1 = .ok s2 ∧
      s2.teamRows = s.teamRows ∧ s2.playerRows = s.playerRows ∧ s2.goalRows = s.goalRows ∧
      matchRepositoryImpl.FindByID s2 m1.ID = .ok { m1 with Goals := [] } := by
  refine ⟨{ s with matchRows :=
      s.matchRows.map (fun x => if x.ID = m1.ID then { m1 with Goals := [] } else x) },
    rfl, rfl, rfl, rfl, ?_⟩
  have := find?_overwritten s.matchRows m1.ID { m1 with Goals := [] } rfl hd hex
  simp only [matchRepositoryImpl.FindByID, this]

/-- The conditional batch insert of `RecordResult` in the store: it succeeds,
touches the goal table only, and appends the input goals to the live goals of
the match. -/
theorem insertStep_spec (s : Store) (matchID : UUID) (gs : List GoalInput) :
    ∃ s3 : Store,
      (if (gs.map (fun g => g.toGoal matchID)).length > 0 then
         goalRepositoryImpl.CreateBatch s (gs.map (fun g => g.toGoal matchID))
       else .ok s) = .ok s3 ∧
      s3.teamRows = s.teamRows ∧ s3.playerRows = s.playerRows ∧ s3.matchRows = s.matchRows ∧
      (goalRepositoryImpl.FindByMatchID s3 matchID).map Goal.toInput =
        (goalRepositoryImpl.FindByMatchID s matchID).map Goal.toInput ++ gs := by
  cases gs with
  | nil => exact ⟨s, by simp, rfl, rfl, rfl, by simp⟩
  | cons g rest =>
    refine ⟨{ s with
        goalRows := s.goalRows ++
                      assignGoalIDs (freshID (s.goalRows.map (fun g => g.ID)))
                        ((g :: rest).map (fun g => g.toGoal matchID)) },
      ?_, rfl, rfl, rfl, ?_⟩
    · simp [goalRepositoryImpl.CreateBatch]
    · simp only [goalRepositoryImpl.FindByMatchID, List.filter_append, filter_assignGoalIDs,
        List.map_append, toInput_assignGoalIDs]

/-- What a `RecordResult` call does to the store when the match is found and
every goal's player exists: it succeeds; the match row carries the supplied
scores and status completed; the live goals of the match are those it had
before (none of them if the match was completed at the call) followed by the
input goals; the returned match is the stored one with those goals. -/
theorem RecordResult_found (s : Store) (matchID : UUID) (input : MatchResultInput)
    (m : Match) (hm : matchRepositoryImpl.FindByID s matchID = .ok m)
    (hp : ∀ g ∈ input.Goals, playerRepositoryImpl.Exists s g.PlayerID = .ok true) :
    ∃ s3 : Store,
      matchUseCaseImpl.RecordResult storeRepositories s matchID input =
        (.ok { m with HomeScore := some input.HomeScore, AwayScore := some input.AwayScore,
                      Status := MatchStatusCompleted,
                      Goals := goalRepositoryImpl.FindByMatchID s3 matchID }, s3) ∧
      matchRepositoryImpl.FindByID s3 matchID =
        .ok { m with HomeScore := some input.HomeScore, AwayScore := some input.AwayScore,
                     Status := MatchStatusCompleted, Goals := [] } ∧
      (goalRepositoryImpl.FindByMatchID s3 matchID).map Goal.toInput =
        (if m.Status = MatchStatusCompleted then []
         else (goalRepositoryImpl.FindByMatchID s matchID).map Goal.toInput) ++ input.Goals ∧
      s3.playerRows = s.playerRows ∧ s3.teamRows = s.teamRows := by
  obtain ⟨hmem, hid, hdel⟩ := matchRepositoryImpl.FindByID_ok hm
  have h0 : storeRepositories.matchFindByIDWithDetails s matchID =
      .ok { m with Goals := goalRepositoryImpl.FindByMatchID s matchID } := by
    simp [storeRepositories, matchRepositoryImpl.FindByIDWithDetails, hm]
  obtain ⟨s1, h1, ht1, hp1, hm1, _, hg1⟩ := deleteStep_spec s matchID m.Status
  obtain ⟨s2, h2, ht2, hp2, hg2, hf2⟩ := matchRepositoryImpl.Update_spec s1
    { m with HomeScore := some input.HomeScore, AwayScore := some input.AwayScore,
             Status := MatchStatusCompleted,
             Goals := goalRepositoryImpl.FindByMatchID s matchID }
    ⟨m, by rw [hm1]; exact hmem, rfl⟩ hdel
  have h3 : matchUseCaseImpl.RecordResult.goals storeRepositories s2 matchID input.Goals
      = .ok (input.Goals.map (fun g => g.toGoal matchID)) :=
    (RecordResult.goals_congr s s2 (by rw [hp2, hp1]) matchID input.Goals).trans
      (RecordResult.goals_ok s matchID input.Goals hp)
  obtain ⟨s3, h4, ht3, hp3, hm3, hg3⟩ := insertStep_spec s2 matchID input.Goals
  have hf3 : matchRepositoryImpl.FindByID s3 matchID =
      .ok { m with HomeScore := some input.HomeScore, AwayScore := some input.AwayScore,
                   Status := MatchStatusCompleted, Goals := [] } := by
    rw [matchRepositoryImpl.FindByID_congr s2 s3 hm3, ← hid]
    exact hf2
  refine ⟨s3, ?_, hf3, ?_, by rw [hp3, hp2, hp1], by rw [ht3, ht2, ht1]⟩
  · rw [RecordResult_steps storeRepositories s s1 s2 s3 matchID input _ _ h0 h1 h2 h3 h4]
    simp [storeRepositories, matchRepositoryImpl.FindByIDWithDetails, hf3]
  · rw [hg3, goalRepositoryImpl.FindByMatchID_congr s1 s2 hg2, hg1]
    by_cases hc : m.Status = MatchStatusCompleted <;> simp [hc]

/-- The store's player lookup never fails: it answers yes or no. -/
theorem playerRepositoryImpl.Exists_false_of_ne (s : Store) (id : UUID)
    (h : playerRepositoryImpl.Exists s id ≠ .ok true) :
    playerRepositoryImpl.Exists s id = .ok false := by
  unfold playerRepositoryImpl.Exists at h ⊢
  cases hb : decide ((s.playerRows.filter (fun p => p.ID == id && !p.Deleted)).length > 0) with
  | false => rfl
  | true => rw [hb] at h; exact absurd rfl h

/-- What a `RecordResult` call does to the store when the match is found and
some goal's player does not exist: it fails with `ErrPlayerNotFound` after the
match row was overwritten with the supplied scores and status completed; the
goal table is as the conditional delete step left it. -/
theorem RecordResult_missing (s : Store) (matchID : UUID) (input : MatchResultInput)
    (m : Match) (hm : matchRepositoryImpl.FindByID s matchID = .ok m)
    (hp : ∃ g ∈ input.Goals, playerRepositoryImpl.Exists s g.PlayerID = .ok false) :
    ∃ s2 : Store,
      matchUseCaseImpl.RecordResult storeRepositories s matchID input =
        (.error .ErrPlayerNotFound, s2) ∧
      matchRepositoryImpl.FindByID s2 matchID =
        .ok { m with HomeScore := some input.HomeScore, AwayScore := some input.AwayScore,
                     Status := MatchStatusCompleted, Goals := [] } ∧
      s2.goalRows = (if m.Status = MatchStatusCompleted then
          s.goalRows.map (fun g => if g.MatchID = matchID then { g with Deleted := true } else g)
        else s.goalRows) ∧
      goalRepositoryImpl.FindByMatchID s2 matchID =
        (if m.Status = MatchStatusCompleted then []
         else goalRepositoryImpl.FindByMatchID s matchID) := by
  obtain ⟨hmem, hid, hdel⟩ := matchRepositoryImpl.FindByID_ok hm
  have h0 : storeRepositories.matchFindByIDWithDetails s matchID =
      .ok { m with Goals := goalRepositoryImpl.FindByMatchID s matchID } := by
    simp [storeRepositories, matchRepositoryImpl.FindByIDWithDetails, hm]
  obtain ⟨s1, h1, _, hp1, hm1, hr1, hg1⟩ := deleteStep_spec s matchID m.Status
  obtain ⟨s2, h2, _, hp2, hg2, hf2⟩ := matchRepositoryImpl.Update_spec s1
    { m with HomeScore := some input.HomeScore, AwayScore := some input.AwayScore,
             Status := MatchStatusCompleted,
             Goals := goalRepositoryImpl.FindByMatchID s matchID }
    ⟨m, by rw [hm1]; exact hmem, rfl⟩ hdel
  have h3 : matchUseCaseImpl.RecordResult.goals storeRepositories s2 matchID input.Goals
      = .error .ErrPlayerNotFound :=
    (RecordResult.goals_congr s s2 (by rw [hp2, hp1]) matchID input.Goals).trans
      (RecordResult.goals_missing s matchID input.Goals hp)
  refine ⟨s2, RecordResult_steps_error storeRepositories s s1 s2 matchID input _ _ h0 h1 h2 h3,
    ?_, by rw [hg2, hr1], by rw [goalRepositoryImpl.FindByMatchID_congr s1 s2 hg2, hg1]⟩
  rw [← hid]
  exact hf2

/-- A `RecordResult` call that succeeds found the match and found every
goal's player. -/
theorem RecordResult_ok_inv (s : Store) (matchID : UUID) (input : MatchResultInput)
    (r : Match) (hs : (matchUseCaseImpl.RecordResult storeRepositories s matchID input).1 = .ok r) :
    (∃ m, matchRepositoryImpl.FindByID s matchID = .ok m) ∧
    (∀ g ∈ input.Goals, playerRepositoryImpl.Exists s g.PlayerID = .ok true) := by
  cases hm : matchRepositoryImpl.FindByID s matchID with
  | error e =>
    have : (matchUseCaseImpl.RecordResult storeRepositories s matchID input).1
        = .error (if e = .ErrRecordNotFound then .ErrMatchNotFound else e) := by
      simp only [matchUseCaseImpl.RecordResult, storeRepositories,
        matchRepositoryImpl.FindByIDWithDetails, hm]
      split <;> rfl
    rw [this] at hs
    cases hs
  | ok m =>
    refine ⟨⟨m, rfl⟩, ?_⟩
    by_contra hne
    push_neg at hne
    obtain ⟨g, hg, hgne⟩ := hne
    obtain ⟨s2, he, _⟩ := RecordResult_missing s matchID input m hm
      ⟨g, hg, playerRepositoryImpl.Exists_false_of_ne s _ hgne⟩
    rw [he] at hs
    cases hs

/-- C7: for a match found in the store, whatever its status, and an input
whose goal players all exist, `RecordResult` succeeds; the returned match and
the stored match row both carry the two supplied scores and status completed,
and `GetResult` of either is the comparison of the two supplied scores. -/
theorem RecordResult_sets_scores_and_status (s : Store) (matchID : UUID)
    (input : MatchResultInput) (m : Match)
    (hm : matchRepositoryImpl.FindByID s matchID = .ok m)
    (hp : ∀ g ∈ input.Goals, playerRepositoryImpl.Exists s g.PlayerID = .ok true) :
    ∃ (r stored : Match) (s2 : Store),
      matchUseCaseImpl.RecordResult storeRepositories s matchID input = (.ok r, s2) ∧
      matchRepositoryImpl.FindByID s2 matchID = .ok stored ∧
      r.HomeScore = some input.HomeScore ∧ r.AwayScore = some input.AwayScore ∧
      r.Status = MatchStatusCompleted ∧
      stored.HomeScore = some input.HomeScore ∧ stored.AwayScore = some input.AwayScore ∧
      stored.Status = MatchStatusCompleted ∧
      r.GetResult = (if input.HomeScore > input.AwayScore then ResultHomeWin
                     else if input.AwayScore > input.HomeScore then ResultAwayWin
                     else ResultDraw) ∧
      stored.GetResult = r.GetResult := by
  obtain ⟨s3, hr, hf, _, _, _⟩ := RecordResult_found s matchID input m hm hp
  exact ⟨_, _, s3, hr, hf, rfl, rfl, rfl, rfl, rfl, rfl, rfl, rfl⟩

/-- Witness of C7: recording 2-1 for the scheduled match 1 gives status
completed and `home_win`. -/
theorem RecordResult_sets_scores_and_status_witness :
    ∃ (r stored : Match) (s2 : Store),
      matchUseCaseImpl.RecordResult storeRepositories sampleStoreWithMatch 1 sampleInput2
        = (.ok r, s2) ∧
      matchRepositoryImpl.FindByID s2 1 = .ok stored ∧
      r.Status = "completed" ∧ r.GetResult = "home_win" ∧
      stored.Status = "completed" ∧ stored.GetResult = "home_win" := by
  obtain ⟨r, stored, s2, h1, h2, _, _, h5, _, _, h8, h9, h10⟩ :=
    RecordResult_sets_scores_and_status sampleStoreWithMatch 1 sampleInput2
      { sampleMatch 1 2 with ID := 1 } (by decide) (by decide)
  exact ⟨r, stored, s2, h1, h2, h5, h9, h8, h10.trans h9⟩

/-- Counterexample to C8 as stated: match 1 is scheduled and still has the
goal of an earlier recording. Recording the same result twice leaves only the
input's goal, recording it once leaves the earlier goal and the input's goal:
twice is not the same as once. -/
theorem RecordResult_twice_differs_from_once :
    (matchUseCaseImpl.RecordResult storeRepositories sampleStoreRescheduled 1
      sampleInput2).1.isOk = true ∧
    (matchUseCaseImpl.RecordResult storeRepositories
      (matchUseCaseImpl.RecordResult storeRepositories sampleStoreRescheduled 1
        sampleInput2).2 1 sampleInput2).1.isOk = true ∧
    (goalRepositoryImpl.FindByMatchID
      (matchUseCaseImpl.RecordResult storeRepositories sampleStoreRescheduled 1
        sampleInput2).2 1).map Goal.toInput = sampleInput1.Goals ++ sampleInput2.Goals ∧
    (goalRepositoryImpl.FindByMatchID
      (matchUseCaseImpl.RecordResult storeRepositories
        (matchUseCaseImpl.RecordResult storeRepositories sampleStoreRescheduled 1
          sampleInput2).2 1 sampleInput2).2 1).map Goal.toInput = sampleInput2.Goals ∧
    sampleInput1.Goals ++ sampleInput2.Goals ≠ sampleInput2.Goals := by
  refine ⟨by decide, by decide, by decide, by decide, by decide⟩

/-- C8, amended: for a match found in the store and two inputs whose goal
players all exist, two `RecordResult` calls in succession both succeed and
leave as live goals of the match exactly the goals of the second input, with
the scores of the second input. When the match was completed or had no live
goal before the first call, and the two inputs are the same, the stored
match row and the goal contents after the second call are those after the
first call. -/
theorem RecordResult_twice (s : Store) (matchID : UUID) (in1 in2 : MatchResultInput)
    (m : Match) (hm : matchRepositoryImpl.FindByID s matchID = .ok m)
    (hp1 : ∀ g ∈ in1.Goals, playerRepositoryImpl.Exists s g.PlayerID = .ok true)
    (hp2 : ∀ g ∈ in2.Goals, playerRepositoryImpl.Exists s g.PlayerID = .ok true) :
    ∃ (r1 r2 : Match) (s1 s2 : Store),
      matchUseCaseImpl.RecordResult storeRepositories s matchID in1 = (.ok r1, s1) ∧
      matchUseCaseImpl.RecordResult storeRepositories s1 matchID in2 = (.ok r2, s2) ∧
      (goalRepositoryImpl.FindByMatchID s2 matchID).map Goal.toInput = in2.Goals ∧
      r2.Goals = goalRepositoryImpl.FindByMatchID s2 matchID ∧
      matchRepositoryImpl.FindByID s2 matchID =
        .ok { m with HomeScore := some in2.HomeScore, AwayScore := some in2.AwayScore,
                     Status := MatchStatusCompleted, Goals := [] } ∧
      ((m.Status = MatchStatusCompleted ∨ goalRepositoryImpl.FindByMatchID s matchID = []) →
        in1 = in2 →
        matchRepositoryImpl.FindByID s2 matchID = matchRepositoryImpl.FindByID s1 matchID ∧
        (goalRepositoryImpl.FindByMatchID s2 matchID).map Goal.toInput =
          (goalRepositoryImpl.FindByMatchID s1 matchID).map Goal.toInput) := by
  obtain ⟨s1, hr1, hf1, hg1, hpl1, _⟩ := RecordResult_found s matchID in1 m hm hp1
  have hp2b : ∀ g ∈ in2.Goals, playerRepositoryImpl.Exists s1 g.PlayerID = .ok true := by
    intro g hg
    have := hp2 g hg
    simpa only [playerRepositoryImpl.Exists, hpl1] using this
  obtain ⟨s2, hr2, hf2, hg2, _, _⟩ := RecordResult_found s1 matchID in2 _ hf1 hp2b
  have hg2b : (goalRepositoryImpl.FindByMatchID s2 matchID).map Goal.toInput = in2.Goals := by
    rw [hg2]; simp
  refine ⟨_, _, s1, s2, hr1, hr2, hg2b, rfl, hf2, ?_⟩
  intro hpre heq
  subst heq
  refine ⟨by rw [hf2, hf1], ?_⟩
  rw [hg2b, hg1]
  rcases hpre with hc | hnil
  · simp [hc]
  · simp [hnil]

/-- Witness of C8, amended: two different results recorded in succession for
the scheduled match 1, which has no goal yet. -/
theorem RecordResult_twice_witness :
    ∃ (r1 r2 : Match) (s1 s2 : Store),
      matchUseCaseImpl.RecordResult storeRepositories sampleStoreWithMatch 1 sampleInput1
        = (.ok r1, s1) ∧
      matchUseCaseImpl.RecordResult storeRepositories s1 1 sampleInput2 = (.ok r2, s2) ∧
      (goalRepositoryImpl.FindByMatchID s2 1).map Goal.toInput = sampleInput2.Goals := by
  obtain ⟨r1, r2, s1, s2, h1, h2, h3, _⟩ :=
    RecordResult_twice sampleStoreWithMatch 1 sampleInput1 sampleInput2
      { sampleMatch 1 2 with ID := 1 } (by decide) (by decide) (by decide)
  exact ⟨r1, r2, s1, s2, h1, h2, h3⟩

/-- Counterexample to C9 as stated: match 1 is created, a first result is
recorded, an update request sets its status back to scheduled, and a second
result is recorded. Every call succeeds, and afterwards the match has the
goal of the first recording as well as the goal of the second. -/
theorem RecordResult_after_reschedule_keeps_old_goals :
    (matchUseCaseImpl.Create storeRepositories sampleStore (sampleMatch 1 2)).1.isOk = true ∧
    (matchUseCaseImpl.RecordResult storeRepositories sampleStoreWithMatch 1
      sampleInput1).1.isOk = true ∧
    (MatchHandler.Update sampleParse sampleParse storeRepositories sampleStoreRecorded 1
      sampleRequestScheduled).1.isOk = true ∧
    (matchUseCaseImpl.RecordResult storeRepositories sampleStoreRescheduled 1
      sampleInput2).1.isOk = true ∧
    (goalRepositoryImpl.FindByMatchID
      (matchUseCaseImpl.RecordResult storeRepositories sampleStoreRescheduled 1
        sampleInput2).2 1).map Goal.toInput
      = [{ PlayerID := 1, TeamID := 1, Minute := 10, IsOwnGoal := false },
         { PlayerID := 1, TeamID := 1, Minute := 34, IsOwnGoal := false }] ∧
    (goalRepositoryImpl.FindByMatchID
      (matchUseCaseImpl.RecordResult storeRepositories sampleStoreRescheduled 1
        sampleInput2).2 1).map Goal.toInput ≠ sampleInput2.Goals := by
  refine ⟨by decide, by decide, by decide, by decide, by decide, by decide⟩

/-- C9, amended: in every store state, a `RecordResult` call that succeeds
leaves as live goals of the match the live goals it had before the call,
followed by the goals of the input, when the status of the match was not
completed at the call; when the status was completed at the call they are
exactly the goals of the input. The returned match carries those goals. -/
theorem RecordResult_goals_after (s : Store) (matchID : UUID) (input : MatchResultInput)
    (r : Match)
    (hs : (matchUseCaseImpl.RecordResult storeRepositories s matchID input).1 = .ok r) :
    ∃ m : Match, matchRepositoryImpl.FindByID s matchID = .ok m ∧
      (goalRepositoryImpl.FindByMatchID
        (matchUseCaseImpl.RecordResult storeRepositories s matchID input).2 matchID).map
          Goal.toInput =
        (if m.Status = MatchStatusCompleted then []
         else (goalRepositoryImpl.FindByMatchID s matchID).map Goal.toInput) ++ input.Goals ∧
      r.Goals = goalRepositoryImpl.FindByMatchID
        (matchUseCaseImpl.RecordResult storeRepositories s matchID input).2 matchID := by
  obtain ⟨⟨m, hm⟩, hp⟩ := RecordResult_ok_inv s matchID input r hs
  obtain ⟨s3, hr, _, hg, _, _⟩ := RecordResult_found s matchID input m hm hp
  rw [hr] at hs ⊢
  have hr3 := Except.ok.inj hs
  exact ⟨m, hm, hg, by rw [← hr3]⟩

/-- Witness of C9, amended: a second result recorded for the completed match 1
replaces the goal of the first. -/
theorem RecordResult_goals_after_witness :
    ∃ m : Match, matchRepositoryImpl.FindByID sampleStoreRecorded 1 = .ok m ∧
      m.Status = MatchStatusCompleted ∧
      (goalRepositoryImpl.FindByMatchID
        (matchUseCaseImpl.RecordResult storeRepositories sampleStoreRecorded 1
          sampleInput2).2 1).map Goal.toInput = sampleInput2.Goals := by
  obtain ⟨m, hm, hg, _⟩ := RecordResult_goals_after sampleStoreRecorded 1 sampleInput2
    { ID := 1, Deleted := false, MatchDate := 0, MatchTime := "15:00", HomeTeamID := 1,
      AwayTeamID := 2, HomeScore := some 2, AwayScore := some 1, Status := "completed",
      Goals := [{ ID := 2, Deleted := false, MatchID := 1, PlayerID := 1, TeamID := 1,
                  Minute := 34, IsOwnGoal := false }] } (by decide)
  have hm2 : matchRepositoryImpl.FindByID sampleStoreRecorded 1 =
      .ok { ID := 1, Deleted := false, MatchDate := 0, MatchTime := "15:00", HomeTeamID := 1,
            AwayTeamID := 2, HomeScore := some 1, AwayScore := some 0, Status := "completed",
            Goals := [] } := by decide
  have hst : m.Status = MatchStatusCompleted := by
    rw [hm2] at hm
    injection hm with h
    rw [← h]
    rfl
  refine ⟨m, hm2.trans (hm2.symm.trans hm), hst, ?_⟩
  rw [hg, if_pos hst]
  rfl

/-- C10: for a match found in the store and an input in which some goal's
player does not exist, `RecordResult` fails with `ErrPlayerNotFound`; no row
was added to the goal table and every live goal of the match afterwards was
one before, so none of the input goals was written; the match row carries the
supplied scores and status completed all the same. -/
theorem RecordResult_player_not_found (s : Store) (matchID : UUID)
    (input : MatchResultInput) (m : Match)
    (hm : matchRepositoryImpl.FindByID s matchID = .ok m)
    (hp : ∃ g ∈ input.Goals, playerRepositoryImpl.Exists s g.PlayerID = .ok false) :
    ∃ s2 : Store,
      matchUseCaseImpl.RecordResult storeRepositories s matchID input =
        (.error .ErrPlayerNotFound, s2) ∧
      s2.goalRows.length = s.goalRows.length ∧
      s2.goalRows.map (fun g => g.ID) = s.goalRows.map (fun g => g.ID) ∧
      (∀ g ∈ goalRepositoryImpl.FindByMatchID s2 matchID,
        g ∈ goalRepositoryImpl.FindByMatchID s matchID) ∧
      matchRepositoryImpl.FindByID s2 matchID =
        .ok { m with HomeScore := some input.HomeScore, AwayScore := some input.AwayScore,
                     Status := MatchStatusCompleted, Goals := [] } := by
  obtain ⟨s2, hr, hf, hrows, hlive⟩ := RecordResult_missing s matchID input m hm hp
  refine ⟨s2, hr, ?_, ?_, ?_, hf⟩
  · rw [hrows]; split <;> simp
  · rw [hrows]
    split
    · rw [List.map_map]
      apply List.map_congr_left
      intro g _
      by_cases e : g.MatchID = matchID <;> simp [e]
    · rfl
  · rw [hlive]
    split
    · intro g hg; cases hg
    · intro g hg; exact hg

/-- Witness of C10: the second goal of the input names a missing player; the
goal of the existing player listed first is not written either, and match 1
is completed with score 3-3. -/
theorem RecordResult_player_not_found_witness :
    ∃ s2 : Store,
      matchUseCaseImpl.RecordResult storeRepositories sampleStoreWithMatch 1 sampleInputMissing
        = (.error .ErrPlayerNotFound, s2) ∧
      s2.goalRows.length = 0 ∧
      matchRepositoryImpl.FindByID s2 1 =
        .ok { sampleMatch 1 2 with ID := 1, HomeScore := some 3, AwayScore := some 3,
                                   Status := MatchStatusCompleted } := by
  obtain ⟨s2, h1, h2, _, _, h5⟩ :=
    RecordResult_player_not_found sampleStoreWithMatch 1 sampleInputMissing
      { sampleMatch 1 2 with ID := 1 } (by decide) (by decide)
  exact ⟨s2, h1, h2, h5⟩

/-! ### Update and Delete of a match -/

/-- C11: when the repository reports that no match has the id, `Update` fails
with `ErrMatchNotFound` and `Delete` fails with `ErrMatchNotFound`, whatever
the team repository would answer and whatever the teams of the match are; the
store state is returned as it was, so no write and no delete was issued. -/
theorem Update_Delete_unknown_match {σ : Type} (r : Repositories σ) (s : σ) (m : Match)
    (id : UUID) (hm : r.matchExists s m.ID = .ok false)
    (hid : r.matchExists s id = .ok false) :
    matchUseCaseImpl.Update r s m = (.error .ErrMatchNotFound, s) ∧
    matchUseCaseImpl.Delete r s id = (.error .ErrMatchNotFound, s) := by
  constructor
  · simp [matchUseCaseImpl.Update, hm]
  · simp [matchUseCaseImpl.Delete, hid]

/-- Witness of C11: match 5 is not in the sample store with match 1; the
update names the same missing team 7 on both sides and is still answered with
`ErrMatchNotFound`. -/
theorem Update_Delete_unknown_match_witness :
    matchUseCaseImpl.Update storeRepositories sampleStoreWithMatch { sampleMatch 7 7 with ID := 5 }
      = (.error .ErrMatchNotFound, sampleStoreWithMatch) ∧
    matchUseCaseImpl.Delete storeRepositories sampleStoreWithMatch 5
      = (.error .ErrMatchNotFound, sampleStoreWithMatch) :=
  Update_Delete_unknown_match storeRepositories sampleStoreWithMatch
    { sampleMatch 7 7 with ID := 5 } 5 (by decide) (by decide)

/-- C12: for a match the repository reports as existing, `Update` fails with
`ErrSameTeamMatch` when the two team ids are equal; with different ids it
fails when the home team or the away team does not exist; and when both
exist its outcome is that of the store write. None of this reads the stored
match, so it is the same whether or not the team ids were changed. -/
theorem Update_full_validation {σ : Type} (r : Repositories σ) (s : σ) (m : Match)
    (hm : r.matchExists s m.ID = .ok true) :
    (m.HomeTeamID = m.AwayTeamID →
      matchUseCaseImpl.Update r s m = (.error .ErrSameTeamMatch, s)) ∧
    (m.HomeTeamID ≠ m.AwayTeamID → r.teamExists s m.HomeTeamID = .ok false →
      matchUseCaseImpl.Update r s m = (.error (.New "home team not found"), s)) ∧
    (m.HomeTeamID ≠ m.AwayTeamID → r.teamExists s m.HomeTeamID = .ok true →
      r.teamExists s m.AwayTeamID = .ok false →
      matchUseCaseImpl.Update r s m = (.error (.New "away team not found"), s)) ∧
    (m.HomeTeamID ≠ m.AwayTeamID → r.teamExists s m.HomeTeamID = .ok true →
      r.teamExists s m.AwayTeamID = .ok true →
      matchUseCaseImpl.Update r s m =
        (match r.matchUpdate s m with
         | .error err => (.error err, s)
         | .ok s1 => (.ok (), s1))) ∧
    (∀ s1, matchUseCaseImpl.Update r s m = (.ok (), s1) →
      m.HomeTeamID ≠ m.AwayTeamID ∧ r.teamExists s m.HomeTeamID = .ok true ∧
      r.teamExists s m.AwayTeamID = .ok true ∧ r.matchUpdate s m = .ok s1) := by
  refine ⟨?_, ?_, ?_, ?_, ?_⟩
  · intro h
    simp [matchUseCaseImpl.Update, hm, h]
  · intro h hh
    simp [matchUseCaseImpl.Update, hm, h, hh]
  · intro h hh ha
    simp [matchUseCaseImpl.Update, hm, h, hh, ha]
  · intro h hh ha
    simp [matchUseCaseImpl.Update, hm, h, hh, ha]
  · intro s1 hs
    by_cases h : m.HomeTeamID = m.AwayTeamID
    · simp [matchUseCaseImpl.Update, hm, h] at hs
    · cases hh : r.teamExists s m.HomeTeamID with
      | error e => simp [matchUseCaseImpl.Update, hm, h, hh] at hs
      | ok b =>
        cases b with
        | false => simp [matchUseCaseImpl.Update, hm, h, hh] at hs
        | true =>
          cases ha : r.teamExists s m.AwayTeamID with
          | error e => simp [matchUseCaseImpl.Update, hm, h, hh, ha] at hs
          | ok b2 =>
            cases b2 with
            | false => simp [matchUseCaseImpl.Update, hm, h, hh, ha] at hs
            | true =>
              cases hu : r.matchUpdate s m with
              | error e => simp [matchUseCaseImpl.Update, hm, h, hh, ha, hu] at hs
              | ok s2 =>
                simp [matchUseCaseImpl.Update, hm, h, hh, ha, hu] at hs
                exact ⟨h, rfl, rfl, by rw [hs]⟩

/-- Witness of C12: for the existing match 1, an update to team 1 on both
sides is refused, an update to the missing away team 3 fails, and an update
that keeps the stored teams 1 and 2 goes through the same checks and reaches
the store write. -/
theorem Update_full_validation_witness :
    matchUseCaseImpl.Update storeRepositories sampleStoreWithMatch { sampleMatch 1 1 with ID := 1 }
      = (.error .ErrSameTeamMatch, sampleStoreWithMatch) ∧
    matchUseCaseImpl.Update storeRepositories sampleStoreWithMatch { sampleMatch 1 3 with ID := 1 }
      = (.error (.New "away team not found"), sampleStoreWithMatch) ∧
    matchUseCaseImpl.Update storeRepositories sampleStoreWithMatch { sampleMatch 1 2 with ID := 1 }
      = (match storeRepositories.matchUpdate sampleStoreWithMatch
                 { sampleMatch 1 2 with ID := 1 } with
         | .error err => (.error err, sampleStoreWithMatch)
         | .ok s1 => (.ok (), s1)) :=
  ⟨(Update_full_validation storeRepositories sampleStoreWithMatch
      { sampleMatch 1 1 with ID := 1 } (by decide)).1 rfl,
   (Update_full_validation storeRepositories sampleStoreWithMatch
      { sampleMatch 1 3 with ID := 1 } (by decide)).2.2.1 (by decide) (by decide) (by decide),
   (Update_full_validation storeRepositories sampleStoreWithMatch
      { sampleMatch 1 2 with ID := 1 } (by decide)).2.2.2.1 (by decide) (by decide)
      (by decide)⟩

/-- What `UpdateMatchEntity` leaves alone and what it does to the status: the
identity, the soft-delete mark, the scores and the goals are those of the
match it was given; the status is the supplied one when one is supplied. -/
theorem UpdateMatchEntity_ok (parseUUID : String → Except Err UUID)
    (parseDate : String → Except Err Nat) (req : UpdateMatchRequest) (m m1 : Match)
    (h : req.UpdateMatchEntity parseUUID parseDate m = .ok m1) :
    m1.ID = m.ID ∧ m1.Deleted = m.Deleted ∧ m1.HomeScore = m.HomeScore ∧
    m1.AwayScore = m.AwayScore ∧ m1.Goals = m.Goals ∧
    m1.Status = (if req.Status ≠ "" then req.Status else m.Status) := by
  by_cases hd : req.MatchDate = "" <;> by_cases ht : req.MatchTime = "" <;>
  by_cases hh : req.HomeTeamID = "" <;> by_cases ha : req.AwayTeamID = "" <;>
  by_cases hs : req.Status = "" <;>
  cases hpd : parseDate req.MatchDate <;> cases hph : parseUUID req.HomeTeamID <;>
  cases hpa : parseUUID req.AwayTeamID <;>
  simp [UpdateMatchRequest.UpdateMatchEntity, hd, ht, hh, ha, hs, hpd, hph, hpa] at h <;>
  (subst h; simp [hs])

/-- A match that `FindByID` finds is one that `Exists` reports. -/
theorem matchRepositoryImpl.Exists_of_FindByID {s : Store} {id : UUID} {m : Match}
    (h : matchRepositoryImpl.FindByID s id = .ok m) :
    matchRepositoryImpl.Exists s id = .ok true := by
  obtain ⟨hmem, hid, hdel⟩ := matchRepositoryImpl.FindByID_ok h
  have hin : m ∈ s.matchRows.filter (fun m => m.ID == id && !m.Deleted) := by
    simp [List.mem_filter, hmem, hid, hdel]
  have hpos : (s.matchRows.filter (fun m => m.ID == id && !m.Deleted)).length > 0 :=
    List.length_pos_of_mem hin
  simp [matchRepositoryImpl.Exists, hpos]

/-- The update path of the handler for a match that is found, a request body
that applies, and distinct existing teams after it was applied: the use case
accepts the match and the store then holds it under its id. -/
theorem MatchHandler.Update_ok (parseUUID : String → Except Err UUID)
    (parseDate : String → Except Err Nat) (s : Store) (id : UUID) (req : UpdateMatchRequest)
    (m m1 : Match) (hm : matchRepositoryImpl.FindByID s id = .ok m)
    (he : req.UpdateMatchEntity parseUUID parseDate m = .ok m1)
    (hne : m1.HomeTeamID ≠ m1.AwayTeamID)
    (hh : teamRepositoryImpl.Exists s m1.HomeTeamID = .ok true)
    (ha : teamRepositoryImpl.Exists s m1.AwayTeamID = .ok true) :
    ∃ s2 : Store,
      MatchHandler.Update parseUUID parseDate storeRepositories s id req = (.ok m1, s2) ∧
      matchRepositoryImpl.Update s m1 = .ok s2 ∧
      matchRepositoryImpl.FindByID s2 id = .ok { m1 with Goals := [] } ∧
      s2.teamRows = s.teamRows ∧ s2.playerRows = s.playerRows ∧ s2.goalRows = s.goalRows := by
  obtain ⟨hmem, hid, hdel⟩ := matchRepositoryImpl.FindByID_ok hm
  obtain ⟨h1id, h1del, _⟩ := UpdateMatchEntity_ok parseUUID parseDate req m m1 he
  have hex : matchRepositoryImpl.Exists s m1.ID = .ok true := by
    rw [h1id, hid]; exact matchRepositoryImpl.Exists_of_FindByID hm
  obtain ⟨s2, hu, ht, hp, hg, hf⟩ := matchRepositoryImpl.Update_spec s m1
    ⟨m, hmem, by rw [h1id]⟩ (by rw [h1del, hdel])
  refine ⟨s2, ?_, hu, ?_, ht, hp, hg⟩
  · simp [MatchHandler.Update, matchUseCaseImpl.GetByID, matchUseCaseImpl.Update,
      storeRepositories, hm, he, hex, hne, hh, ha, hu]
  · rw [← hid, ← h1id]; exact hf

/-- C13: for a match found in the store, whatever its current status, and an
update request that supplies one of the four statuses and leaves the match
with distinct existing teams, `UpdateMatchEntity` followed by `Update`
succeeds, and the stored match then has the supplied status. No transition is
refused. -/
theorem Update_status_unconditional (parseUUID : String → Except Err UUID)
    (parseDate : String → Except Err Nat) (s : Store) (id : UUID) (req : UpdateMatchRequest)
    (m m1 : Match) (hm : matchRepositoryImpl.FindByID s id = .ok m)
    (he : req.UpdateMatchEntity parseUUID parseDate m = .ok m1)
    (hne : m1.HomeTeamID ≠ m1.AwayTeamID)
    (hh : teamRepositoryImpl.Exists s m1.HomeTeamID = .ok true)
    (ha : teamRepositoryImpl.Exists s m1.AwayTeamID = .ok true)
    (hst : req.Status ∈ [MatchStatusScheduled, MatchStatusOngoing, MatchStatusCompleted,
                          MatchStatusCancelled]) :
    ∃ (s2 : Store) (stored : Match),
      MatchHandler.Update parseUUID parseDate storeRepositories s id req = (.ok m1, s2) ∧
      matchRepositoryImpl.FindByID s2 id = .ok stored ∧
      stored.Status = req.Status ∧ m1.Status = req.Status := by
  obtain ⟨s2, h1, _, h3, _⟩ :=
    MatchHandler.Update_ok parseUUID parseDate s id req m m1 hm he hne hh ha
  have hne2 : req.Status ≠ "" := by
    intro h0
    rw [h0] at hst
    revert hst
    decide
  have hs := (UpdateMatchEntity_ok parseUUID parseDate req m m1 he).2.2.2.2.2
  rw [if_pos hne2] at hs
  exact ⟨s2, _, h1, h3, hs, hs⟩

/-- Witness of C13: the completed match 1 is set back to scheduled. -/
theorem Update_status_unconditional_witness :
    ∃ (s2 : Store) (stored : Match),
      MatchHandler.Update sampleParse sampleParse storeRepositories sampleStoreRecorded 1
          sampleRequestScheduled
        = (.ok { sampleMatch 1 2 with ID := 1, HomeScore := some 1, AwayScore := some 0 }, s2) ∧
      matchRepositoryImpl.FindByID s2 1 = .ok stored ∧
      stored.Status = "scheduled" := by
  obtain ⟨s2, stored, h1, h2, h3, _⟩ :=
    Update_status_unconditional sampleParse sampleParse sampleStoreRecorded 1
      sampleRequestScheduled
      { sampleMatch 1 2 with ID := 1, HomeScore := some 1, AwayScore := some 0,
                             Status := MatchStatusCompleted }
      { sampleMatch 1 2 with ID := 1, HomeScore := some 1, AwayScore := some 0 }
      (by decide) (by decide) (by decide) (by decide) (by decide) (by decide)
  exact ⟨s2, stored, h1, h2, h3⟩

/-! ### Invariants of the match table -/

/-- The store after a `Create` call over any repositories: unchanged, or the
state the repository's create returned for the match, possibly with the
default status, whose teams are then two different teams. -/
theorem Create_cases {σ : Type} (r : Repositories σ) (s : σ) (m : Match) :
    (matchUseCaseImpl.Create r s m).2 = s ∨
    (m.HomeTeamID ≠ m.AwayTeamID ∧
      ∃ (st : MatchStatus) (m2 : Match),
        r.matchCreate s { m with Status := st } =
          .ok (m2, (matchUseCaseImpl.Create r s m).2)) := by
  unfold matchUseCaseImpl.Create
  cases hh : r.teamExists s m.HomeTeamID with
  | error e => left; rfl
  | ok b1 =>
    cases b1 with
    | false => left; rfl
    | true =>
      cases ha : r.teamExists s m.AwayTeamID with
      | error e => left; rfl
      | ok b2 =>
        cases b2 with
        | false => left; rfl
        | true =>
          by_cases hne : m.HomeTeamID = m.AwayTeamID
          · left; simp [hne]
          · by_cases hs : m.Status = ""
            · cases hc : r.matchCreate s { m with Status := MatchStatusScheduled } with
              | error e => left; simp [hne, hs, hc]
              | ok res =>
                right
                refine ⟨hne, MatchStatusScheduled, res.1, ?_⟩
                simp [hne, hs, hc]
            · cases hc : r.matchCreate s m with
              | error e => left; simp [hne, hs, hc]
              | ok res =>
                right
                refine ⟨hne, m.Status, res.1, ?_⟩
                simp [hne, hs, hc]

/-- The match table after the store's create: one row appended, with the
fields of the match apart from its identity and its goals. -/
theorem matchRepositoryImpl.Create_rows (s s2 : Store) (m m2 : Match)
    (h : matchRepositoryImpl.Create s m = .ok (m2, s2)) :
    ∃ id : UUID, s2.matchRows = s.matchRows ++ [{ m with ID := id, Goals := [] }] := by
  by_cases hmem : (if m.ID = 0 then freshID (s.matchRows.map (fun x => x.ID)) else m.ID)
      ∈ s.matchRows.map (fun x => x.ID)
  · simp only [matchRepositoryImpl.Create, if_pos hmem] at h
    cases h
  · simp only [matchRepositoryImpl.Create, if_neg hmem, Except.ok.injEq, Prod.mk.injEq] at h
    exact ⟨_, by rw [← h.2]⟩

/-- The match table after an `Update` call: unchanged, or every row with the
id of the match overwritten by the match, whose teams are then two different
teams. -/
theorem Update_rows (s : Store) (m : Match) :
    (matchUseCaseImpl.Update storeRepositories s m).2 = s ∨
    (m.HomeTeamID ≠ m.AwayTeamID ∧
      (matchUseCaseImpl.Update storeRepositories s m).2.matchRows =
        s.matchRows.map (fun x => if x.ID = m.ID then { m with Goals := [] } else x)) := by
  unfold matchUseCaseImpl.Update
  cases hm : storeRepositories.matchExists s m.ID with
  | error e => left; rfl
  | ok b0 =>
    cases b0 with
    | false => left; rfl
    | true =>
      by_cases hne : m.HomeTeamID = m.AwayTeamID
      · left; simp [hne]
      · cases hh : storeRepositories.teamExists s m.HomeTeamID with
        | error e => left; simp [hne]
        | ok b1 =>
          cases b1 with
          | false => left; simp [hne]
          | true =>
            cases ha : storeRepositories.teamExists s m.AwayTeamID with
            | error e => left; simp [hne]
            | ok b2 =>
              cases b2 with
              | false => left; simp [hne]
              | true =>
                right
                refine ⟨hne, ?_⟩
                simp [hne, storeRepositories, matchRepositoryImpl.Update]

/-- The match table after a `RecordResult` call: unchanged, or every row with
the id overwritten by a row of the table with both scores set. -/
theorem RecordResult_rows (s : Store) (matchID : UUID) (input : MatchResultInput) :
    (matchUseCaseImpl.RecordResult storeRepositories s matchID input).2.matchRows
      = s.matchRows ∨
    ∃ m ∈ s.matchRows,
      (matchUseCaseImpl.RecordResult storeRepositories s matchID input).2.matchRows =
        s.matchRows.map (fun x => if x.ID = matchID then
          { m with HomeScore := some input.HomeScore, AwayScore := some input.AwayScore,
                   Status := MatchStatusCompleted, Goals := [] } else x) := by
  cases hm : matchRepositoryImpl.FindByID s matchID with
  | error e =>
    left
    simp only [matchUseCaseImpl.RecordResult, storeRepositories,
      matchRepositoryImpl.FindByIDWithDetails, hm]
    split <;> rfl
  | ok m =>
    right
    obtain ⟨hmem, hid, _⟩ := matchRepositoryImpl.FindByID_ok hm
    refine ⟨m, hmem, ?_⟩
    have h0 : storeRepositories.matchFindByIDWithDetails s matchID =
        .ok { m with Goals := goalRepositoryImpl.FindByMatchID s matchID } := by
      simp [storeRepositories, matchRepositoryImpl.FindByIDWithDetails, hm]
    obtain ⟨s1, h1, _, _, hm1, _, _⟩ := deleteStep_spec s matchID m.Status
    have h2 : storeRepositories.matchUpdate s1
        { m with HomeScore := some input.HomeScore, AwayScore := some input.AwayScore,
                 Status := MatchStatusCompleted,
                 Goals := goalRepositoryImpl.FindByMatchID s matchID } =
        .ok { s1 with matchRows := s1.matchRows.map (fun x => if x.ID = matchID then
          { m with HomeScore := some input.HomeScore, AwayScore := some input.AwayScore,
                   Status := MatchStatusCompleted, Goals := [] } else x) } := by
      simp [storeRepositories, matchRepositoryImpl.Update, hid]
    cases h3 : matchUseCaseImpl.RecordResult.goals storeRepositories
        { s1 with matchRows := s1.matchRows.map (fun x => if x.ID = matchID then
          { m with HomeScore := some input.HomeScore, AwayScore := some input.AwayScore,
                   Status := MatchStatusCompleted, Goals := [] } else x) }
        matchID input.Goals with
    | error e =>
      rw [RecordResult_steps_error storeRepositories s s1 _ matchID input _ e h0 h1 h2 h3, hm1]
    | ok goals =>
      have h4 : ∃ s3 : Store,
          (if goals.length > 0 then storeRepositories.goalCreateBatch
              { s1 with matchRows := s1.matchRows.map (fun x => if x.ID = matchID then
                { m with HomeScore := some input.HomeScore, AwayScore := some input.AwayScore,
                         Status := MatchStatusCompleted, Goals := [] } else x) } goals
           else .ok { s1 with matchRows := s1.matchRows.map (fun x => if x.ID = matchID then
                { m with HomeScore := some input.HomeScore, AwayScore := some input.AwayScore,
                         Status := MatchStatusCompleted, Goals := [] } else x) }) = .ok s3 ∧
          s3.matchRows = s1.matchRows.map (fun x => if x.ID = matchID then
                { m with HomeScore := some input.HomeScore, AwayScore := some input.AwayScore,
                         Status := MatchStatusCompleted, Goals := [] } else x) := by
        split
        · exact ⟨_, rfl, rfl⟩
        · exact ⟨_, rfl, rfl⟩
      obtain ⟨s3, h4, hm3⟩ := h4
      rw [RecordResult_steps storeRepositories s s1 _ s3 matchID input _ goals h0 h1 h2 h3 h4,
        hm3, hm1]

/-- One call of the match use case keeps every stored match on two different
teams. -/
theorem MatchCall.run_teams_differ (s : Store) (c : MatchCall)
    (h : ∀ m ∈ s.matchRows, m.HomeTeamID ≠ m.AwayTeamID) :
    ∀ m ∈ (MatchCall.run s c).matchRows, m.HomeTeamID ≠ m.AwayTeamID := by
  cases c with
  | Create m0 =>
    simp only [MatchCall.run]
    rcases Create_cases storeRepositories s m0 with h1 | ⟨hne, st, m2, hc⟩
    · rw [h1]; exact h
    · obtain ⟨id, hrows⟩ := matchRepositoryImpl.Create_rows s _ _ m2 hc
      rw [hrows]
      intro m hm
      rcases List.mem_append.mp hm with h2 | h2
      · exact h m h2
      · rw [List.mem_singleton] at h2
        subst h2
        exact hne
  | Update m0 =>
    simp only [MatchCall.run]
    rcases Update_rows s m0 with h1 | ⟨hne, hrows⟩
    · rw [h1]; exact h
    · rw [hrows]
      intro m hm
      obtain ⟨x, hx, hxm⟩ := List.mem_map.mp hm
      by_cases e : x.ID = m0.ID
      · rw [if_pos e] at hxm; subst hxm; exact hne
      · rw [if_neg e] at hxm; subst hxm; exact h x hx
  | RecordResult matchID input =>
    simp only [MatchCall.run]
    rcases RecordResult_rows s matchID input with h1 | ⟨m1, hm1, hrows⟩
    · rw [h1]; exact h
    · rw [hrows]
      intro m hm
      obtain ⟨x, hx, hxm⟩ := List.mem_map.mp hm
      by_cases e : x.ID = matchID
      · rw [if_pos e] at hxm; subst hxm; exact h m1 hm1
      · rw [if_neg e] at hxm; subst hxm; exact h x hx

/-- A sequence of calls of the match use case keeps every stored match on two
different teams. -/
theorem MatchCall.runAll_teams_differ (calls : List MatchCall) (s : Store)
    (h : ∀ m ∈ s.matchRows, m.HomeTeamID ≠ m.AwayTeamID) :
    ∀ m ∈ (MatchCall.runAll s calls).matchRows, m.HomeTeamID ≠ m.AwayTeamID := by
  induction calls generalizing s with
  | nil => exact h
  | cons c rest ih =>
    simp only [MatchCall.runAll, List.foldl_cons]
    exact ih (MatchCall.run s c) (MatchCall.run_teams_differ s c h)

/-- C14: starting from a store without matches, after any sequence of
`Create`, `Update` and `RecordResult` calls of the match use case, successful
or not, every row of the match table has a home team id different from its
away team id. -/
theorem teams_differ_invariant (s0 : Store) (calls : List MatchCall)
    (h0 : s0.matchRows = []) :
    ∀ m ∈ (MatchCall.runAll s0 calls).matchRows, m.HomeTeamID ≠ m.AwayTeamID :=
  MatchCall.runAll_teams_differ calls s0 (by rw [h0]; intro m hm; cases hm)

/-- Witness of C14: the sample sequence of calls leaves two matches in the
sample store, both between two different teams. -/
theorem teams_differ_invariant_witness :
    (MatchCall.runAll sampleStore sampleCalls).matchRows.length = 2 ∧
    ∀ m ∈ (MatchCall.runAll sampleStore sampleCalls).matchRows,
      m.HomeTeamID ≠ m.AwayTeamID :=
  ⟨by decide, teams_differ_invariant sampleStore sampleCalls rfl⟩

/-- A match built by `ToMatchEntity` has no scores. -/
theorem ToMatchEntity_ok (parseUUID : String → Except Err UUID)
    (parseDate : String → Except Err Nat) (req : CreateMatchRequest) (m : Match)
    (h : req.ToMatchEntity parseUUID parseDate = .ok m) :
    m.HomeScore = none ∧ m.AwayScore = none ∧ m.Status = MatchStatusScheduled ∧ m.ID = 0 := by
  cases hh : parseUUID req.HomeTeamID <;> cases ha : parseUUID req.AwayTeamID <;>
  cases hd : parseDate req.MatchDate <;>
  simp [CreateMatchRequest.ToMatchEntity, hh, ha, hd] at h
  subst h
  exact ⟨rfl, rfl, rfl, rfl⟩

/-- The store after the update path of the handler is the store after the use
case call it ends with. -/
theorem MatchHandler.Update_state {σ : Type} (parseUUID : String → Except Err UUID)
    (parseDate : String → Except Err Nat) (r : Repositories σ) (s : σ) (id : UUID)
    (req : UpdateMatchRequest) :
    (MatchHandler.Update parseUUID parseDate r s id req).2 = s ∨
    ∃ m m1 : Match, matchUseCaseImpl.GetByID r s id = .ok m ∧
      req.UpdateMatchEntity parseUUID parseDate m = .ok m1 ∧
      (MatchHandler.Update parseUUID parseDate r s id req).2
        = (matchUseCaseImpl.Update r s m1).2 := by
  cases hg : matchUseCaseImpl.GetByID r s id with
  | error e => left; simp only [MatchHandler.Update, hg]
  | ok m =>
    cases he : req.UpdateMatchEntity parseUUID parseDate m with
    | error e => left; simp only [MatchHandler.Update, hg, he]
    | ok m1 =>
      right
      refine ⟨m, m1, rfl, he, ?_⟩
      simp only [MatchHandler.Update, hg, he]
      cases hu : matchUseCaseImpl.Update r s m1 with
      | mk res s1 => cases res <;> rfl

/-- One request to the match endpoints keeps the two scores of every stored
match both present or both absent. -/
theorem MatchRequest.run_scores_together (parseUUID : String → Except Err UUID)
    (parseDate : String → Except Err Nat) (s : Store) (c : MatchRequest)
    (h : ∀ m ∈ s.matchRows, (m.HomeScore = none ↔ m.AwayScore = none)) :
    ∀ m ∈ (MatchRequest.run parseUUID parseDate s c).matchRows,
      (m.HomeScore = none ↔ m.AwayScore = none) := by
  cases c with
  | Create req =>
    simp only [MatchRequest.run, MatchHandler.Create]
    cases he : req.ToMatchEntity parseUUID parseDate with
    | error e => exact h
    | ok m0 =>
      obtain ⟨hs1, hs2, _, _⟩ := ToMatchEntity_ok parseUUID parseDate req m0 he
      simp only
      rcases Create_cases storeRepositories s m0 with h1 | ⟨_, st, m2, hc⟩
      · rw [h1]; exact h
      · obtain ⟨id, hrows⟩ := matchRepositoryImpl.Create_rows s _ _ m2 hc
        rw [hrows]
        intro m hm
        rcases List.mem_append.mp hm with h2 | h2
        · exact h m h2
        · rw [List.mem_singleton] at h2
          subst h2
          simp [hs1, hs2]
  | Update id req =>
    simp only [MatchRequest.run]
    rcases MatchHandler.Update_state parseUUID parseDate storeRepositories s id req with
      h1 | ⟨m0, m1, hg, he, hst⟩
    · rw [h1]; exact h
    · rw [hst]
      have hm0 : m0 ∈ s.matchRows := by
        cases hf : matchRepositoryImpl.FindByID s id with
        | error e => simp [matchUseCaseImpl.GetByID, storeRepositories, hf] at hg; split at hg <;> cases hg
        | ok x =>
          simp [matchUseCaseImpl.GetByID, storeRepositories, hf] at hg
          subst hg
          exact (matchRepositoryImpl.FindByID_ok hf).1
      obtain ⟨_, _, hs1, hs2, _, _⟩ := UpdateMatchEntity_ok parseUUID parseDate req m0 m1 he
      rcases Update_rows s m1 with h1 | ⟨_, hrows⟩
      · rw [h1]; exact h
      · rw [hrows]
        intro m hm
        obtain ⟨x, hx, hxm⟩ := List.mem_map.mp hm
        by_cases e : x.ID = m1.ID
        · rw [if_pos e] at hxm
          subst hxm
          simp only [hs1, hs2]
          exact h m0 hm0
        · rw [if_neg e] at hxm; subst hxm; exact h x hx
  | RecordResult matchID input =>
    simp only [MatchRequest.run]
    rcases RecordResult_rows s matchID input with h1 | ⟨m1, _, hrows⟩
    · rw [h1]; exact h
    · rw [hrows]
      intro m hm
      obtain ⟨x, hx, hxm⟩ := List.mem_map.mp hm
      by_cases e : x.ID = matchID
      · rw [if_pos e] at hxm; subst hxm; simp
      · rw [if_neg e] at hxm; subst hxm; exact h x hx

/-- A sequence of requests to the match endpoints keeps the two scores of
every stored match both present or both absent. -/
theorem MatchRequest.runAll_scores_together (parseUUID : String → Except Err UUID)
    (parseDate : String → Except Err Nat) (reqs : List MatchRequest) (s : Store)
    (h : ∀ m ∈ s.matchRows, (m.HomeScore = none ↔ m.AwayScore = none)) :
    ∀ m ∈ (MatchRequest.runAll parseUUID parseDate s reqs).matchRows,
      (m.HomeScore = none ↔ m.AwayScore = none) := by
  induction reqs generalizing s with
  | nil => exact h
  | cons c rest ih =>
    simp only [MatchRequest.runAll, List.foldl_cons]
    exact ih (MatchRequest.run parseUUID parseDate s c)
      (MatchRequest.run_scores_together parseUUID parseDate s c h)

/-- C15: starting from a store without matches, after any sequence of
requests that create a match through `ToMatchEntity`, update a match through
`UpdateMatchEntity` followed by `Update`, or record a result, successful or
not, every row of the match table has both scores present or both absent. -/
theorem scores_together_invariant (parseUUID : String → Except Err UUID)
    (parseDate : String → Except Err Nat) (s0 : Store) (reqs : List MatchRequest)
    (h0 : s0.matchRows = []) :
    ∀ m ∈ (MatchRequest.runAll parseUUID parseDate s0 reqs).matchRows,
      (m.HomeScore = none ∧ m.AwayScore = none) ∨
      (∃ home away : Int, m.HomeScore = some home ∧ m.AwayScore = some away) := by
  intro m hm
  have h := MatchRequest.runAll_scores_together parseUUID parseDate reqs s0
    (by rw [h0]; intro m hm; cases hm) m hm
  cases hh : m.HomeScore with
  | none => exact Or.inl ⟨rfl, h.mp hh⟩
  | some home =>
    cases ha : m.AwayScore with
    | none => rw [h.mpr ha] at hh; cases hh
    | some away => exact Or.inr ⟨home, away, rfl, rfl⟩

/-- Witness of C15: the sample sequence of requests leaves a match with both
scores and a match without scores. -/
theorem scores_together_invariant_witness :
    (MatchRequest.runAll sampleParseUUID sampleParseDate sampleStore sampleRequests).matchRows.map
        (fun m => (m.HomeScore, m.AwayScore)) = [(some 2, some 1), (none, none)] ∧
    ∀ m ∈ (MatchRequest.runAll sampleParseUUID sampleParseDate sampleStore
            sampleRequests).matchRows,
      (m.HomeScore = none ∧ m.AwayScore = none) ∨
      (∃ home away : Int, m.HomeScore = some home ∧ m.AwayScore = some away) :=
  ⟨by decide, scores_together_invariant sampleParseUUID sampleParseDate sampleStore
    sampleRequests rfl⟩

/-! ### Pagination -/

/-- C16: in the three list handlers the effective page is 1 when the
requested page is below 1 and the requested page otherwise; the effective
limit is 10 when the requested limit is below 1 or above 100 and the
requested limit otherwise; so the effective page is at least 1 and the
effective limit lies in [1,100]. Limits 0, 500 and 50 give 10, 10 and 50. -/
theorem pageLimit_clamped (page limit : Int) :
    MatchHandler.GetAll.pageLimit page limit =
      (if page < 1 then 1 else page, if limit < 1 ∨ limit > 100 then 10 else limit) ∧
    PlayerHandler.GetAll.pageLimit page limit = MatchHandler.GetAll.pageLimit page limit ∧
    TeamHandler.GetAll.pageLimit page limit = MatchHandler.GetAll.pageLimit page limit ∧
    1 ≤ (MatchHandler.GetAll.pageLimit page limit).1 ∧
    1 ≤ (MatchHandler.GetAll.pageLimit page limit).2 ∧
    (MatchHandler.GetAll.pageLimit page limit).2 ≤ 100 ∧
    (1 ≤ limit → limit ≤ 100 → (MatchHandler.GetAll.pageLimit page limit).2 = limit) ∧
    (1 ≤ page → (MatchHandler.GetAll.pageLimit page limit).1 = page) ∧
    (MatchHandler.GetAll.pageLimit page 0).2 = 10 ∧
    (MatchHandler.GetAll.pageLimit page 500).2 = 10 ∧
    (MatchHandler.GetAll.pageLimit page 50).2 = 50 := by
  refine ⟨rfl, rfl, rfl, ?_, ?_, ?_, ?_, ?_, ?_, ?_, ?_⟩
  · simp only [MatchHandler.GetAll.pageLimit]
    split <;> omega
  · simp only [MatchHandler.GetAll.pageLimit]
    split <;> omega
  · simp only [MatchHandler.GetAll.pageLimit]
    split <;> omega
  · intro h1 h2
    simp only [MatchHandler.GetAll.pageLimit]
    rw [if_neg (by omega)]
  · intro h1
    simp only [MatchHandler.GetAll.pageLimit]
    rw [if_neg (by omega)]
  · simp [MatchHandler.GetAll.pageLimit]
  · simp [MatchHandler.GetAll.pageLimit]
  · simp [MatchHandler.GetAll.pageLimit]

/-! ### Jersey numbers -/

/-- Counterexample to C17 as stated: in the sample store nobody of team 1 wears
number 10, so player 1 is not the only holder of it, and yet
`IsJerseyNumberTaken` for team 1, number 10 and excluded id 1 is false. -/
theorem IsJerseyNumberTaken_false_without_holder :
    sampleStore.playerRows.filter
      (fun p => !p.Deleted && p.TeamID == 1 && p.JerseyNumber == 10) = [] ∧
    playerRepositoryImpl.IsJerseyNumberTaken sampleStore 1 10 (some 1) = .ok false := by
  refine ⟨by decide, by decide⟩

/-- C17, amended: `IsJerseyNumberTaken` with an excluded id is true exactly
when some player other than the excluded one, not soft-deleted, is on the team
with the number; so it is false when the only such player is the excluded
one, and also when there is none. Without an excluded id it is true exactly
when some player, not soft-deleted, is on the team with the number. -/
theorem IsJerseyNumberTaken_iff (s : Store) (teamID : UUID) (jerseyNumber : Int)
    (excluded : UUID) :
    (∃ b, playerRepositoryImpl.IsJerseyNumberTaken s teamID jerseyNumber (some excluded)
        = .ok b ∧
      (b = true ↔ ∃ p ∈ s.playerRows, p.Deleted = false ∧ p.TeamID = teamID ∧
        p.JerseyNumber = jerseyNumber ∧ p.ID ≠ excluded)) ∧
    (∃ b, playerRepositoryImpl.IsJerseyNumberTaken s teamID jerseyNumber none = .ok b ∧
      (b = true ↔ ∃ p ∈ s.playerRows, p.Deleted = false ∧ p.TeamID = teamID ∧
        p.JerseyNumber = jerseyNumber)) := by
  constructor
  · refine ⟨_, rfl, ?_⟩
    simp only [decide_eq_true_eq, gt_iff_lt, List.length_pos_iff_exists_mem, List.mem_filter]
    constructor
    · rintro ⟨p, ⟨hp, h1⟩, h2⟩
      simp at h1 h2
      exact ⟨p, hp, h1.1.1, h1.1.2, h1.2, h2⟩
    · rintro ⟨p, hp, h1, h2, h3, h4⟩
      exact ⟨p, ⟨hp, by simp [h1, h2, h3]⟩, by simp [h4]⟩
  · refine ⟨_, rfl, ?_⟩
    simp only [decide_eq_true_eq, gt_iff_lt, List.length_pos_iff_exists_mem, List.mem_filter]
    constructor
    · rintro ⟨p, hp, h1⟩
      simp at h1
      exact ⟨p, hp, h1.1.1, h1.1.2, h1.2⟩
    · rintro ⟨p, hp, h1, h2, h3⟩
      exact ⟨p, hp, by simp [h1, h2, h3]⟩

/-- When `IsJerseyNumberTaken` without an excluded id is false, no player that
is not soft-deleted is on the team with the number. -/
theorem IsJerseyNumberTaken_none_false (s : Store) (teamID : UUID) (jerseyNumber : Int)
    (h : playerRepositoryImpl.IsJerseyNumberTaken s teamID jerseyNumber none = .ok false) :
    ∀ x ∈ s.playerRows, x.Deleted = false → x.TeamID = teamID →
      x.JerseyNumber ≠ jerseyNumber := by
  intro x hx hd ht hn
  simp only [playerRepositoryImpl.IsJerseyNumberTaken, Except.ok.injEq, decide_eq_false_iff_not,
    gt_iff_lt, List.length_pos_iff_exists_mem, not_exists] at h
  exact h x (by simp [List.mem_filter, hx, hd, ht, hn])

/-- When `IsJerseyNumberTaken` with an excluded id is false, every player that
is not soft-deleted and is on the team with the number has the excluded id. -/
theorem IsJerseyNumberTaken_some_false (s : Store) (teamID : UUID) (jerseyNumber : Int)
    (excluded : UUID)
    (h : playerRepositoryImpl.IsJerseyNumberTaken s teamID jerseyNumber (some excluded)
      = .ok false) :
    ∀ x ∈ s.playerRows, x.Deleted = false → x.TeamID = teamID →
      x.JerseyNumber = jerseyNumber → x.ID = excluded := by
  intro x hx hd ht hn
  simp only [playerRepositoryImpl.IsJerseyNumberTaken, Except.ok.injEq, decide_eq_false_iff_not,
    gt_iff_lt, List.length_pos_iff_exists_mem, not_exists] at h
  by_contra hne
  exact h x (by simp [List.mem_filter, hx, hd, ht, hn, hne])

/-- A `Create` of the player use case that succeeds found the jersey number
free and ends with the repository's create. -/
theorem playerUseCaseImpl.Create_ok_inv {σ : Type} (r : Repositories σ) (s s1 : σ)
    (player created : Player)
    (h : playerUseCaseImpl.Create r s player = (.ok created, s1)) :
    r.teamExists s player.TeamID = .ok true ∧ IsValidPosition player.Position = true ∧
    1 ≤ player.JerseyNumber ∧ player.JerseyNumber ≤ 99 ∧
    r.playerIsJerseyNumberTaken s player.TeamID player.JerseyNumber none = .ok false ∧
    r.playerCreate s player = .ok (created, s1) := by
  unfold playerUseCaseImpl.Create at h
  cases ht : r.teamExists s player.TeamID with
  | error e => simp [ht] at h
  | ok b =>
    cases b with
    | false => simp [ht] at h
    | true =>
      cases hv : IsValidPosition player.Position with
      | false => simp [ht, hv] at h
      | true =>
        by_cases hj : player.JerseyNumber < 1 ∨ player.JerseyNumber > 99
        · simp [ht, hv, hj] at h
        · cases hk : r.playerIsJerseyNumberTaken s player.TeamID player.JerseyNumber none with
          | error e => simp [ht, hv, hj, hk] at h
          | ok taken =>
            cases taken with
            | true => simp [ht, hv, hj, hk] at h
            | false =>
              cases hc : r.playerCreate s player with
              | error e => simp [ht, hv, hj, hk, hc] at h
              | ok res =>
                simp [ht, hv, hj, hk, hc] at h
                refine ⟨rfl, rfl, by omega, by omega, rfl, ?_⟩
                rw [← h.1, ← h.2]

/-- An `Update` of the player use case that succeeds found the jersey number
free of other players and ends with the repository's update. -/
theorem playerUseCaseImpl.Update_ok_inv {σ : Type} (r : Repositories σ) (s s1 : σ)
    (player : Player) (h : playerUseCaseImpl.Update r s player = (.ok (), s1)) :
    r.playerExists s player.ID = .ok true ∧
    r.teamExists s player.TeamID = .ok true ∧ IsValidPosition player.Position = true ∧
    1 ≤ player.JerseyNumber ∧ player.JerseyNumber ≤ 99 ∧
    r.playerIsJerseyNumberTaken s player.TeamID player.JerseyNumber (some player.ID)
      = .ok false ∧
    r.playerUpdate s player = .ok s1 := by
  unfold playerUseCaseImpl.Update at h
  cases hp : r.playerExists s player.ID with
  | error e => simp [hp] at h
  | ok b0 =>
    cases b0 with
    | false => simp [hp] at h
    | true =>
      cases ht : r.teamExists s player.TeamID with
      | error e => simp [hp, ht] at h
      | ok b =>
        cases b with
        | false => simp [hp, ht] at h
        | true =>
          cases hv : IsValidPosition player.Position with
          | false => simp [hp, ht, hv] at h
          | true =>
            by_cases hj : player.JerseyNumber < 1 ∨ player.JerseyNumber > 99
            · simp [hp, ht, hv, hj] at h
            · cases hk : r.playerIsJerseyNumberTaken s player.TeamID player.JerseyNumber
                  (some player.ID) with
              | error e => simp [hp, ht, hv, hj, hk] at h
              | ok taken =>
                cases taken with
                | true => simp [hp, ht, hv, hj, hk] at h
                | false =>
                  cases hc : r.playerUpdate s player with
                  | error e => simp [hp, ht, hv, hj, hk, hc] at h
                  | ok res =>
                    simp [hp, ht, hv, hj, hk, hc] at h
                    refine ⟨rfl, rfl, rfl, by omega, by omega, rfl, ?_⟩
                    rw [h]

/-- The player table after the store's create: one row appended under an
identity that was not in the table. -/
theorem playerRepositoryImpl.Create_appends (s s1 : Store) (pl created : Player)
    (h : playerRepositoryImpl.Create s pl = .ok (created, s1)) :
    ∃ id : UUID, id ∉ s.playerRows.map (fun x => x.ID) ∧
      s1.playerRows = s.playerRows ++ [{ pl with ID := id }] := by
  by_cases hmem : (if pl.ID = 0 then freshID (s.playerRows.map (fun x => x.ID)) else pl.ID)
      ∈ s.playerRows.map (fun x => x.ID)
  · simp only [playerRepositoryImpl.Create, if_pos hmem] at h
    cases h
  · simp only [playerRepositoryImpl.Create, if_neg hmem, Except.ok.injEq, Prod.mk.injEq] at h
    exact ⟨_, hmem, by rw [← h.2]⟩

/-- Appending a player whose team and number no live player has keeps the
jersey numbers unique and, under a new identity, the primary key. -/
theorem jerseyUnique_append (s s1 : Store) (pl : Player) (hu : s.jerseyUnique)
    (hk : s.playerKey) (hrows : s1.playerRows = s.playerRows ++ [pl])
    (hid : pl.ID ∉ s.playerRows.map (fun x => x.ID))
    (hfree : ∀ x ∈ s.playerRows, x.Deleted = false → x.TeamID = pl.TeamID →
      x.JerseyNumber ≠ pl.JerseyNumber) :
    s1.jerseyUnique ∧ s1.playerKey := by
  constructor
  · unfold Store.jerseyUnique at hu ⊢
    rw [hrows, List.filter_append, List.pairwise_append]
    refine ⟨hu, ?_, ?_⟩
    · by_cases hd : pl.Deleted = true
      · simp [List.filter, hd]
      · simp [List.filter, hd]
    · intro a ha b hb
      rw [List.mem_filter] at ha hb
      rw [List.mem_singleton] at hb
      obtain ⟨hb1, _⟩ := hb
      subst hb1
      intro hab
      exact hfree a ha.1 (by simpa using ha.2) hab.1 hab.2
  · unfold Store.playerKey at hk ⊢
    rw [hrows, List.map_append, List.nodup_append]
    refine ⟨hk, by simp, ?_⟩
    intro a ha hb
    simp only [List.map_cons, List.map_nil, List.mem_singleton] at hb
    subst hb
    exact hid ha

/-- A relation holds pairwise on the filtered list when it holds pairwise on
the list for the elements the filter keeps. -/
theorem pairwise_filter_bool {α : Type} (R : α → α → Prop) (f : α → Bool) (l : List α) :
    (l.filter f).Pairwise R ↔ l.Pairwise (fun x y => f x = true → f y = true → R x y) := by
  have h := List.pairwise_filter (R := R) (p := fun x => f x = true) (l := l)
  simpa using h

/-- Overwriting the row of a player by a player whose team and number no other
live player has keeps the jersey numbers unique and the primary key. -/
theorem jerseyUnique_overwrite (s s1 : Store) (pl : Player) (hu : s.jerseyUnique)
    (hk : s.playerKey)
    (hrows : s1.playerRows = s.playerRows.map (fun x => if x.ID = pl.ID then pl else x))
    (hfree : ∀ x ∈ s.playerRows, x.Deleted = false → x.TeamID = pl.TeamID →
      x.JerseyNumber = pl.JerseyNumber → x.ID = pl.ID) :
    s1.jerseyUnique ∧ s1.playerKey := by
  constructor
  · unfold Store.jerseyUnique at hu ⊢
    unfold Store.playerKey at hk
    rw [pairwise_filter_bool] at hu
    rw [List.Nodup, List.pairwise_map] at hk
    rw [hrows, pairwise_filter_bool, List.pairwise_map]
    refine List.Pairwise.imp_of_mem ?_ (hu.and hk)
    intro a b ha hb hab
    obtain ⟨hR, hne⟩ := hab
    by_cases ea : a.ID = pl.ID
    · by_cases eb : b.ID = pl.ID
      · exact absurd (ea.trans eb.symm) hne
      · rw [if_pos ea, if_neg eb]
        intro hl1 hl2 hc
        exact eb (hfree b hb (by simpa using hl2) hc.1.symm hc.2.symm)
    · by_cases eb : b.ID = pl.ID
      · rw [if_neg ea, if_pos eb]
        intro hl1 hl2 hc
        exact ea (hfree a ha (by simpa using hl1) hc.1 hc.2)
      · rw [if_neg ea, if_neg eb]
        exact hR
  · unfold Store.playerKey at hk ⊢
    rw [hrows, List.map_map]
    have : (fun x : Player => x.ID) ∘ (fun x => if x.ID = pl.ID then pl else x)
        = fun x => x.ID := by
      funext x
      by_cases e : x.ID = pl.ID <;> simp [e]
    rw [this]
    exact hk

/-- C18: in a store whose live players have unique jersey numbers within each
team (and whose player rows have distinct ids, the primary key), a `Create`
or an `Update` of the player use case that succeeds leaves the jersey numbers
unique within each team, and the ids distinct. The team of the updated player
may be another than the stored one. -/
theorem jerseyUnique_preserved (s : Store) (player : Player) (hu : s.jerseyUnique)
    (hk : s.playerKey) :
    (∀ (created : Player) (s1 : Store),
      playerUseCaseImpl.Create storeRepositories s player = (.ok created, s1) →
      s1.jerseyUnique ∧ s1.playerKey) ∧
    (∀ s1 : Store, playerUseCaseImpl.Update storeRepositories s player = (.ok (), s1) →
      s1.jerseyUnique ∧ s1.playerKey) := by
  constructor
  · intro created s1 h
    obtain ⟨_, _, _, _, hfree, hc⟩ :=
      playerUseCaseImpl.Create_ok_inv storeRepositories s s1 player created h
    obtain ⟨id, hid, hrows⟩ := playerRepositoryImpl.Create_appends s s1 player created hc
    exact jerseyUnique_append s s1 { player with ID := id } hu hk hrows hid
      (IsJerseyNumberTaken_none_false s player.TeamID player.JerseyNumber hfree)
  · intro s1 h
    obtain ⟨_, _, _, _, _, hfree, hc⟩ :=
      playerUseCaseImpl.Update_ok_inv storeRepositories s s1 player h
    have hrows : s1.playerRows =
        s.playerRows.map (fun x => if x.ID = player.ID then player else x) := by
      simp only [storeRepositories, playerRepositoryImpl.Update, Except.ok.injEq] at hc
      rw [← hc]
    exact jerseyUnique_overwrite s s1 player hu hk hrows
      (IsJerseyNumberTaken_some_false s player.TeamID player.JerseyNumber player.ID hfree)

/-- Witness of C18: in the sample player store a new player of team 1 with
the free number 11 is created, and player 3 is moved from team 2 to team 1
with number 11; both calls succeed and leave the jersey numbers unique. -/
theorem jerseyUnique_preserved_witness :
    samplePlayerStore.jerseyUnique ∧
    (playerUseCaseImpl.Create storeRepositories samplePlayerStore (samplePlayer 0 1 11)).1
      = .ok (samplePlayer 4 1 11) ∧
    (playerUseCaseImpl.Create storeRepositories samplePlayerStore
      (samplePlayer 0 1 11)).2.jerseyUnique ∧
    (playerUseCaseImpl.Update storeRepositories samplePlayerStore (samplePlayer 3 1 11)).1
      = .ok () ∧
    (playerUseCaseImpl.Update storeRepositories samplePlayerStore
      (samplePlayer 3 1 11)).2.jerseyUnique := by
  have hu : samplePlayerStore.jerseyUnique := by
    unfold Store.jerseyUnique
    decide
  have hk : samplePlayerStore.playerKey := by
    unfold Store.playerKey
    decide
  exact ⟨hu, by decide,
    ((jerseyUnique_preserved samplePlayerStore (samplePlayer 0 1 11) hu hk).1
      (samplePlayer 4 1 11) _ (by decide)).1,
    by decide,
    ((jerseyUnique_preserved samplePlayerStore (samplePlayer 3 1 11) hu hk).2 _ (by decide)).1⟩

/-! ### Top scorers -/

/-- Keeping the elements that pass a test and mapping them is a filter
followed by a map. -/
theorem filterMap_ite_eq {α β : Type} (P : α → Prop) [DecidablePred P] (g : α → β)
    (l : List α) :
    l.filterMap (fun a => if P a then some (g a) else none)
      = (l.filter (fun a => decide (P a))).map g := by
  induction l with
  | nil => rfl
  | cons a rest ih =>
    by_cases h : P a
    · simp [List.filterMap_cons, List.filter_cons, h, ih]
    · simp [List.filterMap_cons, List.filter_cons, h, ih]

/-- The groups of the query, written as a filter followed by a map: the live
players with at least one live goal, each with its count. -/
theorem topScorerGroups_eq (s : Store) :
    topScorerGroups s =
      (s.playerRows.filter (fun p => !p.Deleted && decide (goalCount s p.ID > 0))).map
        (fun p => { Player := p, GoalCount := goalCount s p.ID }) := by
  unfold topScorerGroups
  have h := filterMap_ite_eq (fun p : Player => goalCount s p.ID > 0)
    (fun p : Player => ({ Player := p, GoalCount := goalCount s p.ID } : PlayerGoalCount))
    (s.playerRows.filter (fun p => !p.Deleted))
  refine h.trans ?_
  rw [List.filter_filter]
  congr 1
  apply List.filter_congr
  intro p _
  exact Bool.and_comm _ _

/-- Membership in the groups of the query. -/
theorem mem_topScorerGroups (s : Store) (e : PlayerGoalCount) :
    e ∈ topScorerGroups s ↔
      e.Player ∈ s.playerRows ∧ e.Player.Deleted = false ∧ 0 < goalCount s e.Player.ID ∧
      e.GoalCount = goalCount s e.Player.ID := by
  rw [topScorerGroups_eq, List.mem_map]
  constructor
  · rintro ⟨p, hp, rfl⟩
    rw [List.mem_filter] at hp
    simp only [Bool.and_eq_true, Bool.not_eq_true', decide_eq_true_eq] at hp
    exact ⟨hp.1, hp.2.1, hp.2.2, rfl⟩
  · rintro ⟨h1, h2, h3, h4⟩
    refine ⟨e.Player, ?_, ?_⟩
    · rw [List.mem_filter]
      simp only [Bool.and_eq_true, Bool.not_eq_true', decide_eq_true_eq]
      exact ⟨h1, h2, h3⟩
    · cases e
      simp only at h4 ⊢
      rw [h4]

/-- Under the primary key the groups of the query name each player once. -/
theorem topScorerGroups_nodup (s : Store) (hk : s.playerKey) :
    ((topScorerGroups s).map (fun e => e.Player.ID)).Nodup := by
  rw [topScorerGroups_eq, List.map_map]
  have hsub : ((s.playerRows.filter
      (fun p => !p.Deleted && decide (goalCount s p.ID > 0))).map (fun p => p.ID)).Sublist
      (s.playerRows.map (fun p => p.ID)) :=
    (List.filter_sublist _).map _
  exact List.Nodup.sublist hsub hk

/-- In a list sorted by a relation, each of the first `n` elements is related
to each of the others. -/
theorem sorted_take_drop {α : Type} (r : α → α → Prop) (l : List α) (n : Nat)
    (h : l.Pairwise r) : ∀ a ∈ l.take n, ∀ b ∈ l.drop n, r a b := by
  have h2 : (l.take n ++ l.drop n).Pairwise r := by rw [List.take_append_drop]; exact h
  rw [List.pairwise_append] at h2
  exact h2.2.2

/-- The counts the query returns, within the claim of the listing: for a
limit from 0 on there are `min(limit, number of groups)` of them, they do not
increase, each is the number of goals that are not soft-deleted of a player
that is not soft-deleted and has such goals, and a player with goals has no
larger count than any count returned unless its own count is among them. -/
theorem topScorerCounts_spec (s : Store) (limit : Int) (hl : 0 ≤ limit) :
    (topScorerCounts s limit).length = min limit.toNat (topScorerGroups s).length ∧
    (topScorerCounts s limit).Pairwise (fun a b => a ≥ b) ∧
    (∀ c ∈ topScorerCounts s limit, ∃ p ∈ s.playerRows, p.Deleted = false ∧ 0 < c ∧
      c = (s.goalRows.filter (fun g => !g.Deleted && g.PlayerID == p.ID)).length) ∧
    (∀ p ∈ s.playerRows, p.Deleted = false → 0 < goalCount s p.ID →
      goalCount s p.ID ∈ topScorerCounts s limit ∨
      ∀ c ∈ topScorerCounts s limit, goalCount s p.ID ≤ c) := by
  have hlim : ¬ limit < 0 := by omega
  have hperm := List.perm_insertionSort (fun a b : Nat => a ≥ b)
    ((topScorerGroups s).map (fun e => e.GoalCount))
  have hsorted : (((topScorerGroups s).map (fun e => e.GoalCount)).insertionSort
      (fun a b : Nat => a ≥ b)).Pairwise (fun a b : Nat => a ≥ b) :=
    List.sorted_insertionSort (fun a b : Nat => a ≥ b) _
  simp only [topScorerCounts, if_neg hlim]
  refine ⟨?_, ?_, ?_, ?_⟩
  · rw [List.length_take, hperm.length_eq, List.length_map]
  · exact List.Pairwise.sublist (List.take_sublist _ _) hsorted
  · intro c hc
    have hc2 : c ∈ (topScorerGroups s).map (fun e => e.GoalCount) :=
      hperm.mem_iff.mp (List.mem_of_mem_take hc)
    obtain ⟨e, he, rfl⟩ := List.mem_map.mp hc2
    obtain ⟨h1, h2, h3, h4⟩ := (mem_topScorerGroups s e).mp he
    exact ⟨e.Player, h1, h2, by rw [h4]; exact h3, h4⟩
  · intro p hp hd hc
    have hin : goalCount s p.ID ∈ ((topScorerGroups s).map (fun e => e.GoalCount)).insertionSort
        (fun a b : Nat => a ≥ b) :=
      hperm.mem_iff.mpr (List.mem_map.mpr
        ⟨{ Player := p, GoalCount := goalCount s p.ID },
          (mem_topScorerGroups s _).mpr ⟨hp, hd, hc, rfl⟩, rfl⟩)
    rw [← List.take_append_drop limit.toNat
      (((topScorerGroups s).map (fun e => e.GoalCount)).insertionSort
        (fun a b : Nat => a ≥ b))] at hin
    rcases List.mem_append.mp hin with h1 | h1
    · exact Or.inl h1
    · exact Or.inr (fun c hc2 =>
        sorted_take_drop (fun a b : Nat => a ≥ b) _ limit.toNat hsorted c hc2 _ h1)

/-- The result of a match with both scores present, as a comparison. -/
theorem GetResult_some (m : Match) (home away : Int) :
    ({ m with HomeScore := some home, AwayScore := some away } : Match).GetResult =
      (if home > away then ResultHomeWin else if away > home then ResultAwayWin
       else ResultDraw) := rfl

/-- C30: for every pair of present scores, negative ones included, `GetResult`
is `home_win` exactly when it is `away_win` with the two scores swapped,
`away_win` exactly when it is `home_win` with the scores swapped, and `draw`
exactly when it is `draw` with the scores swapped; it is one of the three
results, and the three results are different values. -/
theorem GetResult_swap (m : Match) (home away : Int) :
    (({ m with HomeScore := some home, AwayScore := some away } : Match).GetResult
        = ResultHomeWin ↔
      ({ m with HomeScore := some away, AwayScore := some home } : Match).GetResult
        = ResultAwayWin) ∧
    (({ m with HomeScore := some home, AwayScore := some away } : Match).GetResult
        = ResultAwayWin ↔
      ({ m with HomeScore := some away, AwayScore := some home } : Match).GetResult
        = ResultHomeWin) ∧
    (({ m with HomeScore := some home, AwayScore := some away } : Match).GetResult
        = ResultDraw ↔
      ({ m with HomeScore := some away, AwayScore := some home } : Match).GetResult
        = ResultDraw) ∧
    (({ m with HomeScore := some home, AwayScore := some away } : Match).GetResult
        = ResultHomeWin ∨
      ({ m with HomeScore := some home, AwayScore := some away } : Match).GetResult
        = ResultAwayWin ∨
      ({ m with HomeScore := some home, AwayScore := some away } : Match).GetResult
        = ResultDraw) ∧
    ResultHomeWin ≠ ResultAwayWin ∧ ResultHomeWin ≠ ResultDraw ∧ ResultAwayWin ≠ ResultDraw := by
  have h1 : ResultHomeWin ≠ ResultAwayWin := by decide
  have h2 : ResultHomeWin ≠ ResultDraw := by decide
  have h3 : ResultAwayWin ≠ ResultDraw := by decide
  rw [GetResult_some, GetResult_some]
  rcases lt_trichotomy home away with hlt | heq | hgt
  · have n1 : ¬ home > away := by omega
    simp [n1, hlt, h1, h2, h3, h1.symm, h2.symm, h3.symm]
  · subst heq
    simp [h1, h2, h3, h1.symm, h2.symm, h3.symm]
  · have n1 : ¬ away > home := by omega
    simp [n1, hgt, h1, h2, h3, h1.symm, h2.symm, h3.symm]

/-! ### The frame of UpdateMatchEntity -/

/-- C29: for a request whose date and team ids, where supplied, are well
formed, `UpdateMatchEntity` succeeds and returns the match with each of
`MatchDate`, `MatchTime`, `HomeTeamID`, `AwayTeamID` and `Status` replaced by
the supplied value when the request field is not empty and kept when it is
empty; the identity, the soft-delete mark, the two scores and the goals are
those of the match handed in. A request with every field empty returns the
match as it was. -/
theorem UpdateMatchEntity_frame (parseUUID : String → Except Err UUID)
    (parseDate : String → Except Err Nat) (req : UpdateMatchRequest) (m : Match)
    (date : Nat) (home away : UUID)
    (hd : req.MatchDate ≠ "" → parseDate req.MatchDate = .ok date)
    (hh : req.HomeTeamID ≠ "" → parseUUID req.HomeTeamID = .ok home)
    (ha : req.AwayTeamID ≠ "" → parseUUID req.AwayTeamID = .ok away) :
    req.UpdateMatchEntity parseUUID parseDate m =
      .ok { ID := m.ID, Deleted := m.Deleted,
            MatchDate := if req.MatchDate ≠ "" then date else m.MatchDate,
            MatchTime := if req.MatchTime ≠ "" then req.MatchTime else m.MatchTime,
            HomeTeamID := if req.HomeTeamID ≠ "" then home else m.HomeTeamID,
            AwayTeamID := if req.AwayTeamID ≠ "" then away else m.AwayTeamID,
            HomeScore := m.HomeScore, AwayScore := m.AwayScore,
            Status := if req.Status ≠ "" then req.Status else m.Status,
            Goals := m.Goals } ∧
    (req.MatchDate = "" → req.MatchTime = "" → req.HomeTeamID = "" → req.AwayTeamID = "" →
      req.Status = "" → req.UpdateMatchEntity parseUUID parseDate m = .ok m) := by
  constructor
  · by_cases e1 : req.MatchDate = "" <;> by_cases e2 : req.MatchTime = "" <;>
    by_cases e3 : req.HomeTeamID = "" <;> by_cases e4 : req.AwayTeamID = "" <;>
    by_cases e5 : req.Status = "" <;>
    simp [UpdateMatchRequest.UpdateMatchEntity, e1, e2, e3, e4, e5, hd, hh, ha]
  · intro e1 e2 e3 e4 e5
    simp [UpdateMatchRequest.UpdateMatchEntity, e1, e2, e3, e4, e5]

/-- Witness of C29: a request that supplies only the away team and the status
changes those two fields of match 1 and nothing else. -/
theorem UpdateMatchEntity_frame_witness :
    UpdateMatchRequest.UpdateMatchEntity sampleParseUUID sampleParseDate
        { MatchDate := "", MatchTime := "", HomeTeamID := "", AwayTeamID := "3",
          Status := "ongoing" }
        { sampleMatch 1 2 with ID := 1, HomeScore := some 2, AwayScore := some 1 }
      = .ok { sampleMatch 1 3 with ID := 1, HomeScore := some 2, AwayScore := some 1,
                                   Status := "ongoing" } := by
  have h := (UpdateMatchEntity_frame sampleParseUUID sampleParseDate
    { MatchDate := "", MatchTime := "", HomeTeamID := "", AwayTeamID := "3",
      Status := "ongoing" }
    { sampleMatch 1 2 with ID := 1, HomeScore := some 2, AwayScore := some 1 } 0 0 3
    (by decide) (by decide) (by decide)).1
  rw [h]
  decide

/-! ### RecordResult on a correction that fails -/

/-- C28: for a completed match that has live goals and an input in which some
goal's player does not exist, `RecordResult` fails with `ErrPlayerNotFound`
and leaves a store in which the match has no live goal any more and carries
the new scores with status completed; that store is not the store before the
call. -/
theorem RecordResult_correction_not_atomic (s : Store) (matchID : UUID)
    (input : MatchResultInput) (m : Match)
    (hm : matchRepositoryImpl.FindByID s matchID = .ok m)
    (hc : m.Status = MatchStatusCompleted)
    (hg : goalRepositoryImpl.FindByMatchID s matchID ≠ [])
    (hp : ∃ g ∈ input.Goals, playerRepositoryImpl.Exists s g.PlayerID = .ok false) :
    ∃ s2 : Store,
      matchUseCaseImpl.RecordResult storeRepositories s matchID input =
        (.error .ErrPlayerNotFound, s2) ∧
      goalRepositoryImpl.FindByMatchID s2 matchID = [] ∧
      matchRepositoryImpl.FindByID s2 matchID =
        .ok { m with HomeScore := some input.HomeScore, AwayScore := some input.AwayScore,
                     Status := MatchStatusCompleted, Goals := [] } ∧
      s2 ≠ s := by
  obtain ⟨s2, hr, hf, _, hlive⟩ := RecordResult_missing s matchID input m hm hp
  rw [if_pos hc] at hlive
  refine ⟨s2, hr, hlive, hf, ?_⟩
  intro heq
  rw [heq] at hlive
  exact hg hlive

/-- Witness of C28: match 1 is completed 1-0 with one goal; a correction to 3-3
that names the missing player 9 fails, and match 1 is then completed 3-3
without goals. -/
theorem RecordResult_correction_not_atomic_witness :
    ∃ s2 : Store,
      matchUseCaseImpl.RecordResult storeRepositories sampleStoreRecorded 1 sampleInputMissing
        = (.error .ErrPlayerNotFound, s2) ∧
      goalRepositoryImpl.FindByMatchID s2 1 = [] ∧
      matchRepositoryImpl.FindByID s2 1 =
        .ok { sampleMatch 1 2 with ID := 1, HomeScore := some 3, AwayScore := some 3,
                                   Status := MatchStatusCompleted } ∧
      (goalRepositoryImpl.FindByMatchID sampleStoreRecorded 1).length = 1 := by
  obtain ⟨s2, h1, h2, h3, _⟩ :=
    RecordResult_correction_not_atomic sampleStoreRecorded 1 sampleInputMissing
      { sampleMatch 1 2 with ID := 1, HomeScore := some 1, AwayScore := some 0,
                             Status := MatchStatusCompleted }
      (by decide) rfl (by decide) (by decide)
  exact ⟨s2, h1, h2, h3, by decide⟩

/-! ### Positions and jersey numbers in the player use case -/

/-- What the position check accepts: the four positions and nothing else. -/
theorem IsValidPosition_iff (position : PlayerPosition) :
    IsValidPosition position = true ↔
      position = "forward" ∨ position = "midfielder" ∨ position = "defender" ∨
      position = "goalkeeper" := by
  simp only [IsValidPosition, ValidPositions, PositionForward, PositionMidfielder,
    PositionDefender, PositionGoalkeeper, List.any_cons, List.any_nil, Bool.or_false,
    Bool.or_eq_true, beq_iff_eq]
  constructor
  · rintro (h | h | h | h)
    · exact Or.inl h.symm
    · exact Or.inr (Or.inl h.symm)
    · exact Or.inr (Or.inr (Or.inl h.symm))
    · exact Or.inr (Or.inr (Or.inr h.symm))
  · rintro (h | h | h | h)
    · exact Or.inl h.symm
    · exact Or.inr (Or.inl h.symm)
    · exact Or.inr (Or.inr (Or.inl h.symm))
    · exact Or.inr (Or.inr (Or.inr h.symm))

/-- Counterexample to C25 as stated: team 1 exists and "striker" is not a valid
position, yet `Update` of a player whose id 99 is not in the store fails with
`ErrPlayerNotFound`, not with `ErrInvalidPosition`. -/
theorem Update_unknown_player_invalid_position :
    teamRepositoryImpl.Exists samplePlayerStore 1 = .ok true ∧
    IsValidPosition "striker" = false ∧
    playerUseCaseImpl.Update storeRepositories samplePlayerStore
        { samplePlayer 99 1 7 with Position := "striker" }
      = (.error .ErrPlayerNotFound, samplePlayerStore) := by
  refine ⟨by decide, by decide, by decide⟩

/-- C25, amended: `IsValidPosition` is true exactly for "forward",
"midfielder", "defender" and "goalkeeper"; for a player whose position is not
one of the four, `Create` on an existing team fails with `ErrInvalidPosition`,
and so does `Update` of an existing player on an existing team; `Update` of a
player that does not exist fails with `ErrPlayerNotFound` whatever the
position and the team. Nothing is written in any of these cases. -/
theorem invalid_position_refused {σ : Type} (r : Repositories σ) (s : σ) (player : Player) :
    (IsValidPosition player.Position = true ↔
      player.Position = "forward" ∨ player.Position = "midfielder" ∨
      player.Position = "defender" ∨ player.Position = "goalkeeper") ∧
    (r.teamExists s player.TeamID = .ok true → IsValidPosition player.Position = false →
      playerUseCaseImpl.Create r s player = (.error .ErrInvalidPosition, s)) ∧
    (r.playerExists s player.ID = .ok true → r.teamExists s player.TeamID = .ok true →
      IsValidPosition player.Position = false →
      playerUseCaseImpl.Update r s player = (.error .ErrInvalidPosition, s)) ∧
    (r.playerExists s player.ID = .ok false →
      playerUseCaseImpl.Update r s player = (.error .ErrPlayerNotFound, s)) := by
  refine ⟨IsValidPosition_iff player.Position, ?_, ?_, ?_⟩
  · intro ht hv
    simp [playerUseCaseImpl.Create, ht, hv]
  · intro hp ht hv
    simp [playerUseCaseImpl.Update, hp, ht, hv]
  · intro hp
    simp [playerUseCaseImpl.Update, hp]

/-- Witness of C25, amended: in the sample player store, where team 1 and
player 1 exist, a new player and player 1 with position "striker" are both
refused with `ErrInvalidPosition`; player 42, who does not exist, is refused
with `ErrPlayerNotFound` with the valid position "forward" as with
"striker". -/
theorem invalid_position_refused_witness :
    playerUseCaseImpl.Create storeRepositories samplePlayerStore
        { samplePlayer 0 1 7 with Position := "striker" }
      = (.error .ErrInvalidPosition, samplePlayerStore) ∧
    playerUseCaseImpl.Update storeRepositories samplePlayerStore
        { samplePlayer 1 1 9 with Position := "striker" }
      = (.error .ErrInvalidPosition, samplePlayerStore) ∧
    playerUseCaseImpl.Update storeRepositories samplePlayerStore
        { samplePlayer 42 1 7 with Position := "forward" }
      = (.error .ErrPlayerNotFound, samplePlayerStore) ∧
    playerUseCaseImpl.Update storeRepositories samplePlayerStore
        { samplePlayer 42 1 7 with Position := "striker" }
      = (.error .ErrPlayerNotFound, samplePlayerStore) :=
  ⟨(invalid_position_refused storeRepositories samplePlayerStore
      { samplePlayer 0 1 7 with Position := "striker" }).2.1 (by decide) (by decide),
   (invalid_position_refused storeRepositories samplePlayerStore
      { samplePlayer 1 1 9 with Position := "striker" }).2.2.1 (by decide) (by decide)
      (by decide),
   (invalid_position_refused storeRepositories samplePlayerStore
      { samplePlayer 42 1 7 with Position := "forward" }).2.2.2 (by decide),
   (invalid_position_refused storeRepositories samplePlayerStore
      { samplePlayer 42 1 7 with Position := "striker" }).2.2.2 (by decide)⟩

/-- `Create` of the player use case once the team exists and the position is
valid: the range check of the jersey number, then the uniqueness check, then
the store write. -/
theorem playerUseCaseImpl.Create_checked {σ : Type} (r : Repositories σ) (s : σ)
    (player : Player) (ht : r.teamExists s player.TeamID = .ok true)
    (hv : IsValidPosition player.Position = true) :
    playerUseCaseImpl.Create r s player =
      (if player.JerseyNumber < 1 ∨ player.JerseyNumber > 99 then
         (.error .ErrInvalidJerseyNumber, s)
       else
         match r.playerIsJerseyNumberTaken s player.TeamID player.JerseyNumber none with
         | .error err => (.error err, s)
         | .ok taken =>
           if taken then (.error .ErrJerseyNumberTaken, s)
           else
             match r.playerCreate s player with
             | .error err => (.error err, s)
             | .ok (player1, s1) => (.ok player1, s1)) := by
  simp [playerUseCaseImpl.Create, ht, hv]

/-- `Update` of the player use case once the player and the team exist and the
position is valid: the range check of the jersey number, then the uniqueness
check that leaves the player out, then the store write. -/
theorem playerUseCaseImpl.Update_checked {σ : Type} (r : Repositories σ) (s : σ)
    (player : Player) (hp : r.playerExists s player.ID = .ok true)
    (ht : r.teamExists s player.TeamID = .ok true)
    (hv : IsValidPosition player.Position = true) :
    playerUseCaseImpl.Update r s player =
      (if player.JerseyNumber < 1 ∨ player.JerseyNumber > 99 then
         (.error .ErrInvalidJerseyNumber, s)
       else
         match r.playerIsJerseyNumberTaken s player.TeamID player.JerseyNumber
                 (some player.ID) with
         | .error err => (.error err, s)
         | .ok taken =>
           if taken then (.error .ErrJerseyNumberTaken, s)
           else
             match r.playerUpdate s player with
             | .error err => (.error err, s)
             | .ok s1 => (.ok (), s1)) := by
  simp [playerUseCaseImpl.Update, hp, ht, hv]

/-- The store's uniqueness check always answers. -/
theorem IsJerseyNumberTaken_answers (st : Store) (teamID : UUID) (jerseyNumber : Int)
    (excluded : Option UUID) :
    ∃ b, playerRepositoryImpl.IsJerseyNumberTaken st teamID jerseyNumber excluded = .ok b :=
  ⟨_, rfl⟩

/-- The store's create of a player fails with a store failure only. -/
theorem playerRepositoryImpl.Create_error (st : Store) (pl : Player) (e : Err)
    (h : playerRepositoryImpl.Create st pl = .error e) : e = .StoreFailure 0 := by
  by_cases hmem : (if pl.ID = 0 then freshID (st.playerRows.map (fun x => x.ID)) else pl.ID)
      ∈ st.playerRows.map (fun x => x.ID)
  · simp only [playerRepositoryImpl.Create, if_pos hmem, Except.error.injEq] at h
    exact h.symm
  · simp only [playerRepositoryImpl.Create, if_neg hmem] at h
    cases h

/-- C26: for a player whose team exists and whose position is valid (and, for
`Update`, who exists), over any repositories: with a jersey number below 1 or
above 99 `Create` and `Update` fail with `ErrInvalidJerseyNumber`, whatever
the uniqueness check would answer; with a number in [1,99] they fail with
`ErrJerseyNumberTaken` when the check reports true and end with the store
write when it reports false. In the record store, where the check always
answers, this is exact: the failure is `ErrInvalidJerseyNumber` exactly for a
number out of range and `ErrJerseyNumberTaken` exactly for a number in range
that the check reports taken. -/
theorem jersey_number_checks {σ : Type} (r : Repositories σ) (s : σ) (st : Store)
    (player : Player) (hv : IsValidPosition player.Position = true) :
    (r.teamExists s player.TeamID = .ok true →
      ((player.JerseyNumber < 1 ∨ player.JerseyNumber > 99) →
        playerUseCaseImpl.Create r s player = (.error .ErrInvalidJerseyNumber, s)) ∧
      (1 ≤ player.JerseyNumber → player.JerseyNumber ≤ 99 →
        r.playerIsJerseyNumberTaken s player.TeamID player.JerseyNumber none = .ok true →
        playerUseCaseImpl.Create r s player = (.error .ErrJerseyNumberTaken, s)) ∧
      (1 ≤ player.JerseyNumber → player.JerseyNumber ≤ 99 →
        r.playerIsJerseyNumberTaken s player.TeamID player.JerseyNumber none = .ok false →
        playerUseCaseImpl.Create r s player =
          (match r.playerCreate s player with
           | .error err => (.error err, s)
           | .ok (player1, s1) => (.ok player1, s1)))) ∧
    (r.playerExists s player.ID = .ok true → r.teamExists s player.TeamID = .ok true →
      ((player.JerseyNumber < 1 ∨ player.JerseyNumber > 99) →
        playerUseCaseImpl.Update r s player = (.error .ErrInvalidJerseyNumber, s)) ∧
      (1 ≤ player.JerseyNumber → player.JerseyNumber ≤ 99 →
        r.playerIsJerseyNumberTaken s player.TeamID player.JerseyNumber (some player.ID)
          = .ok true →
        playerUseCaseImpl.Update r s player = (.error .ErrJerseyNumberTaken, s)) ∧
      (1 ≤ player.JerseyNumber → player.JerseyNumber ≤ 99 →
        r.playerIsJerseyNumberTaken s player.TeamID player.JerseyNumber (some player.ID)
          = .ok false →
        playerUseCaseImpl.Update r s player =
          (match r.playerUpdate s player with
           | .error err => (.error err, s)
           | .ok s1 => (.ok (), s1)))) ∧
    (teamRepositoryImpl.Exists st player.TeamID = .ok true →
      ((playerUseCaseImpl.Create storeRepositories st player).1
          = .error .ErrInvalidJerseyNumber ↔
        (player.JerseyNumber < 1 ∨ player.JerseyNumber > 99)) ∧
      ((playerUseCaseImpl.Create storeRepositories st player).1
          = .error .ErrJerseyNumberTaken ↔
        (1 ≤ player.JerseyNumber ∧ player.JerseyNumber ≤ 99 ∧
          playerRepositoryImpl.IsJerseyNumberTaken st player.TeamID player.JerseyNumber none
            = .ok true))) ∧
    (playerRepositoryImpl.Exists st player.ID = .ok true →
      teamRepositoryImpl.Exists st player.TeamID = .ok true →
      ((playerUseCaseImpl.Update storeRepositories st player).1
          = .error .ErrInvalidJerseyNumber ↔
        (player.JerseyNumber < 1 ∨ player.JerseyNumber > 99)) ∧
      ((playerUseCaseImpl.Update storeRepositories st player).1
          = .error .ErrJerseyNumberTaken ↔
        (1 ≤ player.JerseyNumber ∧ player.JerseyNumber ≤ 99 ∧
          playerRepositoryImpl.IsJerseyNumberTaken st player.TeamID player.JerseyNumber
            (some player.ID) = .ok true))) := by
  refine ⟨?_, ?_, ?_, ?_⟩
  · intro ht
    rw [playerUseCaseImpl.Create_checked r s player ht hv]
    refine ⟨?_, ?_, ?_⟩
    · intro hj
      rw [if_pos hj]
    · intro h1 h2 hk
      rw [if_neg (by omega), hk]
      rfl
    · intro h1 h2 hk
      rw [if_neg (by omega), hk]
      rfl
  · intro hp ht
    rw [playerUseCaseImpl.Update_checked r s player hp ht hv]
    refine ⟨?_, ?_, ?_⟩
    · intro hj
      rw [if_pos hj]
    · intro h1 h2 hk
      rw [if_neg (by omega), hk]
      rfl
    · intro h1 h2 hk
      rw [if_neg (by omega), hk]
      rfl
  · intro ht
    rw [playerUseCaseImpl.Create_checked storeRepositories st player ht hv]
    by_cases hj : player.JerseyNumber < 1 ∨ player.JerseyNumber > 99
    · rw [if_pos hj]
      refine ⟨⟨fun _ => hj, fun _ => rfl⟩, ⟨fun h => (by cases h), fun h => (by omega)⟩⟩
    · rw [if_neg hj]
      obtain ⟨b, hb⟩ := IsJerseyNumberTaken_answers st player.TeamID player.JerseyNumber none
      have hb2 : storeRepositories.playerIsJerseyNumberTaken st player.TeamID
          player.JerseyNumber none = .ok b := hb
      rw [hb2, hb]
      cases b with
      | true =>
        refine ⟨⟨fun h => (by cases h), fun h => absurd h hj⟩,
          ⟨fun _ => ⟨(by omega), (by omega), rfl⟩, fun _ => rfl⟩⟩
      | false =>
        cases hc : storeRepositories.playerCreate st player with
        | error e =>
          have he : e = .StoreFailure 0 := playerRepositoryImpl.Create_error st player e hc
          subst he
          refine ⟨⟨fun h => (by cases h), fun h => absurd h hj⟩,
            ⟨fun h => (by cases h), fun h => (by cases h.2.2)⟩⟩
        | ok res =>
          refine ⟨⟨fun h => (by cases h), fun h => absurd h hj⟩,
            ⟨fun h => (by cases h), fun h => (by cases h.2.2)⟩⟩
  · intro hp ht
    rw [playerUseCaseImpl.Update_checked storeRepositories st player hp ht hv]
    by_cases hj : player.JerseyNumber < 1 ∨ player.JerseyNumber > 99
    · rw [if_pos hj]
      refine ⟨⟨fun _ => hj, fun _ => rfl⟩, ⟨fun h => (by cases h), fun h => (by omega)⟩⟩
    · rw [if_neg hj]
      obtain ⟨b, hb⟩ := IsJerseyNumberTaken_answers st player.TeamID player.JerseyNumber
        (some player.ID)
      have hb2 : storeRepositories.playerIsJerseyNumberTaken st player.TeamID
          player.JerseyNumber (some player.ID) = .ok b := hb
      rw [hb2, hb]
      cases b with
      | true =>
        refine ⟨⟨fun h => (by cases h), fun h => absurd h hj⟩,
          ⟨fun _ => ⟨(by omega), (by omega), rfl⟩, fun _ => rfl⟩⟩
      | false =>
        refine ⟨⟨fun h => (by cases h), fun h => absurd h hj⟩,
          ⟨fun h => (by cases h), fun h => (by cases h.2.2)⟩⟩

/-- Witness of C26: in the sample player store, number 100 for a new player
of team 1 is refused as invalid although it is free, number 9 is refused as
taken, and number 0 is refused as invalid for the existing player 1. -/
theorem jersey_number_checks_witness :
    playerUseCaseImpl.Create storeRepositories samplePlayerStore (samplePlayer 0 1 100)
      = (.error .ErrInvalidJerseyNumber, samplePlayerStore) ∧
    playerUseCaseImpl.Create storeRepositories samplePlayerStore (samplePlayer 0 1 9)
      = (.error .ErrJerseyNumberTaken, samplePlayerStore) ∧
    playerUseCaseImpl.Update storeRepositories samplePlayerStore (samplePlayer 1 1 0)
      = (.error .ErrInvalidJerseyNumber, samplePlayerStore) :=
  ⟨((jersey_number_checks storeRepositories samplePlayerStore samplePlayerStore
      (samplePlayer 0 1 100) (by decide)).1 (by decide)).1 (by decide),
   ((jersey_number_checks storeRepositories samplePlayerStore samplePlayerStore
      (samplePlayer 0 1 9) (by decide)).1 (by decide)).2.1 (by decide) (by decide) (by decide),
   ((jersey_number_checks storeRepositories samplePlayerStore samplePlayerStore
      (samplePlayer 1 1 0) (by decide)).2.1 (by decide) (by decide)).1 (by decide)⟩

/-- A live row of the player table is a player that `Exists` reports. -/
theorem playerRepositoryImpl.Exists_of_mem (s : Store) (p0 : Player)
    (hmem : p0 ∈ s.playerRows) (hlive : p0.Deleted = false) :
    playerRepositoryImpl.Exists s p0.ID = .ok true := by
  have hin : p0 ∈ s.playerRows.filter (fun p => p.ID == p0.ID && !p.Deleted) := by
    simp [List.mem_filter, hmem, hlive]
  have hpos : (s.playerRows.filter (fun p => p.ID == p0.ID && !p.Deleted)).length > 0 :=
    List.length_pos_of_mem hin
  simp [playerRepositoryImpl.Exists, hpos]

/-- C27: for a stored player that is not soft-deleted, with a valid position,
an existing team and a jersey number in [1,99] that no other live player of
the team has, `Update` with the same id, team and number does not fail with
`ErrJerseyNumberTaken`: it succeeds. `Create` of a player with that team and
number, a valid position and any identity fails with `ErrJerseyNumberTaken`
and writes nothing. -/
theorem Update_excludes_self (s : Store) (p0 player created : Player)
    (hmem : p0 ∈ s.playerRows) (hlive : p0.Deleted = false)
    (hid : player.ID = p0.ID) (hteam : player.TeamID = p0.TeamID)
    (hnum : player.JerseyNumber = p0.JerseyNumber)
    (hv : IsValidPosition player.Position = true)
    (ht : teamRepositoryImpl.Exists s p0.TeamID = .ok true)
    (h1 : 1 ≤ p0.JerseyNumber) (h2 : p0.JerseyNumber ≤ 99)
    (hother : ∀ x ∈ s.playerRows, x.Deleted = false → x.TeamID = p0.TeamID →
      x.JerseyNumber = p0.JerseyNumber → x.ID = p0.ID)
    (hcteam : created.TeamID = p0.TeamID) (hcnum : created.JerseyNumber = p0.JerseyNumber)
    (hcv : IsValidPosition created.Position = true) :
    (∃ s1 : Store, playerUseCaseImpl.Update storeRepositories s player = (.ok (), s1)) ∧
    playerUseCaseImpl.Create storeRepositories s created = (.error .ErrJerseyNumberTaken, s) := by
  constructor
  · have hp : storeRepositories.playerExists s player.ID = .ok true := by
      rw [hid]; exact playerRepositoryImpl.Exists_of_mem s p0 hmem hlive
    have ht2 : storeRepositories.teamExists s player.TeamID = .ok true := by
      rw [hteam]; exact ht
    have hfree : storeRepositories.playerIsJerseyNumberTaken s player.TeamID
        player.JerseyNumber (some player.ID) = .ok false := by
      simp only [storeRepositories, playerRepositoryImpl.IsJerseyNumberTaken, Except.ok.injEq,
        decide_eq_false_iff_not, gt_iff_lt, List.length_pos_iff_exists_mem, not_exists]
      intro x hx
      simp only [List.mem_filter, Bool.and_eq_true, Bool.not_eq_true', beq_iff_eq,
        bne_iff_ne, ne_eq] at hx
      obtain ⟨⟨hx1, ⟨hx2, hx3⟩, hx4⟩, hx5⟩ := hx
      exact hx5 ((hother x hx1 hx2 (hx3.trans hteam) (hx4.trans hnum)).trans hid.symm)
    rw [playerUseCaseImpl.Update_checked storeRepositories s player hp ht2 hv,
      if_neg (by omega), hfree]
    exact ⟨_, rfl⟩
  · have ht2 : storeRepositories.teamExists s created.TeamID = .ok true := by
      rw [hcteam]; exact ht
    have htaken : storeRepositories.playerIsJerseyNumberTaken s created.TeamID
        created.JerseyNumber none = .ok true := by
      simp only [storeRepositories, playerRepositoryImpl.IsJerseyNumberTaken, Except.ok.injEq,
        decide_eq_true_eq, gt_iff_lt]
      apply List.length_pos_of_mem (a := p0)
      simp [List.mem_filter, hmem, hlive, hcteam, hcnum]
    rw [playerUseCaseImpl.Create_checked storeRepositories s created ht2 hcv,
      if_neg (by omega), htaken]
    rfl

/-- Witness of C27: player 1 of team 1 wears number 9; updating player 1 with
the same team and number succeeds, creating another player of team 1 with
number 9 fails. -/
theorem Update_excludes_self_witness :
    (∃ s1 : Store, playerUseCaseImpl.Update storeRepositories samplePlayerStore
      { samplePlayer 1 1 9 with Name := "renamed" } = (.ok (), s1)) ∧
    playerUseCaseImpl.Create storeRepositories samplePlayerStore (samplePlayer 0 1 9)
      = (.error .ErrJerseyNumberTaken, samplePlayerStore) :=
  Update_excludes_self samplePlayerStore (samplePlayer 1 1 9)
    { samplePlayer 1 1 9 with Name := "renamed" } (samplePlayer 0 1 9)
    (by decide) rfl rfl rfl rfl (by decide) (by decide) (by decide) (by decide) (by decide)
    rfl rfl (by decide)

/-! ### Store failures -/

/-- C22: over any repositories, when the fetch fails with the record-not-found
sentinel, `GetByID` and `GetByIDWithDetails` of the match use case and
`RecordResult` answer `ErrMatchNotFound`, `GetByID` of the team use case
answers `ErrTeamNotFound` and `GetByID` of the player use case answers
`ErrPlayerNotFound`; when the fetch fails with any other error, each of them
answers that same error. `RecordResult` leaves the store as it was in both
cases. -/
theorem store_errors_passed_through {σ : Type} (r : Repositories σ) (s : σ) (id : UUID)
    (input : MatchResultInput) (e : Err) :
    (r.matchFindByID s id = .error e →
      matchUseCaseImpl.GetByID r s id =
        .error (if e = .ErrRecordNotFound then .ErrMatchNotFound else e)) ∧
    (r.matchFindByIDWithDetails s id = .error e →
      matchUseCaseImpl.GetByIDWithDetails r s id =
        .error (if e = .ErrRecordNotFound then .ErrMatchNotFound else e) ∧
      matchUseCaseImpl.RecordResult r s id input =
        (.error (if e = .ErrRecordNotFound then .ErrMatchNotFound else e), s)) ∧
    (r.teamFindByID s id = .error e →
      teamUseCaseImpl.GetByID r s id =
        .error (if e = .ErrRecordNotFound then .ErrTeamNotFound else e)) ∧
    (r.playerFindByID s id = .error e →
      playerUseCaseImpl.GetByID r s id =
        .error (if e = .ErrRecordNotFound then .ErrPlayerNotFound else e)) := by
  refine ⟨?_, ?_, ?_, ?_⟩
  · intro h
    simp only [matchUseCaseImpl.GetByID, h]
    split <;> rfl
  · intro h
    constructor
    · simp only [matchUseCaseImpl.GetByIDWithDetails, h]
      split <;> rfl
    · simp only [matchUseCaseImpl.RecordResult, h]
      split <;> rfl
  · intro h
    simp only [teamUseCaseImpl.GetByID, h]
    split <;> rfl
  · intro h
    simp only [playerUseCaseImpl.GetByID, h]
    split <;> rfl

/-- Witness of C22: a store that reports failure 7 makes the five calls answer
failure 7; the record store, in which id 5 is unknown, makes them answer the
not-found error of their kind. -/
theorem store_errors_passed_through_witness :
    matchUseCaseImpl.GetByID (failingRepositories (.StoreFailure 7)) sampleStore 1
      = .error (.StoreFailure 7) ∧
    matchUseCaseImpl.GetByIDWithDetails (failingRepositories (.StoreFailure 7)) sampleStore 1
      = .error (.StoreFailure 7) ∧
    matchUseCaseImpl.RecordResult (failingRepositories (.StoreFailure 7)) sampleStore 1
      sampleInput1 = (.error (.StoreFailure 7), sampleStore) ∧
    teamUseCaseImpl.GetByID (failingRepositories (.StoreFailure 7)) sampleStore 1
      = .error (.StoreFailure 7) ∧
    playerUseCaseImpl.GetByID (failingRepositories (.StoreFailure 7)) sampleStore 1
      = .error (.StoreFailure 7) ∧
    matchUseCaseImpl.GetByID storeRepositories sampleStore 5 = .error .ErrMatchNotFound ∧
    teamUseCaseImpl.GetByID storeRepositories sampleStore 5 = .error .ErrTeamNotFound ∧
    playerUseCaseImpl.GetByID storeRepositories sampleStore 5 = .error .ErrPlayerNotFound :=
  ⟨(store_errors_passed_through (failingRepositories (.StoreFailure 7)) sampleStore 1
      sampleInput1 (.StoreFailure 7)).1 rfl,
   ((store_errors_passed_through (failingRepositories (.StoreFailure 7)) sampleStore 1
      sampleInput1 (.StoreFailure 7)).2.1 rfl).1,
   ((store_errors_passed_through (failingRepositories (.StoreFailure 7)) sampleStore 1
      sampleInput1 (.StoreFailure 7)).2.1 rfl).2,
   (store_errors_passed_through (failingRepositories (.StoreFailure 7)) sampleStore 1
      sampleInput1 (.StoreFailure 7)).2.2.1 rfl,
   (store_errors_passed_through (failingRepositories (.StoreFailure 7)) sampleStore 1
      sampleInput1 (.StoreFailure 7)).2.2.2 rfl,
   (store_errors_passed_through storeRepositories sampleStore 5 sampleInput1
      .ErrRecordNotFound).1 (by decide),
   (store_errors_passed_through storeRepositories sampleStore 5 sampleInput1
      .ErrRecordNotFound).2.2.1 (by decide),
   (store_errors_passed_through storeRepositories sampleStore 5 sampleInput1
      .ErrRecordNotFound).2.2.2 (by decide)⟩

/-! ### What RecordResult hands to the batch insert -/

/-- The goal records the loop of `RecordResult` builds, when it builds any, are
the input goals under the match id, in input order, over any repositories. -/
theorem RecordResult.goals_built {σ : Type} (r : Repositories σ) (s : σ) (matchID : UUID)
    (gs : List GoalInput) (built : List Goal)
    (h : matchUseCaseImpl.RecordResult.goals r s matchID gs = .ok built) :
    built = gs.map (fun g => g.toGoal matchID) := by
  induction gs generalizing built with
  | nil =>
    simp only [matchUseCaseImpl.RecordResult.goals, Except.ok.injEq] at h
    rw [← h]; rfl
  | cons g rest ih =>
    simp only [matchUseCaseImpl.RecordResult.goals] at h
    cases hp : r.playerExists s g.PlayerID with
    | error e => rw [hp] at h; cases h
    | ok b =>
      cases b with
      | false => simp [hp] at h
      | true =>
        cases hr : matchUseCaseImpl.RecordResult.goals r s matchID rest with
        | error e => simp [hp, hr] at h
        | ok built2 =>
          simp [hp, hr] at h
          rw [← h, ih built2 hr]
          rfl

/-- The goal loop over the logging repositories is the goal loop over the
store. -/
theorem RecordResult.goals_logged (ls : LoggedStore) (matchID : UUID) (gs : List GoalInput) :
    matchUseCaseImpl.RecordResult.goals loggingRepositories ls matchID gs
      = matchUseCaseImpl.RecordResult.goals storeRepositories ls.store matchID gs := by
  induction gs with
  | nil => rfl
  | cons g rest ih =>
    simp only [matchUseCaseImpl.RecordResult.goals, loggingRepositories, storeRepositories]
      at ih ⊢
    rw [ih]

/-- A `RecordResult` call over the logging repositories answers as the same
call over the store; its log grows by the one batch of the input goals when
the call succeeds and the input has goals, and by nothing otherwise. -/
theorem RecordResult_logged (ls : LoggedStore) (matchID : UUID) (input : MatchResultInput) :
    (matchUseCaseImpl.RecordResult loggingRepositories ls matchID input).1
      = (matchUseCaseImpl.RecordResult storeRepositories ls.store matchID input).1 ∧
    (matchUseCaseImpl.RecordResult loggingRepositories ls matchID input).2.batches
      = ls.batches ++
        (match (matchUseCaseImpl.RecordResult storeRepositories ls.store matchID input).1 with
         | .ok _ => if input.Goals = [] then []
                    else [input.Goals.map (fun g => g.toGoal matchID)]
         | .error _ => []) := by
  cases hm : matchRepositoryImpl.FindByID ls.store matchID with
  | error e =>
    have hl : matchUseCaseImpl.RecordResult loggingRepositories ls matchID input
        = (.error (if e = .ErrRecordNotFound then .ErrMatchNotFound else e), ls) := by
      simp only [matchUseCaseImpl.RecordResult, loggingRepositories,
        matchRepositoryImpl.FindByIDWithDetails, hm]
      split <;> rfl
    have hs : matchUseCaseImpl.RecordResult storeRepositories ls.store matchID input
        = (.error (if e = .ErrRecordNotFound then .ErrMatchNotFound else e), ls.store) := by
      simp only [matchUseCaseImpl.RecordResult, storeRepositories,
        matchRepositoryImpl.FindByIDWithDetails, hm]
      split <;> rfl
    rw [hl, hs]
    simp
  | ok m =>
    obtain ⟨hmem, hid, hdel⟩ := matchRepositoryImpl.FindByID_ok hm
    have h0l : loggingRepositories.matchFindByIDWithDetails ls matchID =
        .ok { m with Goals := goalRepositoryImpl.FindByMatchID ls.store matchID } := by
      simp [loggingRepositories, matchRepositoryImpl.FindByIDWithDetails, hm]
    have h0s : storeRepositories.matchFindByIDWithDetails ls.store matchID =
        .ok { m with Goals := goalRepositoryImpl.FindByMatchID ls.store matchID } := by
      simp [storeRepositories, matchRepositoryImpl.FindByIDWithDetails, hm]
    obtain ⟨s1, h1s, _, _, hm1, _, _⟩ := deleteStep_spec ls.store matchID m.Status
    have h1l : (if m.Status = MatchStatusCompleted then
        loggingRepositories.goalDeleteByMatchID ls matchID else .ok ls)
        = .ok { store := s1, batches := ls.batches } := by
      by_cases hc : m.Status = MatchStatusCompleted
      · rw [if_pos hc] at h1s ⊢
        simp only [loggingRepositories, LoggedStore.write, h1s]
      · rw [if_neg hc] at h1s ⊢
        rw [← Except.ok.inj h1s]
    obtain ⟨s2, h2s, _, _, _, hf2⟩ := matchRepositoryImpl.Update_spec s1
      { m with HomeScore := some input.HomeScore, AwayScore := some input.AwayScore,
               Status := MatchStatusCompleted,
               Goals := goalRepositoryImpl.FindByMatchID ls.store matchID }
      ⟨m, by rw [hm1]; exact hmem, rfl⟩ hdel
    have h2l : loggingRepositories.matchUpdate { store := s1, batches := ls.batches }
        { m with HomeScore := some input.HomeScore, AwayScore := some input.AwayScore,
                 Status := MatchStatusCompleted,
                 Goals := goalRepositoryImpl.FindByMatchID ls.store matchID }
        = .ok { store := s2, batches := ls.batches } := by
      simp only [loggingRepositories, LoggedStore.write, h2s]
    cases h3s : matchUseCaseImpl.RecordResult.goals storeRepositories s2 matchID input.Goals with
    | error e =>
      have h3l : matchUseCaseImpl.RecordResult.goals loggingRepositories
          { store := s2, batches := ls.batches } matchID input.Goals = .error e :=
        (RecordResult.goals_logged _ matchID input.Goals).trans h3s
      rw [RecordResult_steps_error loggingRepositories ls _ _ matchID input _ e h0l h1l h2l h3l,
        RecordResult_steps_error storeRepositories ls.store s1 s2 matchID input _ e h0s h1s h2s
          h3s]
      simp
    | ok built =>
      have h3l : matchUseCaseImpl.RecordResult.goals loggingRepositories
          { store := s2, batches := ls.batches } matchID input.Goals = .ok built :=
        (RecordResult.goals_logged _ matchID input.Goals).trans h3s
      have hb := RecordResult.goals_built storeRepositories s2 matchID input.Goals built h3s
      obtain ⟨s3, h4s, hm3⟩ : ∃ s3 : Store,
          (if built.length > 0 then storeRepositories.goalCreateBatch s2 built else .ok s2)
            = .ok s3 ∧ s3.matchRows = s2.matchRows := by
        split
        · exact ⟨_, rfl, rfl⟩
        · exact ⟨_, rfl, rfl⟩
      have hf3 : matchRepositoryImpl.FindByID s3 matchID =
          .ok { m with HomeScore := some input.HomeScore, AwayScore := some input.AwayScore,
                       Status := MatchStatusCompleted, Goals := [] } := by
        rw [matchRepositoryImpl.FindByID_congr s2 s3 hm3, ← hid]
        exact hf2
      have hfetch : storeRepositories.matchFindByIDWithDetails s3 matchID =
          .ok { m with HomeScore := some input.HomeScore, AwayScore := some input.AwayScore,
                       Status := MatchStatusCompleted,
                       Goals := goalRepositoryImpl.FindByMatchID s3 matchID } := by
        simp [storeRepositories, matchRepositoryImpl.FindByIDWithDetails, hf3]
      have hstore := RecordResult_steps storeRepositories ls.store s1 s2 s3 matchID input _
        built h0s h1s h2s h3s h4s
      by_cases hnil : input.Goals = []
      · have hlen : ¬ built.length > 0 := by
          rw [hb, hnil]; simp
        rw [if_neg hlen] at h4s
        have h4l : (if built.length > 0 then
            loggingRepositories.goalCreateBatch { store := s2, batches := ls.batches } built
            else .ok { store := s2, batches := ls.batches })
            = .ok { store := s3, batches := ls.batches } := by
          rw [if_neg hlen, ← Except.ok.inj h4s]
        rw [RecordResult_steps loggingRepositories ls _ _ _ matchID input _ built h0l h1l h2l
          h3l h4l, hstore, hfetch]
        refine ⟨hfetch, ?_⟩
        simp [hnil]
      · have hlen : built.length > 0 := by
          rw [hb, List.length_map]
          exact List.length_pos.mpr hnil
        rw [if_pos hlen] at h4s
        have h4s2 : goalRepositoryImpl.CreateBatch s2 built = .ok s3 := h4s
        have h4l : (if built.length > 0 then
            loggingRepositories.goalCreateBatch { store := s2, batches := ls.batches } built
            else .ok { store := s2, batches := ls.batches })
            = .ok { store := s3, batches := ls.batches ++ [built] } := by
          rw [if_pos hlen]
          simp only [loggingRepositories, h4s2]
        rw [RecordResult_steps loggingRepositories ls _ _ _ matchID input _ built h0l h1l h2l
          h3l h4l, hstore, hfetch]
        refine ⟨hfetch, ?_⟩
        simp [hnil, hb]

/-- C24: `RecordResult` on the logged store succeeds exactly when the match is
found and the player of every input goal exists, a condition in which neither
`TeamID` nor `IsOwnGoal` occurs, so an input with the same players and any
other teams and own-goal flags succeeds exactly when this one does. When the
call succeeds, the log of batch inserts has grown by exactly one batch if the
input has goals, and has not grown if it has none; when it fails, the log has
not grown. The batch holds one goal record per input goal, in input order,
each under the match id with the player, team, minute and own-goal flag of
its input. -/
theorem RecordResult_batch_insert (ls : LoggedStore) (matchID : UUID)
    (input : MatchResultInput) :
    ((∃ r0, (matchUseCaseImpl.RecordResult loggingRepositories ls matchID input).1 = .ok r0) ↔
      ((∃ m, matchRepositoryImpl.FindByID ls.store matchID = .ok m) ∧
       ∀ g ∈ input.Goals, playerRepositoryImpl.Exists ls.store g.PlayerID = .ok true)) ∧
    (∀ input2 : MatchResultInput,
      input2.Goals.map (fun g => g.PlayerID) = input.Goals.map (fun g => g.PlayerID) →
      ((∃ r0, (matchUseCaseImpl.RecordResult loggingRepositories ls matchID input2).1
          = .ok r0) ↔
       (∃ r0, (matchUseCaseImpl.RecordResult loggingRepositories ls matchID input).1
          = .ok r0))) ∧
    (∀ r0, (matchUseCaseImpl.RecordResult loggingRepositories ls matchID input).1 = .ok r0 →
      (matchUseCaseImpl.RecordResult loggingRepositories ls matchID input).2.batches =
        ls.batches ++ (if input.Goals = [] then []
                       else [input.Goals.map (fun g => g.toGoal matchID)])) ∧
    (∀ e, (matchUseCaseImpl.RecordResult loggingRepositories ls matchID input).1 = .error e →
      (matchUseCaseImpl.RecordResult loggingRepositories ls matchID input).2.batches
        = ls.batches) ∧
    (input.Goals.map (fun g => g.toGoal matchID)).length = input.Goals.length ∧
    (input.Goals.map (fun g => g.toGoal matchID)).map Goal.toInput = input.Goals ∧
    (∀ g ∈ input.Goals.map (fun g => g.toGoal matchID), g.MatchID = matchID) := by
  have key : ∀ inp : MatchResultInput,
      (∃ r0, (matchUseCaseImpl.RecordResult loggingRepositories ls matchID inp).1 = .ok r0) ↔
        ((∃ m, matchRepositoryImpl.FindByID ls.store matchID = .ok m) ∧
         ∀ g ∈ inp.Goals, playerRepositoryImpl.Exists ls.store g.PlayerID = .ok true) := by
    intro inp
    rw [(RecordResult_logged ls matchID inp).1]
    constructor
    · rintro ⟨r0, hr0⟩
      exact RecordResult_ok_inv ls.store matchID inp r0 hr0
    · rintro ⟨⟨m, hm⟩, hp⟩
      obtain ⟨s3, hr, _⟩ := RecordResult_found ls.store matchID inp m hm hp
      exact ⟨_, by rw [hr]⟩
  have players : ∀ inp : MatchResultInput,
      (∀ g ∈ inp.Goals, playerRepositoryImpl.Exists ls.store g.PlayerID = .ok true) ↔
        ∀ id ∈ inp.Goals.map (fun g => g.PlayerID),
          playerRepositoryImpl.Exists ls.store id = .ok true := by
    intro inp
    constructor
    · intro h id hid
      obtain ⟨g, hg, rfl⟩ := List.mem_map.mp hid
      exact h g hg
    · intro h g hg
      exact h g.PlayerID (List.mem_map.mpr ⟨g, hg, rfl⟩)
  refine ⟨key input, ?_, ?_, ?_, List.length_map _ _, ?_, ?_⟩
  · intro input2 hsame
    rw [key input2, key input, players input2, players input, hsame]
  · intro r0 hr0
    obtain ⟨h1, h2⟩ := RecordResult_logged ls matchID input
    rw [h1] at hr0
    rw [h2, hr0]
  · intro e he
    obtain ⟨h1, h2⟩ := RecordResult_logged ls matchID input
    rw [h1] at he
    rw [h2, he]
    simp
  · rw [List.map_map]
    conv_rhs => rw [← List.map_id input.Goals]
    apply List.map_congr_left
    intro g _
    rfl
  · intro g hg
    obtain ⟨x, _, hx⟩ := List.mem_map.mp hg
    rw [← hx]
    rfl

/-- Witness of C24: two goals of player 1 recorded for match 1, the second an
own goal credited to team 2, are handed over in one batch as given; a result
without goals is recorded without a batch insert; a result that names a
missing player fails without a batch insert. -/
theorem RecordResult_batch_insert_witness :
    (matchUseCaseImpl.RecordResult loggingRepositories
        { store := sampleStoreWithMatch, batches := [] } 1 sampleInputOwnGoal).2.batches
      = [[{ ID := 0, Deleted := false, MatchID := 1, PlayerID := 1, TeamID := 1, Minute := 12,
            IsOwnGoal := false },
          { ID := 0, Deleted := false, MatchID := 1, PlayerID := 1, TeamID := 2, Minute := 80,
            IsOwnGoal := true }]] ∧
    (matchUseCaseImpl.RecordResult loggingRepositories
        { store := sampleStoreWithMatch, batches := [] } 1 sampleInputNoGoals).2.batches
      = [] ∧
    (matchUseCaseImpl.RecordResult loggingRepositories
        { store := sampleStoreWithMatch, batches := [] } 1 sampleInputMissing).2.batches
      = [] := by
  have h1 := (RecordResult_batch_insert { store := sampleStoreWithMatch, batches := [] } 1
    sampleInputOwnGoal).2.2.1
    { sampleMatch 1 2 with
      ID := 1, HomeScore := some 1, AwayScore := some 1, Status := MatchStatusCompleted,
      Goals := [{ ID := 1, Deleted := false, MatchID := 1, PlayerID := 1, TeamID := 1,
                  Minute := 12, IsOwnGoal := false },
                { ID := 2, Deleted := false, MatchID := 1, PlayerID := 1, TeamID := 2,
                  Minute := 80, IsOwnGoal := true }] } (by decide)
  have h2 := (RecordResult_batch_insert { store := sampleStoreWithMatch, batches := [] } 1
    sampleInputNoGoals).2.2.1
    { sampleMatch 1 2 with
      ID := 1, HomeScore := some 0, AwayScore := some 0, Status := MatchStatusCompleted }
    (by decide)
  have h3 := (RecordResult_batch_insert { store := sampleStoreWithMatch, batches := [] } 1
    sampleInputMissing).2.2.2.1 .ErrPlayerNotFound (by decide)
  rw [h1, h2, h3]
  exact ⟨by decide, by decide, rfl⟩

/-! ### Minutes of persisted goals -/

/-- A goal of an inserted batch has the minute of one of the goals handed
over. -/
theorem mem_assignGoalIDs (goals : List Goal) (next : UUID) (g : Goal)
    (h : g ∈ assignGoalIDs next goals) : ∃ g0 ∈ goals, g0.Minute = g.Minute := by
  induction goals generalizing next with
  | nil => simp [assignGoalIDs] at h
  | cons x rest ih =>
    simp only [assignGoalIDs, List.mem_cons] at h
    rcases h with h | h
    · exact ⟨x, List.mem_cons_self _ _, by rw [h]⟩
    · obtain ⟨g0, hg0, hm⟩ := ih next.succ h
      exact ⟨g0, List.mem_cons_of_mem _ hg0, hm⟩

/-- The goal table after a `RecordResult` call of the use case: every row has
the identity and minute of a row that was there before, or the minute of a
goal of the input. -/
theorem RecordResult_goalRows (s : Store) (matchID : UUID) (input : MatchResultInput)
    (g : Goal)
    (hg : g ∈ (matchUseCaseImpl.RecordResult storeRepositories s matchID input).2.goalRows) :
    (∃ g0 ∈ s.goalRows, g0.ID = g.ID ∧ g0.Minute = g.Minute) ∨
    (∃ gi ∈ input.Goals, gi.Minute = g.Minute) := by
  cases hm : matchRepositoryImpl.FindByID s matchID with
  | error e =>
    have hst : (matchUseCaseImpl.RecordResult storeRepositories s matchID input).2 = s := by
      simp only [matchUseCaseImpl.RecordResult, storeRepositories,
        matchRepositoryImpl.FindByIDWithDetails, hm]
      split <;> rfl
    rw [hst] at hg
    exact Or.inl ⟨g, hg, rfl, rfl⟩
  | ok m =>
    have h0 : storeRepositories.matchFindByIDWithDetails s matchID =
        .ok { m with Goals := goalRepositoryImpl.FindByMatchID s matchID } := by
      simp [storeRepositories, matchRepositoryImpl.FindByIDWithDetails, hm]
    obtain ⟨s1, h1, _, _, _, hg1, _⟩ := deleteStep_spec s matchID m.Status
    have hold : ∀ x ∈ s1.goalRows, ∃ g0 ∈ s.goalRows, g0.ID = x.ID ∧ g0.Minute = x.Minute := by
      intro x hx
      rw [hg1] at hx
      by_cases hc : m.Status = MatchStatusCompleted
      · rw [if_pos hc] at hx
        obtain ⟨y, hy, hyx⟩ := List.mem_map.mp hx
        refine ⟨y, hy, ?_⟩
        by_cases e : y.MatchID = matchID
        · rw [if_pos e] at hyx; rw [← hyx]; exact ⟨rfl, rfl⟩
        · rw [if_neg e] at hyx; rw [← hyx]; exact ⟨rfl, rfl⟩
      · rw [if_neg hc] at hx
        exact ⟨x, hx, rfl, rfl⟩
    obtain ⟨s2, h2, hg2⟩ : ∃ s2, storeRepositories.matchUpdate s1
        { m with HomeScore := some input.HomeScore, AwayScore := some input.AwayScore,
                 Status := MatchStatusCompleted,
                 Goals := goalRepositoryImpl.FindByMatchID s matchID } = .ok s2 ∧
        s2.goalRows = s1.goalRows := ⟨_, rfl, rfl⟩
    cases h3 : matchUseCaseImpl.RecordResult.goals storeRepositories s2 matchID input.Goals with
    | error e =>
      rw [RecordResult_steps_error storeRepositories s s1 s2 matchID input _ e h0 h1 h2 h3]
        at hg
      rw [hg2] at hg
      exact Or.inl (hold g hg)
    | ok built =>
      have hb := RecordResult.goals_built storeRepositories s2 matchID input.Goals built h3
      obtain ⟨s3, h4, hg3⟩ : ∃ s3,
          (if built.length > 0 then storeRepositories.goalCreateBatch s2 built else .ok s2)
            = .ok s3 ∧
          ∀ x ∈ s3.goalRows, x ∈ s2.goalRows ∨ ∃ g0 ∈ built, g0.Minute = x.Minute := by
        split
        · refine ⟨_, rfl, ?_⟩
          intro x hx
          rcases List.mem_append.mp hx with hx | hx
          · exact Or.inl hx
          · exact Or.inr (mem_assignGoalIDs built _ x hx)
        · exact ⟨_, rfl, fun x hx => Or.inl hx⟩
      rw [RecordResult_steps storeRepositories s s1 s2 s3 matchID input _ built h0 h1 h2 h3 h4]
        at hg
      rcases hg3 g hg with hx | ⟨g0, hg0, hmin⟩
      · rw [hg2] at hx
        exact Or.inl (hold g hx)
      · rw [hb] at hg0
        obtain ⟨gi, hgi, hgi0⟩ := List.mem_map.mp hg0
        refine Or.inr ⟨gi, hgi, ?_⟩
        rw [← hmin, ← hgi0]
        rfl

/-- The goals the handler converts keep the minutes of the request. -/
theorem MatchHandler.RecordResult.goals_minutes (parseUUID : String → Except Err UUID)
    (reqs : List GoalRequest) (goals : List GoalInput)
    (h : MatchHandler.RecordResult.goals parseUUID reqs = .ok goals) :
    ∀ gi ∈ goals, ∃ gr ∈ reqs, gr.Minute = gi.Minute := by
  induction reqs generalizing goals with
  | nil =>
    simp only [MatchHandler.RecordResult.goals, Except.ok.injEq] at h
    rw [← h]
    intro gi hgi
    cases hgi
  | cons x rest ih =>
    simp only [MatchHandler.RecordResult.goals] at h
    cases hp : parseUUID x.PlayerID with
    | error e => rw [hp] at h; cases h
    | ok playerID =>
      cases ht : parseUUID x.TeamID with
      | error e => rw [hp, ht] at h; cases h
      | ok teamID =>
        cases hr : MatchHandler.RecordResult.goals parseUUID rest with
        | error e => rw [hp, ht, hr] at h; cases h
        | ok goals2 =>
          rw [hp, ht, hr] at h
          simp only [Except.ok.injEq] at h
          rw [← h]
          intro gi hgi
          rcases List.mem_cons.mp hgi with hgi | hgi
          · exact ⟨x, List.mem_cons_self _ _, by rw [hgi]⟩
          · obtain ⟨gr, hgr, hmin⟩ := ih goals2 hr gi hgi
            exact ⟨gr, List.mem_cons_of_mem _ hgr, hmin⟩

/-- A request body that passes its binding tags has every goal's minute
between 1 and 120. -/
theorem RecordMatchResultRequest.binding_minutes (isUUID : String → Bool)
    (req : RecordMatchResultRequest) (h : req.binding isUUID = true) :
    ∀ gr ∈ req.Goals, 1 ≤ gr.Minute ∧ gr.Minute ≤ 120 := by
  intro gr hgr
  simp only [RecordMatchResultRequest.binding, Bool.and_eq_true, List.all_eq_true] at h
  have hb := h.2 gr hgr
  simp only [GoalRequest.binding, Bool.and_eq_true, decide_eq_true_eq] at hb
  exact ⟨hb.2.1.2, hb.2.2⟩

/-- The use case by itself takes a goal's minute as given: a goal in minute
500 handed to it directly is stored. -/
theorem RecordResult_use_case_takes_minute_as_given :
    ((matchUseCaseImpl.RecordResult storeRepositories sampleStoreWithMatch 1
        { HomeScore := 1, AwayScore := 0,
          Goals := [{ PlayerID := 1, TeamID := 1, Minute := 500,
                      IsOwnGoal := false }] }).2.goalRows.map
      (fun g => g.Minute)) = [500] := by
  decide

/-- C23: after the handler of the record-result endpoint has run on a request
body, every row of the goal table either has a minute between 1 and 120 or has
the identity and minute of a row that was in the table before the request; and
a body with a goal whose minute is below 1 or above 120 is refused with the
store left as it was. -/
theorem persisted_minute_in_range (isUUID : String → Bool)
    (parseUUID : String → Except Err UUID) (s : Store) (id : UUID)
    (req : RecordMatchResultRequest) :
    (∀ g ∈ (MatchHandler.RecordResult isUUID parseUUID storeRepositories s id req).2.goalRows,
      (1 ≤ g.Minute ∧ g.Minute ≤ 120) ∨
      ∃ g0 ∈ s.goalRows, g0.ID = g.ID ∧ g0.Minute = g.Minute) ∧
    ((∃ gr ∈ req.Goals, gr.Minute < 1 ∨ 120 < gr.Minute) →
      MatchHandler.RecordResult isUUID parseUUID storeRepositories s id req
        = (.error (.New "Invalid request body"), s)) := by
  constructor
  · intro g hg
    by_cases hb : req.binding isUUID = false
    · simp only [MatchHandler.RecordResult, hb, if_true] at hg
      exact Or.inr ⟨g, hg, rfl, rfl⟩
    · have hbt : req.binding isUUID = true := by
        cases h : req.binding isUUID
        · exact absurd h hb
        · rfl
      cases hc : MatchHandler.RecordResult.goals parseUUID req.Goals with
      | error e =>
        simp only [MatchHandler.RecordResult, hb, if_false, hc] at hg
        exact Or.inr ⟨g, hg, rfl, rfl⟩
      | ok goals =>
        simp only [MatchHandler.RecordResult, hb, if_false, hc] at hg
        rcases RecordResult_goalRows s id _ g hg with hold | ⟨gi, hgi, hmin⟩
        · exact Or.inr hold
        · obtain ⟨gr, hgr, hmin2⟩ :=
            MatchHandler.RecordResult.goals_minutes parseUUID req.Goals goals hc gi hgi
          have hr := RecordMatchResultRequest.binding_minutes isUUID req hbt gr hgr
          rw [hmin2, hmin] at hr
          exact Or.inl hr
  · rintro ⟨gr, hgr, hout⟩
    have hb : req.binding isUUID = false := by
      cases h : req.binding isUUID
      · rfl
      · have hr := RecordMatchResultRequest.binding_minutes isUUID req h gr hgr
        omega
    simp only [MatchHandler.RecordResult, hb, if_true]

/-- Witness of C23: on the sample store a body with a goal in minute 121 is
refused and the store is as before, and a body with a goal in minute 120 has
that goal stored. -/
theorem persisted_minute_in_range_witness :
    MatchHandler.RecordResult sampleIsUUID sampleParseUUID storeRepositories
        sampleStoreWithMatch 1 (sampleResultRequest 121)
      = (.error (.New "Invalid request body"), sampleStoreWithMatch) ∧
    ((MatchHandler.RecordResult sampleIsUUID sampleParseUUID storeRepositories
        sampleStoreWithMatch 1 (sampleResultRequest 120)).2.goalRows.map
      (fun g => g.Minute)) = [120] :=
  ⟨(persisted_minute_in_range sampleIsUUID sampleParseUUID sampleStoreWithMatch 1
      (sampleResultRequest 121)).2
      ⟨_, List.mem_singleton.mpr rfl, Or.inr (by decide)⟩,
    by decide⟩

/-! ### Pages of a listing -/

/-- The offset of a page is the mathematical `(page - 1) * limit` as long as
that product is below `2^63`. -/
theorem wrapInt_offset (page limit : Int) (hp : 1 ≤ page) (hl : 1 ≤ limit)
    (hb : (page - 1) * limit < 2 ^ 63) :
    wrapInt (wrapInt (page - 1) * limit) = (page - 1) * limit := by
  have h0 : 0 ≤ page - 1 := by omega
  have h1 : page - 1 ≤ (page - 1) * limit := le_mul_of_one_le_right h0 hl
  have h2 : wrapInt (page - 1) = page - 1 := by
    simp only [wrapInt]; omega
  rw [h2]
  have h3 : 0 ≤ (page - 1) * limit := Int.mul_nonneg h0 (by omega)
  generalize (page - 1) * limit = x at *
  simp only [wrapInt]; omega

/-- A page of a list: its length, and the pages from the first on, put one
after the other, are the beginning of the list. -/
theorem page_slices {α : Type} (l : List α) (L : Nat) :
    (∀ k : Nat, ((l.drop (k * L)).take L).length = min L (l.length - k * L)) ∧
    (∀ n : Nat, ((List.range n).map (fun k => (l.drop (k * L)).take L)).flatten
        = l.take (n * L)) := by
  constructor
  · intro k
    rw [List.length_take, List.length_drop]
  · intro n
    induction n with
    | zero => simp
    | succ n ih =>
      rw [List.range_succ, List.map_append, List.flatten_append, ih, Nat.succ_mul,
        List.take_add]
      simp

/-- Within the range of the machine integers the listings are as the
pagination invariant says: for a page from 1 on and a limit from 1 on whose
offset `(page - 1) * limit` is below `2^63`, `FindAll` returns the rows that
are not soft-deleted, newest first, from that offset on and at most `limit` of
them, which are `min(limit, max(0, total - offset))` rows, together with the
total. -/
theorem FindAll_within_range (s : Store) (page limit : Int) (hp : 1 ≤ page) (hl : 1 ≤ limit)
    (hb : (page - 1) * limit < 2 ^ 63) :
    (∃ teams, teamRepositoryImpl.FindAll s page limit
        = .ok (teams, ((s.teamRows.filter (fun t => !t.Deleted)).length : Int)) ∧
      teams = (((s.teamRows.filter (fun t => !t.Deleted)).reverse).drop
                ((page.toNat - 1) * limit.toNat)).take limit.toNat ∧
      (teams.length : Int) = min limit (max 0
        (((s.teamRows.filter (fun t => !t.Deleted)).length : Int) - (page - 1) * limit))) ∧
    (∃ players, playerRepositoryImpl.FindAll s page limit
        = .ok (players, ((s.playerRows.filter (fun p => !p.Deleted)).length : Int)) ∧
      players = (((s.playerRows.filter (fun p => !p.Deleted)).reverse).drop
                ((page.toNat - 1) * limit.toNat)).take limit.toNat ∧
      (players.length : Int) = min limit (max 0
        (((s.playerRows.filter (fun p => !p.Deleted)).length : Int) - (page - 1) * limit))) := by
  have hw := wrapInt_offset page limit hp hl hb
  have hoff : ((page - 1) * limit).toNat = (page.toNat - 1) * limit.toNat := by
    obtain ⟨p, rfl⟩ := Int.eq_ofNat_of_zero_le (show (0 : Int) ≤ page by omega)
    obtain ⟨q, rfl⟩ := Int.eq_ofNat_of_zero_le (show (0 : Int) ≤ limit by omega)
    have hp1 : 1 ≤ p := by omega
    have : ((p : Int) - 1) * (q : Int) = (((p - 1) * q : Nat) : Int) := by
      push_cast [Nat.cast_sub hp1]
      ring
    rw [this]
    simp only [Int.toNat_ofNat]
  have hlen : ∀ {α : Type} (l : List α),
      (((l.reverse.drop ((page.toNat - 1) * limit.toNat)).take limit.toNat).length : Int)
        = min limit (max 0 ((l.length : Int) - (page - 1) * limit)) := by
    intro α l
    rw [List.length_take, List.length_drop, List.length_reverse, ← hoff]
    have h3 : 0 ≤ (page - 1) * limit := Int.mul_nonneg (by omega) (by omega)
    generalize (page - 1) * limit = x at *
    omega
  refine ⟨⟨_, ?_, rfl, hlen _⟩, ⟨_, ?_, rfl, hlen _⟩⟩
  · simp only [teamRepositoryImpl.FindAll, hw, hoff]
  · simp only [playerRepositoryImpl.FindAll, hw, hoff]

/-- Witness of the pagination invariant within range: two teams listed one to
a page come newest first on pages 1 and 2, and page 3 is empty. -/
theorem FindAll_within_range_witness :
    teamRepositoryImpl.FindAll sampleStore 1 1 = .ok ([sampleTeam 2], 2) ∧
    teamRepositoryImpl.FindAll sampleStore 2 1 = .ok ([sampleTeam 1], 2) ∧
    teamRepositoryImpl.FindAll sampleStore 3 1 = .ok ([], 2) := by
  obtain ⟨⟨t1, h1, e1, _⟩, _⟩ := FindAll_within_range sampleStore 1 1 (by decide) (by decide)
    (by decide)
  obtain ⟨⟨t2, h2, e2, _⟩, _⟩ := FindAll_within_range sampleStore 2 1 (by decide) (by decide)
    (by decide)
  obtain ⟨⟨t3, h3, e3, _⟩, _⟩ := FindAll_within_range sampleStore 3 1 (by decide) (by decide)
    (by decide)
  rw [h1, h2, h3, e1, e2, e3]
  exact ⟨by decide, by decide, by decide⟩

/-- C21: the pagination invariant fails on a page whose offset leaves the
range of the machine integers. Page `2^62 + 1` with limit 4 passes the
clamping of the handler unchanged; its offset `2^62 * 4 = 2^64` wraps to 0, so
`FindAll` on a store with two teams and one player returns both teams and the
player, where the invariant gives `min(4, max(0, 2 - 2^64)) = 0` rows. -/
theorem FindAll_offset_wraps :
    TeamHandler.GetAll.pageLimit 4611686018427387905 4 = (4611686018427387905, 4) ∧
    PlayerHandler.GetAll.pageLimit 4611686018427387905 4 = (4611686018427387905, 4) ∧
    wrapInt (wrapInt (4611686018427387905 - 1) * 4) = 0 ∧
    teamRepositoryImpl.FindAll sampleStore 4611686018427387905 4
      = .ok ([sampleTeam 2, sampleTeam 1], 2) ∧
    playerRepositoryImpl.FindAll sampleStore 4611686018427387905 4
      = .ok ([samplePlayer 1 1 9], 1) ∧
    min (4 : Int) (max 0 (2 - (4611686018427387905 - 1) * 4)) = 0 := by
  refine ⟨by decide, by decide, by decide, by decide, by decide, by decide⟩

end Football
